import Mathlib

/-!
Epinio application lifecycle handlers.

A shallow embedding of the request handlers of `internal/api/v1`:

* `application.Controller.Create` (`internal/api/v1/application/create.go`)
* `application.Controller.Running` (`internal/api/v1/application/running.go`)
* `env.Controller.Set` (`internal/api/v1/env/set.go`)
* `configuration.Controller.Replace` (`internal/api/v1/configuration/replace.go`)
* `service.Controller.Bind` (`internal/api/v1/service/bind.go`)
* `servicebinding.DeleteBinding` (`internal/api/v1/servicebinding/deletebinding.go`)

The handlers are sequential Go functions that call collaborators living in other
packages (`organizations`, `application`, `services`, `configurations`,
`configurationbinding`, `deploy`, `response`).  The
collaborators are taken as a parameter, the record `Backend`, acting on an explicit
state; every handler returns its result together with the ordered log of the
collaborator calls it made and the final state.
-/

namespace Epinio

/-! ## Data model -/

/-- Reference of an application, `models.AppRef`, as built by `models.NewAppRef(name, org)`. -/
structure AppRef where
  Name : String
  Org : String
  deriving DecidableEq, Repr

/-- Constructor `models.NewAppRef(name, org)`. -/
def NewAppRef (name org : String) : AppRef := ⟨name, org⟩

/-- Environment assignments, `models.EnvVariableMap` (a Go `map[string]string`), kept as an
association list. -/
abbrev EnvVariableMap := List (String × String)

/-- The part of `createRequest.Configuration` read by `Create`: `Instances` is a pointer to a
signed machine integer (absent when `nil`; the handler copies it without arithmetic, so the
integer is kept unbounded), `Services` a slice of names, `Environment` a map. -/
structure ApplicationUpdateRequest where
  Instances : Option Int
  Services : List String
  Environment : EnvVariableMap
  deriving DecidableEq, Repr

/-- Body of a create request, `models.ApplicationCreateRequest`. -/
structure ApplicationCreateRequest where
  Name : String
  Configuration : ApplicationUpdateRequest
  deriving DecidableEq, Repr

/-- Origin of an application (`models.ApplicationOrigin`); the handlers below only ever pass
`nil` for it. -/
structure ApplicationOrigin where
  Kind : Nat
  Ref : String
  deriving DecidableEq, Repr

/-- Running realisation of an application (`models.AppDeployment`), the target of the nullable
field `app.Workload`. -/
structure AppDeployment where
  StageID : String
  Start : Option Int
  deriving DecidableEq, Repr

/-- Application record as returned by `application.Lookup` (`models.App`): the handlers read
`app.Meta` and `app.Workload`; the configuration is what the setters write. -/
structure App where
  Meta : AppRef
  Owner : String
  Instances : Int
  Services : List String
  Environment : EnvVariableMap
  Workload : Option AppDeployment
  deriving DecidableEq, Repr

/-- A configuration as returned by `configurations.Lookup`; `Replace` only passes it on to
`configurations.ReplaceConfiguration`. -/
structure Configuration where
  Name : String
  Org : String
  Values : List (String × String)
  deriving DecidableEq, Repr

/-- Body of a replace request, `models.ConfigurationReplaceRequest`: the new key/value
content of the configuration. -/
abbrev ConfigurationReplaceRequest := List (String × String)

/-- A secret returned by `configurations.LabelServiceSecrets`; `Bind` reads its `Name`. -/
structure Secret where
  Name : String
  deriving DecidableEq, Repr

/-- A bound service as read back by `application.BoundServices`, a full service structure. -/
structure Service where
  Name : String
  Org : String
  deriving DecidableEq, Repr

/-- Body of a bind request, `models.ServiceBindRequest`. -/
structure ServiceBindRequest where
  AppName : String
  deriving DecidableEq, Repr

/-- The error of `cluster.WaitForDeploymentCompleted`: its message, and whether it reports the
expiry of the timeout.  The handler passes the error on without inspecting it. -/
structure WaitError where
  Expired : Bool
  Message : String
  deriving DecidableEq, Repr

/-! ## Errors

The constructors of package `pkg/api/core/v1/errors` are kept symbolic: one constructor per
function of that package used by the handlers.  A Go `error` is represented by its message,
the value of `err.Error()`. -/

/-- A single API error, `errors.APIError`. -/
inductive APIError where
  | InternalError (err : String) (details : List String)
  | BadRequest (err : String)
  | OrgIsNotKnown (org : String)
  | AppAlreadyKnown (app : String)
  | AppIsNotKnown (app : String)
  | ServiceIsNotKnown (service : String)
  | ConfigurationIsNotKnown (configuration : String)
  | NewAPIError (title details : String) (status : Nat)
  deriving DecidableEq, Repr

/-- A non-nil value of the interface `errors.APIErrors`: either one `APIError` or the
`MultiError` built by `NewMultiError`. -/
inductive APIErrors where
  | single (e : APIError)
  | NewMultiError (errs : List APIError)
  deriving DecidableEq, Repr

/-- The entries carried by a returned error value. -/
def APIErrors.Errors : APIErrors → List APIError
  | .single e => [e]
  | .NewMultiError errs => errs

/-! ## Collaborator calls -/

/-- One invocation of a collaborator, with the arguments the handler passed. -/
inductive Call where
  | GetCluster
  | OrganizationsExists (org : String)
  | ApplicationExists (app : AppRef)
  | ServicesLookup (org service : String)
  | ApplicationLookup (org app : String)
  | ApplicationCreate (app : AppRef) (username : String)
  | ScalingSet (app : AppRef) (desired : Int)
  | BoundServicesSet (app : AppRef) (services : List String) (replaceAll : Bool)
  | EnvironmentSet (app : AppRef) (assignments : EnvVariableMap) (replaceAll : Bool)
  | DeployApp (app : AppRef) (username stageID : String) (origin : Option ApplicationOrigin)
      (start : Option Int)
  | ResponseOK
  | ConfigurationsLookup (org configuration : String)
  | ReplaceConfiguration (configuration : Configuration) (request : ConfigurationReplaceRequest)
  | BoundAppsNamesFor (org configuration : String)
  | TimeNow
  | WaitForDeploymentCompleted (org app : String) (timeout : Int)
  | ValidateService (org service : String)
  | LabelServiceSecrets (org service : String)
  | CreateConfigurationBinding (org : String) (app : App) (configurations : List String)
  | BoundServiceNameSet (app : AppRef)
  | BoundServicesUnset (app : AppRef) (service : String)
  | BoundServices (app : AppRef)
  | BoundServicesChange (app : AppRef) (username : String) (oldBound : List String)
      (newBound : List Service)
  deriving DecidableEq, Repr

/-- The four writes on the application registry made by `Create`. -/
def Call.isRegistryWrite : Call → Bool
  | .ApplicationCreate _ _ => true
  | .ScalingSet _ _ => true
  | .BoundServicesSet _ _ _ => true
  | .EnvironmentSet _ _ _ => true
  | _ => false

/-- Invocations of the deployment reconciler, `deploy.DeployApp`. -/
def Call.isDeploy : Call → Bool
  | .DeployApp _ _ _ _ _ => true
  | _ => false

/-- Any call that may change state: the registry writes and the deployment reconciler. -/
def Call.isMutation (c : Call) : Bool := c.isRegistryWrite || c.isDeploy

/-- The writes on the configuration store and the binding ledger: replacing the content of a
configuration, labelling the secrets of a service, creating configuration bindings. -/
def Call.isLedgerWrite : Call → Bool
  | .ReplaceConfiguration _ _ => true
  | .LabelServiceSecrets _ _ => true
  | .CreateConfigurationBinding _ _ _ => true
  | _ => false

/-- Removals of a bound service name, `application.BoundServicesUnset`. -/
def Call.isUnset : Call → Bool
  | .BoundServicesUnset _ _ => true
  | _ => false

/-- Operations on the running workload other than a deploy: `Workload.BoundServicesChange`. -/
def Call.isWorkloadChange : Call → Bool
  | .BoundServicesChange _ _ _ _ => true
  | _ => false

/-- Every call that changes the registry, the configurations, the bindings or the workload. -/
def Call.changesState (c : Call) : Bool :=
  c.isMutation || c.isLedgerWrite || c.isUnset || c.isWorkloadChange

/-- The collaborators of the handlers over a state `σ`.  Reads are functions of the state;
writes return the error (if any) and the state they leave behind. -/
structure Backend (σ : Type) where
  /-- The error of `kubernetes.GetCluster(ctx)`, if any. -/
  GetCluster : σ → Option String
  /-- The function `organizations.Exists(ctx, cluster, org)`. -/
  OrganizationsExists : σ → String → Except String Bool
  /-- The function `application.Exists(ctx, cluster, appRef)`. -/
  ApplicationExists : σ → AppRef → Except String Bool
  /-- The error of `services.Lookup(ctx, cluster, org, serviceName)`, if any (the handlers
  discard the service itself). -/
  ServicesLookup : σ → String → String → Option String
  /-- The function `application.Lookup(ctx, cluster, namespace, appName)`; `none` is the nil
  application. -/
  ApplicationLookup : σ → String → String → Except String (Option App)
  /-- The function `application.Create(ctx, cluster, appRef, username)`. -/
  ApplicationCreate : σ → AppRef → String → Option String × σ
  /-- The function `application.ScalingSet(ctx, cluster, appRef, desired)`. -/
  ScalingSet : σ → AppRef → Int → Option String × σ
  /-- The function `application.BoundServicesSet(ctx, cluster, appRef, services, replace)`. -/
  BoundServicesSet : σ → AppRef → List String → Bool → Option String × σ
  /-- The function `application.EnvironmentSet(ctx, cluster, appRef, assignments, replace)`. -/
  EnvironmentSet : σ → AppRef → EnvVariableMap → Bool → Option String × σ
  /-- The function `deploy.DeployApp(ctx, cluster, app, username, expectedStageID, origin,
  start)`; only its `APIErrors` result is used by the handlers. -/
  DeployApp : σ → AppRef → String → String → Option ApplicationOrigin → Option Int →
    Option APIErrors × σ
  /-- The error of writing the OK response (`response.JSON(w, models.ResponseOK)`), if any. -/
  ResponseJSON : σ → Option String
  /-- The function `configurations.Lookup(ctx, cluster, namespace, configurationName)`. -/
  ConfigurationsLookup : σ → String → String → Except String Configuration
  /-- The function `configurations.ReplaceConfiguration(ctx, cluster, configuration, request)`:
  whether a restart is needed, or an error. -/
  ReplaceConfiguration : σ → Configuration → ConfigurationReplaceRequest →
    Except String Bool × σ
  /-- The function `application.BoundAppsNamesFor(ctx, cluster, namespace, configurationName)`. -/
  BoundAppsNamesFor : σ → String → String → Except String (List String)
  /-- The clock reading `time.Now().UnixNano()`, and the state once it was read. -/
  Now : σ → Int × σ
  /-- The error of `cluster.WaitForDeploymentCompleted(ctx, nil, org, appName, timeout)`, if
  any. -/
  WaitForDeploymentCompleted : σ → String → String → Int → Option WaitError
  /-- The function `ValidateService(ctx, cluster, logger, namespace, serviceName)` of package
  `service`. -/
  ValidateService : σ → String → String → Option APIErrors
  /-- The function `configurations.LabelServiceSecrets(ctx, cluster, namespace, serviceName)`. -/
  LabelServiceSecrets : σ → String → String → Except String (List Secret) × σ
  /-- The function `configurationbinding.CreateConfigurationBinding(ctx, cluster, namespace,
  app, configurationNames)`; only its `APIErrors` result is used. -/
  CreateConfigurationBinding : σ → String → App → List String → Option APIErrors × σ
  /-- The function `application.BoundServiceNameSet(ctx, cluster, appRef)`. -/
  BoundServiceNameSet : σ → AppRef → Except String (List String)
  /-- The function `application.BoundServicesUnset(ctx, cluster, appRef, serviceName)`. -/
  BoundServicesUnset : σ → AppRef → String → Option String × σ
  /-- The function `application.BoundServices(ctx, cluster, appRef)`. -/
  BoundServices : σ → AppRef → Except String (List Service)
  /-- The method `application.NewWorkload(cluster, appRef).BoundServicesChange(ctx, username,
  oldBound, newBound)`. -/
  BoundServicesChange : σ → AppRef → String → List String → List Service → Option String × σ

/-- What a handler run produces: the returned `APIErrors` (`none` is nil, success), the calls
made in order, and the final state. -/
structure Outcome (σ : Type) where
  result : Option APIErrors
  calls : List Call
  state : σ

/-- Record a call in front of the remainder of a run. -/
def Outcome.after {σ : Type} (c : Call) (o : Outcome σ) : Outcome σ :=
  { o with calls := c :: o.calls }

/-- Return from the handler with the given value in state `s`. -/
def Outcome.ret {σ : Type} (s : σ) (res : Option APIErrors) : Outcome σ :=
  ⟨res, [], s⟩

/-- The registry writes of a run, in order. -/
def Outcome.writes {σ : Type} (o : Outcome σ) : List Call :=
  o.calls.filter Call.isRegistryWrite

/-- Outcome of reading and decoding a request body: `ioutil.ReadAll` may fail, the JSON
decoding may fail, or a value is obtained. -/
inductive Body (α : Type) where
  | ReadError (err : String)
  | Malformed (err : String)
  | Decoded (v : α)
  deriving DecidableEq, Repr

/-! ## `Create` (create.go) -/

/-- The request as seen by `Create`: route parameter `org`, the user of the request context and
the body. -/
structure CreateRequest where
  org : String
  username : String
  body : Body ApplicationCreateRequest
  deriving DecidableEq, Repr

/-- The service sanity loop of `Create` (create.go:77-88) from the given value of `theIssues`
on.  The result is `.error issues` when the loop returns early from the handler with
`NewMultiError(issues)`, and `.ok theIssues` when it runs to its end. -/
def checkServices {σ : Type} (B : Backend σ) (s : σ) (org : String) :
    List String → List APIError → List Call × Except (List APIError) (List APIError)
  | [], theIssues => ([], .ok theIssues)
  | serviceName :: rest, theIssues =>
    let next :=
      match B.ServicesLookup s org serviceName with
      | none => checkServices B s org rest theIssues
      | some err =>
        if err = "service not found" then
          checkServices B s org rest (theIssues ++ [APIError.ServiceIsNotKnown serviceName])
        else
          ([], .error (APIError.InternalError err [] :: theIssues))
    (Call.ServicesLookup org serviceName :: next.1, next.2)

/-- The value of `desired` handed to `ScalingSet` (create.go:101-104): `DefaultInstances`
unless the request carries an instance count. -/
def desiredInstances (DefaultInstances : Int) (createRequest : ApplicationCreateRequest) : Int :=
  match createRequest.Configuration.Instances with
  | some n => n
  | none => DefaultInstances

/-- The modifying tail of `Create` (create.go:96-129), entered once the arguments were found
OK. -/
def createWrites {σ : Type} (B : Backend σ) (DefaultInstances : Int) (appRef : AppRef)
    (username : String) (createRequest : ApplicationCreateRequest) (s : σ) : Outcome σ :=
  Outcome.after (.ApplicationCreate appRef username) <|
  match B.ApplicationCreate s appRef username with
  | (some err, s1) => Outcome.ret s1 (some (.single (.InternalError err [])))
  | (none, s1) =>
  let desired := desiredInstances DefaultInstances createRequest
  Outcome.after (.ScalingSet appRef desired) <|
  match B.ScalingSet s1 appRef desired with
  | (some err, s2) => Outcome.ret s2 (some (.single (.InternalError err [])))
  | (none, s2) =>
  Outcome.after (.BoundServicesSet appRef createRequest.Configuration.Services true) <|
  match B.BoundServicesSet s2 appRef createRequest.Configuration.Services true with
  | (some err, s3) => Outcome.ret s3 (some (.single (.InternalError err [])))
  | (none, s3) =>
  Outcome.after (.EnvironmentSet appRef createRequest.Configuration.Environment true) <|
  match B.EnvironmentSet s3 appRef createRequest.Configuration.Environment true with
  | (some err, s4) => Outcome.ret s4 (some (.single (.InternalError err [])))
  | (none, s4) =>
  Outcome.after .ResponseOK <|
  match B.ResponseJSON s4 with
  | some err => Outcome.ret s4 (some (.single (.InternalError err [])))
  | none => Outcome.ret s4 none

/-- The handler `Controller.Create` of `POST /namespaces/:org/applications` (create.go:23-130).
`DefaultInstances` is the package constant of that name. -/
def Create {σ : Type} (B : Backend σ) (DefaultInstances : Int) (r : CreateRequest) (s : σ) :
    Outcome σ :=
  Outcome.after .GetCluster <|
  match B.GetCluster s with
  | some err => Outcome.ret s (some (.single (.InternalError err [])))
  | none =>
  Outcome.after (.OrganizationsExists r.org) <|
  match B.OrganizationsExists s r.org with
  | .error err => Outcome.ret s (some (.single (.InternalError err [])))
  | .ok false => Outcome.ret s (some (.single (.OrgIsNotKnown r.org)))
  | .ok true =>
  match r.body with
  | .ReadError err => Outcome.ret s (some (.single (.InternalError err [])))
  | .Malformed err => Outcome.ret s (some (.single (.BadRequest err)))
  | .Decoded createRequest =>
  let appRef := NewAppRef createRequest.Name r.org
  Outcome.after (.ApplicationExists appRef) <|
  match B.ApplicationExists s appRef with
  | .error err =>
    Outcome.ret s (some (.single (.InternalError err ["failed to check for app resource"])))
  | .ok true => Outcome.ret s (some (.single (.AppAlreadyKnown createRequest.Name)))
  | .ok false =>
  let loop := checkServices B s r.org createRequest.Configuration.Services []
  let rest : Outcome σ :=
    match loop.2 with
    | .error theIssues => Outcome.ret s (some (.NewMultiError theIssues))
    | .ok theIssues =>
      if theIssues.length > 0 then
        Outcome.ret s (some (.NewMultiError theIssues))
      else
        createWrites B DefaultInstances appRef r.username createRequest s
  { rest with calls := loop.1 ++ rest.calls }

/-! ## `Set` (env/set.go) -/

/-- The request as seen by `Set`: route parameters `namespace` and `app`, the user name of the
request context and the outcome of `c.BindJSON(&setRequest)`: its error, or the decoded mapping. -/
structure SetRequest where
  namespaceName : String
  appName : String
  username : String
  body : Except String EnvVariableMap

/-- The handler `Controller.Set` of `POST /namespaces/:namespace/applications/:app/environment`
(set.go:17-61). -/
def Set {σ : Type} (B : Backend σ) (r : SetRequest) (s : σ) : Outcome σ :=
  Outcome.after .GetCluster <|
  match B.GetCluster s with
  | some err => Outcome.ret s (some (.single (.InternalError err [])))
  | none =>
  Outcome.after (.ApplicationLookup r.namespaceName r.appName) <|
  match B.ApplicationLookup s r.namespaceName r.appName with
  | .error err => Outcome.ret s (some (.single (.InternalError err [])))
  | .ok none => Outcome.ret s (some (.single (.AppIsNotKnown r.appName)))
  | .ok (some app) =>
  match r.body with
  | .error err => Outcome.ret s (some (.single (.BadRequest err)))
  | .ok setRequest =>
  Outcome.after (.EnvironmentSet app.Meta setRequest false) <|
  match B.EnvironmentSet s app.Meta setRequest false with
  | (some err, s1) => Outcome.ret s1 (some (.single (.InternalError err [])))
  | (none, s1) =>
  match app.Workload with
  | some _ =>
    Outcome.after (.DeployApp app.Meta r.username "" none none) <|
    match B.DeployApp s1 app.Meta r.username "" none none with
    | (some apierr, s2) => Outcome.ret s2 (some apierr)
    | (none, s2) => Outcome.after .ResponseOK <| Outcome.ret s2 none
  | none => Outcome.after .ResponseOK <| Outcome.ret s1 none

/-! ## `Running` (running.go) -/

/-- The request as seen by `Running`: route parameters `org` and `app`. -/
structure RunningRequest where
  org : String
  appName : String
  deriving DecidableEq, Repr

/-- The handler `Controller.Running` of `GET /namespaces/:org/applications/:app/running`
(running.go:24-70).  `ToAppBuilt` is the value of `duration.ToAppBuilt()`. -/
def Running {σ : Type} (B : Backend σ) (ToAppBuilt : Int) (r : RunningRequest) (s : σ) :
    Outcome σ :=
  Outcome.after .GetCluster <|
  match B.GetCluster s with
  | some err => Outcome.ret s (some (.single (.InternalError err [])))
  | none =>
  Outcome.after (.OrganizationsExists r.org) <|
  match B.OrganizationsExists s r.org with
  | .error err => Outcome.ret s (some (.single (.InternalError err [])))
  | .ok false => Outcome.ret s (some (.single (.OrgIsNotKnown r.org)))
  | .ok true =>
  Outcome.after (.ApplicationLookup r.org r.appName) <|
  match B.ApplicationLookup s r.org r.appName with
  | .error err => Outcome.ret s (some (.single (.InternalError err [])))
  | .ok none => Outcome.ret s (some (.single (.AppIsNotKnown r.appName)))
  | .ok (some app) =>
  match app.Workload with
  | none =>
    Outcome.ret s (some (.single
      (.NewAPIError "No status available for application without workload" "" 400)))
  | some _ =>
  Outcome.after (.WaitForDeploymentCompleted r.org r.appName ToAppBuilt) <|
  match B.WaitForDeploymentCompleted s r.org r.appName ToAppBuilt with
  | some err => Outcome.ret s (some (.single (.InternalError err.Message [])))
  | none =>
  Outcome.after .ResponseOK <|
  match B.ResponseJSON s with
  | some err => Outcome.ret s (some (.single (.InternalError err [])))
  | none => Outcome.ret s none

/-! ## `Replace` (configuration/replace.go) -/

/-- The request as seen by `Replace`: route parameters `namespace` and `configuration`, the
user name of the request context and the outcome of `c.BindJSON(&replaceRequest)`. -/
structure ReplaceRequest where
  namespaceName : String
  configurationName : String
  username : String
  body : Except String ConfigurationReplaceRequest

/-- How a run of `Replace` ends: it returns a value (`none` is nil), or it faults on the
dereference of a nil application at `app.Workload` (replace.go:67). -/
inductive ReplaceEnd where
  | returned (result : Option APIErrors)
  | nilDereference
  deriving DecidableEq, Repr

/-- What a run of `Replace` produces: its end, the calls made in order, the final state. -/
structure ReplaceRun (σ : Type) where
  ending : ReplaceEnd
  calls : List Call
  state : σ

/-- Record a call in front of the remainder of a run of `Replace`. -/
def ReplaceRun.after {σ : Type} (c : Call) (o : ReplaceRun σ) : ReplaceRun σ :=
  { o with calls := c :: o.calls }

/-- Return from `Replace` with the given value in state `s`. -/
def ReplaceRun.ret {σ : Type} (s : σ) (res : Option APIErrors) : ReplaceRun σ :=
  ⟨.returned res, [], s⟩

/-- The restart loop of `Replace` over the remaining bound application names
(replace.go:60-80), followed by the end of the handler (replace.go:85-86). -/
def restartApps {σ : Type} (B : Backend σ) (namespaceName username : String) :
    List String → σ → ReplaceRun σ
  | [], s => ReplaceRun.after .ResponseOK (ReplaceRun.ret s none)
  | appName :: rest, s =>
    ReplaceRun.after (.ApplicationLookup namespaceName appName) <|
    match B.ApplicationLookup s namespaceName appName with
    | .error err => ReplaceRun.ret s (some (.single (.InternalError err [])))
    | .ok none => ⟨.nilDereference, [], s⟩
    | .ok (some app) =>
      match app.Workload with
      | none => restartApps B namespaceName username rest s
      | some _ =>
        ReplaceRun.after .TimeNow <|
        ReplaceRun.after (.DeployApp app.Meta username "" none (some (B.Now s).1)) <|
        match B.DeployApp (B.Now s).2 app.Meta username "" none (some (B.Now s).1) with
        | (some apierr, s2) => ReplaceRun.ret s2 (some apierr)
        | (none, s2) => restartApps B namespaceName username rest s2

/-- The handler `Controller.Replace` of `PUT /namespaces/:namespace/configurations/:app`
(replace.go:19-87). -/
def Replace {σ : Type} (B : Backend σ) (r : ReplaceRequest) (s : σ) : ReplaceRun σ :=
  ReplaceRun.after .GetCluster <|
  match B.GetCluster s with
  | some err => ReplaceRun.ret s (some (.single (.InternalError err [])))
  | none =>
  ReplaceRun.after (.ConfigurationsLookup r.namespaceName r.configurationName) <|
  match B.ConfigurationsLookup s r.namespaceName r.configurationName with
  | .error err =>
    if err = "configuration not found" then
      ReplaceRun.ret s (some (.single (.ConfigurationIsNotKnown r.configurationName)))
    else
      ReplaceRun.ret s (some (.single (.InternalError err [])))
  | .ok configuration =>
  match r.body with
  | .error err => ReplaceRun.ret s (some (.single (.BadRequest err)))
  | .ok replaceRequest =>
  ReplaceRun.after (.ReplaceConfiguration configuration replaceRequest) <|
  match B.ReplaceConfiguration s configuration replaceRequest with
  | (.error err, s1) => ReplaceRun.ret s1 (some (.single (.InternalError err [])))
  | (.ok false, s1) => ReplaceRun.after .ResponseOK (ReplaceRun.ret s1 none)
  | (.ok true, s1) =>
  ReplaceRun.after (.BoundAppsNamesFor r.namespaceName r.configurationName) <|
  match B.BoundAppsNamesFor s1 r.namespaceName r.configurationName with
  | .error err => ReplaceRun.ret s1 (some (.single (.InternalError err [])))
  | .ok appNames => restartApps B r.namespaceName r.username appNames s1

/-! ## `Bind` (service/bind.go) -/

/-- The request as seen by `Bind`: route parameters `namespace` and `service` and the outcome
of `c.BindJSON(&bindRequest)`. -/
structure BindRequest where
  namespaceName : String
  serviceName : String
  body : Except String ServiceBindRequest

/-- The handler `Controller.Bind` of `POST /namespaces/:namespace/services/:service/bind`
(bind.go:20-95). -/
def Bind {σ : Type} (B : Backend σ) (r : BindRequest) (s : σ) : Outcome σ :=
  match r.body with
  | .error err => Outcome.ret s (some (.single (.BadRequest err)))
  | .ok bindRequest =>
  Outcome.after .GetCluster <|
  match B.GetCluster s with
  | some err => Outcome.ret s (some (.single (.InternalError err [])))
  | none =>
  Outcome.after (.ApplicationLookup r.namespaceName bindRequest.AppName) <|
  match B.ApplicationLookup s r.namespaceName bindRequest.AppName with
  | .error err => Outcome.ret s (some (.single (.InternalError err [])))
  | .ok none => Outcome.ret s (some (.single (.AppIsNotKnown bindRequest.AppName)))
  | .ok (some app) =>
  Outcome.after (.ValidateService r.namespaceName r.serviceName) <|
  match B.ValidateService s r.namespaceName r.serviceName with
  | some apiErr => Outcome.ret s (some apiErr)
  | none =>
  Outcome.after (.LabelServiceSecrets r.namespaceName r.serviceName) <|
  match B.LabelServiceSecrets s r.namespaceName r.serviceName with
  | (.error err, s1) => Outcome.ret s1 (some (.single (.InternalError err [])))
  | (.ok configurationSecrets, s1) =>
  let configurationNames := configurationSecrets.map Secret.Name
  Outcome.after (.CreateConfigurationBinding r.namespaceName app configurationNames) <|
  match B.CreateConfigurationBinding s1 r.namespaceName app configurationNames with
  | (some errors, s2) => Outcome.ret s2 (some (.NewMultiError errors.Errors))
  | (none, s2) =>
  let okToBind := [r.serviceName]
  Outcome.after (.BoundServicesSet app.Meta okToBind false) <|
  match B.BoundServicesSet s2 app.Meta okToBind false with
  | (some err, s3) => Outcome.ret s3 (some (.single (.InternalError err [])))
  | (none, s3) => Outcome.after .ResponseOK <| Outcome.ret s3 none

/-! ## `DeleteBinding` (servicebinding/deletebinding.go) -/

/-- The function `DeleteBinding(ctx, cluster, org, appName, serviceName, username)`
(deletebinding.go:13-57). -/
def DeleteBinding {σ : Type} (B : Backend σ) (org appName serviceName username : String)
    (s : σ) : Outcome σ :=
  Outcome.after (.ApplicationLookup org appName) <|
  match B.ApplicationLookup s org appName with
  | .error err => Outcome.ret s (some (.single (.InternalError err [])))
  | .ok none => Outcome.ret s (some (.single (.AppIsNotKnown appName)))
  | .ok (some app) =>
  Outcome.after (.ServicesLookup org serviceName) <|
  match B.ServicesLookup s org serviceName with
  | some err =>
    if err = "service not found" then
      Outcome.ret s (some (.single (.ServiceIsNotKnown serviceName)))
    else
      Outcome.ret s (some (.single (.InternalError err [])))
  | none =>
  Outcome.after (.BoundServiceNameSet app.Meta) <|
  match B.BoundServiceNameSet s app.Meta with
  | .error err => Outcome.ret s (some (.single (.InternalError err [])))
  | .ok oldBound =>
  Outcome.after (.BoundServicesUnset app.Meta serviceName) <|
  match B.BoundServicesUnset s app.Meta serviceName with
  | (some err, s1) => Outcome.ret s1 (some (.single (.InternalError err [])))
  | (none, s1) =>
  match app.Workload with
  | none => Outcome.ret s1 none
  | some _ =>
  Outcome.after (.BoundServices app.Meta) <|
  match B.BoundServices s1 app.Meta with
  | .error err => Outcome.ret s1 (some (.single (.InternalError err [])))
  | .ok newBound =>
  Outcome.after (.BoundServicesChange app.Meta username oldBound newBound) <|
  match B.BoundServicesChange s1 app.Meta username oldBound newBound with
  | (some err, s2) => Outcome.ret s2 (some (.single (.InternalError err [])))
  | (none, s2) => Outcome.ret s2 none

/-! ## A registry behind the collaborators

The packages implementing the collaborators are not part of the sources at hand.  The
following state and operations give them the behaviour the specification describes
(sections 4.1 and 4.4), with failures of the backing store injected by an oracle. -/

/-- Modelled from the spec: the state behind `organizations`, `services` and `application`
(their implementation is missing): the existing namespaces, the provisioned services as
(namespace, name) pairs, and the application records. -/
structure Registry where
  namespaces : List String
  services : List (String × String)
  apps : List App
  /-- The configurations of the Configuration Store. -/
  configurations : List Configuration := []
  /-- The secrets backing the provisioned services, as (namespace, service, secret name). -/
  secrets : List (String × String × String) := []
  /-- The bindings of the ledger: application reference and configuration name. -/
  bindings : List (AppRef × String) := []
  /-- The next reading of the clock. -/
  clock : Int := 0
  /-- The applications whose workload does not get ready within any timeout. -/
  stalled : List AppRef := []
  deriving DecidableEq, Repr

/-- Modelled from the spec: `Exists(ref)` of the Application Registry (implementation
missing): whether a record with that reference is stored. -/
def Registry.Exists (w : Registry) (ref : AppRef) : Bool :=
  w.apps.any (fun a => a.Meta = ref)

/-- Modelled from the spec: `Lookup(ref)` of the Application Registry (implementation
missing): the full record, or an absent result when the application does not exist. -/
def Registry.Lookup (w : Registry) (org name : String) : Option App :=
  w.apps.find? (fun a => a.Meta = NewAppRef name org)

/-- Modelled from the spec: a single-record update of the Application Registry
(implementation missing), applied to every record carrying the reference. -/
def Registry.update (w : Registry) (ref : AppRef) (f : App → App) : Registry :=
  { w with apps := w.apps.map (fun a => if a.Meta = ref then f a else a) }

/-- Modelled from the spec: `Create(ref, owner)` of the Application Registry (implementation
missing): a record with Workload = null and the default configuration (zero environment,
zero bindings, default instance count). -/
def Registry.Create (w : Registry) (DefaultInstances : Int) (ref : AppRef) (owner : String) :
    Registry :=
  { w with apps := ⟨ref, owner, DefaultInstances, [], [], none⟩ :: w.apps }

/-- Modelled from the spec: the merge of `BoundServicesSet` with `replaceAll = false`
(implementation missing): the existing names stay, the new ones are added. -/
def mergeServices (old names : List String) : List String :=
  old ++ names.filter (fun n => !(old.contains n))

/-- Modelled from the spec: the merge of `EnvironmentSet` with `replaceAll = false`
(implementation missing): the given assignments, then the existing assignments of the
variables not given. -/
def mergeEnvironment (old assignments : EnvVariableMap) : EnvVariableMap :=
  assignments ++ old.filter (fun p => !((assignments.map Prod.fst).contains p.1))

/-- The value of a variable in an environment. -/
def EnvVariableMap.value (m : EnvVariableMap) (name : String) : Option String :=
  (m.find? (fun p => p.1 = name)).map Prod.snd

/-- Modelled from the spec: a setter of the Application Registry (implementation missing) is
a single-record update; on an absent application the backing store reports an error and
nothing changes. -/
def Registry.set (w : Registry) (ref : AppRef) (f : App → App) : Option String × Registry :=
  if w.Exists ref then (none, w.update ref f) else (some "application not found", w)

/-- Modelled from the spec: `Lookup` of the Configuration Store (implementation missing):
lookup by name within a namespace. -/
def Registry.configuration (w : Registry) (org name : String) : Option Configuration :=
  w.configurations.find? (fun c => c.Name = name ∧ c.Org = org)

/-- Modelled from the spec: replace-with-diff of the Configuration Store (implementation
missing): the stored values of the configuration become the given ones. -/
def Registry.replaceValues (w : Registry) (org name : String)
    (values : List (String × String)) : Registry :=
  { w with configurations := w.configurations.map (fun c =>
      if c.Name = name ∧ c.Org = org then { c with Values := values } else c) }

/-- Modelled from the spec: the names of the applications of a namespace bound to a
configuration (implementation missing), read from the bindings of the ledger. -/
def Registry.boundApps (w : Registry) (org configuration : String) : List String :=
  (w.bindings.filter (fun b => b.1.Org = org ∧ b.2 = configuration)).map (fun b => b.1.Name)

/-- Modelled from the spec: the names of the secrets backing a provisioned service
(implementation missing). -/
def Registry.serviceSecrets (w : Registry) (org service : String) : List String :=
  (w.secrets.filter (fun t => t.1 = org ∧ t.2.1 = service)).map (fun t => t.2.2)

/-- Modelled from the spec: `LabelServiceSecrets` of the ledger (implementation missing)
marks the secrets of a service as configurations; labelling an already labelled secret is a
no-op. -/
def Registry.label (w : Registry) (org : String) (names : List String) : Registry :=
  { w with configurations := w.configurations ++
      ((names.filter (fun n => (w.configuration org n).isNone)).map
        (fun n => (⟨n, org, []⟩ : Configuration))) }

/-- Modelled from the spec: recording the bindings of `CreateBinding` (implementation
missing); an existing binding is not recorded twice. -/
def Registry.bind (w : Registry) (ref : AppRef) (names : List String) : Registry :=
  { w with bindings := w.bindings ++
      ((names.filter (fun n => !(w.bindings.contains (ref, n)))).map (fun n => (ref, n))) }

/-- The state once the clock was read: the next reading is later. -/
def Registry.tick (w : Registry) : Registry :=
  { w with clock := w.clock + 1 }

/-- The names of the configurations bound to an application, read from the bindings of the
ledger. -/
def Registry.boundConfigurations (w : Registry) (ref : AppRef) : List String :=
  (w.bindings.filter (fun b => b.1 = ref)).map (fun b => b.2)

/-- Modelled from the spec: `BoundServicesUnset(ref, name)` of the Application Registry
(implementation missing) removes the name from the bound-service names of the record;
removing a name that is not there changes nothing. -/
def unsetService (names : List String) (name : String) : List String :=
  names.filter (fun n => n ≠ name)

/-- Whether the application looked up has a workload. -/
def Registry.hasWorkload (w : Registry) (org name : String) : Bool :=
  match w.Lookup org name with
  | some app => app.Workload.isSome
  | none => false

/-- Modelled from the spec: the collaborators over a `Registry` (their implementation is
missing).  `fault` injects backing-store failures: a call for which it gives an error fails
with that error and changes nothing.  Otherwise `Exists` and `Lookup` read the records,
`services.Lookup` reports `service not found` for an unknown service, `Create` adds a record
(failing when one exists), the setters replace or merge as `replaceAll` says, and the
reconciler records a workload for the application.  A configuration lookup reports
`configuration not found` for an unknown name; replacing the content of a configuration asks
for a restart when the content changes; the bound application names are read from the
bindings; the clock advances with each reading; the wait expires for a stalled application;
the service validation reports an unknown service; labelling turns the secrets of a service
into configurations; binding checks every configuration name, collects all unknown names into
one multi-error and only records bindings when there is none.  The bound-service names are
read from the record, unsetting removes a name from them, and a change of the bound services
of a workload needs the application to exist; the registry does not record the mounts of a
workload, so that change leaves the state as it is. -/
def registryBackend (fault : Call → Option String) (DefaultInstances : Int) :
    Backend Registry where
  GetCluster := fun _ => fault .GetCluster
  OrganizationsExists := fun w org =>
    match fault (.OrganizationsExists org) with
    | some err => .error err
    | none => .ok (w.namespaces.contains org)
  ApplicationExists := fun w ref =>
    match fault (.ApplicationExists ref) with
    | some err => .error err
    | none => .ok (w.Exists ref)
  ServicesLookup := fun w org service =>
    match fault (.ServicesLookup org service) with
    | some err => some err
    | none => if w.services.contains (org, service) then none else some "service not found"
  ApplicationLookup := fun w org name =>
    match fault (.ApplicationLookup org name) with
    | some err => .error err
    | none => .ok (w.Lookup org name)
  ApplicationCreate := fun w ref owner =>
    match fault (.ApplicationCreate ref owner) with
    | some err => (some err, w)
    | none =>
      if w.Exists ref then (some "application already exists", w)
      else (none, w.Create DefaultInstances ref owner)
  ScalingSet := fun w ref desired =>
    match fault (.ScalingSet ref desired) with
    | some err => (some err, w)
    | none => w.set ref (fun a => { a with Instances := desired })
  BoundServicesSet := fun w ref names replaceAll =>
    match fault (.BoundServicesSet ref names replaceAll) with
    | some err => (some err, w)
    | none =>
      w.set ref (fun a =>
        { a with Services := if replaceAll then names else mergeServices a.Services names })
  EnvironmentSet := fun w ref assignments replaceAll =>
    match fault (.EnvironmentSet ref assignments replaceAll) with
    | some err => (some err, w)
    | none =>
      w.set ref (fun a =>
        { a with Environment :=
            if replaceAll then assignments else mergeEnvironment a.Environment assignments })
  DeployApp := fun w ref username stageID origin start =>
    match fault (.DeployApp ref username stageID origin start) with
    | some err => (some (.single (.InternalError err [])), w)
    | none =>
      match w.set ref (fun a => { a with Workload := some ⟨stageID, start⟩ }) with
      | (some err, w1) => (some (.single (.InternalError err [])), w1)
      | (none, w1) => (none, w1)
  ResponseJSON := fun _ => fault .ResponseOK
  ConfigurationsLookup := fun w org name =>
    match fault (.ConfigurationsLookup org name) with
    | some err => .error err
    | none =>
      match w.configuration org name with
      | some c => .ok c
      | none => .error "configuration not found"
  ReplaceConfiguration := fun w configuration request =>
    match fault (.ReplaceConfiguration configuration request) with
    | some err => (.error err, w)
    | none =>
      match w.configuration configuration.Org configuration.Name with
      | some c =>
        (.ok (decide (c.Values ≠ request)),
          w.replaceValues configuration.Org configuration.Name request)
      | none => (.error "configuration not found", w)
  BoundAppsNamesFor := fun w org name =>
    match fault (.BoundAppsNamesFor org name) with
    | some err => .error err
    | none => .ok (w.boundApps org name)
  Now := fun w => (w.clock, w.tick)
  WaitForDeploymentCompleted := fun w org name timeout =>
    match fault (.WaitForDeploymentCompleted org name timeout) with
    | some err => some ⟨false, err⟩
    | none =>
      if w.stalled.contains (NewAppRef name org) then
        some ⟨true, "timed out waiting for the condition"⟩
      else none
  ValidateService := fun w org service =>
    match fault (.ValidateService org service) with
    | some err => some (.single (.InternalError err []))
    | none =>
      if w.services.contains (org, service) then none
      else some (.single (.ServiceIsNotKnown service))
  LabelServiceSecrets := fun w org service =>
    match fault (.LabelServiceSecrets org service) with
    | some err => (.error err, w)
    | none =>
      (.ok ((w.serviceSecrets org service).map Secret.mk),
        w.label org (w.serviceSecrets org service))
  CreateConfigurationBinding := fun w org app names =>
    match fault (.CreateConfigurationBinding org app names) with
    | some err => (some (.single (.InternalError err [])), w)
    | none =>
      if (names.filter (fun n => (w.configuration org n).isNone)).isEmpty then
        (none, w.bind app.Meta names)
      else
        (some (.NewMultiError
          ((names.filter (fun n => (w.configuration org n).isNone)).map
            APIError.ConfigurationIsNotKnown)), w)
  BoundServiceNameSet := fun w ref =>
    match fault (.BoundServiceNameSet ref) with
    | some err => .error err
    | none =>
      match w.Lookup ref.Org ref.Name with
      | some app => .ok app.Services
      | none => .error "application not found"
  BoundServicesUnset := fun w ref service =>
    match fault (.BoundServicesUnset ref service) with
    | some err => (some err, w)
    | none => w.set ref (fun a => { a with Services := unsetService a.Services service })
  BoundServices := fun w ref =>
    match fault (.BoundServices ref) with
    | some err => .error err
    | none =>
      match w.Lookup ref.Org ref.Name with
      | some app => .ok (app.Services.map (fun n => (⟨n, ref.Org⟩ : Service)))
      | none => .error "application not found"
  BoundServicesChange := fun w ref username oldBound newBound =>
    match fault (.BoundServicesChange ref username oldBound newBound) with
    | some err => (some err, w)
    | none => if w.Exists ref then (none, w) else (some "application not found", w)

/-- The oracle under which no backing-store call fails. -/
def noFault : Call → Option String := fun _ => none

/-- A sample state: one namespace holding the service `db` and the applications `shop`
(not deployed) and `blog` (deployed). -/
def sampleRegistry : Registry where
  namespaces := ["ns"]
  services := [("ns", "db")]
  apps :=
    [ ⟨⟨"shop", "ns"⟩, "admin", 1, [], [("MODE", "dev"), ("MYVAR", "v1")], none⟩,
      ⟨⟨"blog", "ns"⟩, "admin", 2, ["db"], [("MYVAR", "v1")], some ⟨"stage1", none⟩⟩ ]

/-- The listed service names whose lookup reports an error in state `s`. -/
def unknownServices {σ : Type} (B : Backend σ) (s : σ) (org : String) (names : List String) :
    List String :=
  names.filter (fun n => (B.ServicesLookup s org n).isSome)

/-- A create request for the application `shop`, which exists in `sampleRegistry`. -/
def createShop : CreateRequest :=
  ⟨"ns", "admin", .Decoded ⟨"shop", ⟨some 3, ["db"], [("MYVAR", "v9")]⟩⟩⟩

/-- A create request for a new application listing one known and two unknown services. -/
def createWithUnknown : CreateRequest :=
  ⟨"ns", "admin", .Decoded ⟨"wiki", ⟨none, ["cache", "db", "queue"], []⟩⟩⟩

/-- A create request for a new application whose name starts with digits. -/
def createMonkeys : CreateRequest :=
  ⟨"ns", "admin", .Decoded ⟨"12monkeys", ⟨some 0, ["db"], [("CREDO", "up")]⟩⟩⟩

/-- A create request asking for a negative instance count. -/
def createNegative : CreateRequest :=
  ⟨"ns", "admin", .Decoded ⟨"wiki", ⟨some (-1), [], []⟩⟩⟩

/-- A create request in a namespace that does not exist. -/
def createElsewhere : CreateRequest :=
  ⟨"nowhere", "admin", .Decoded ⟨"wiki", ⟨none, [], []⟩⟩⟩

/-- A create request whose body is not a well-formed request. -/
def createMalformed : CreateRequest :=
  ⟨"ns", "admin", .Malformed "unexpected end of JSON input"⟩

/-- The oracle under which every `ScalingSet` fails and nothing else does. -/
def faultScaling : Call → Option String
  | .ScalingSet _ _ => some "store unavailable"
  | _ => none

/-- The calls of `Create` that precede the modifying tail when validation passes: the three
checks and one lookup per listed service. -/
def createChecks (r : CreateRequest) (createRequest : ApplicationCreateRequest) : List Call :=
  [.GetCluster, .OrganizationsExists r.org,
   .ApplicationExists (NewAppRef createRequest.Name r.org)] ++
  createRequest.Configuration.Services.map (Call.ServicesLookup r.org)

/-- A Set request on the deployed application `blog`. -/
def setBlog : SetRequest :=
  ⟨"ns", "blog", "admin", .ok [("MYVAR", "v2")]⟩

/-- A Set request on the application `shop`, which has no workload. -/
def setShop : SetRequest :=
  ⟨"ns", "shop", "admin", .ok [("MYVAR", "v2")]⟩

/-- A sample state with a ledger: the service `db` backed by two secrets, the configuration
`creds` bound to `shop` (not deployed), `blog` and `wiki` (both deployed), the clock at 100. -/
def ledgerRegistry : Registry where
  namespaces := ["ns"]
  services := [("ns", "db")]
  apps :=
    [ ⟨⟨"shop", "ns"⟩, "admin", 1, ["cache"], [], none⟩,
      ⟨⟨"blog", "ns"⟩, "admin", 2, [], [], some ⟨"stage1", none⟩⟩,
      ⟨⟨"idle", "ns"⟩, "admin", 1, [], [], none⟩,
      ⟨⟨"wiki", "ns"⟩, "admin", 1, [], [], some ⟨"stage7", none⟩⟩ ]
  configurations := [⟨"creds", "ns", [("user", "a")]⟩]
  secrets := [("ns", "db", "db-conn"), ("ns", "db", "db-auth")]
  bindings := [(⟨"blog", "ns"⟩, "creds"), (⟨"shop", "ns"⟩, "creds"), (⟨"wiki", "ns"⟩, "creds")]
  clock := 100
  stalled := [⟨"wiki", "ns"⟩]

/-- A Set request on an application that does not exist. -/
def setGhost : SetRequest :=
  ⟨"ns", "ghost", "admin", .ok [("MYVAR", "v2")]⟩

/-- A Replace request changing the content of the configuration `creds`. -/
def replaceCreds : ReplaceRequest :=
  ⟨"ns", "creds", "admin", .ok [("user", "b")]⟩

/-- A Replace request on a configuration that does not exist. -/
def replaceGhost : ReplaceRequest :=
  ⟨"ns", "ghost", "admin", .ok [("user", "b")]⟩

/-- A Bind request of the service `db` to the application `shop`. -/
def bindShop : BindRequest :=
  ⟨"ns", "db", .ok ⟨"shop"⟩⟩

/-- The oracle under which every configuration lookup fails and nothing else does. -/
def faultConfigurationsLookup : Call → Option String
  | .ConfigurationsLookup _ _ => some "store unavailable"
  | _ => none

/-- The oracle under which every readiness wait fails, for a reason other than the expiry of
its timeout, and nothing else does. -/
def faultWait : Call → Option String
  | .WaitForDeploymentCompleted _ _ _ => some "timed out waiting for the condition"
  | _ => none

/-- A Running request on `shop`, which has no workload. -/
def runningShop : RunningRequest := ⟨"ns", "shop"⟩

/-- A Running request on `idle`, which has no workload either. -/
def runningIdle : RunningRequest := ⟨"ns", "idle"⟩

/-- A Running request on `blog`, whose workload gets ready. -/
def runningBlog : RunningRequest := ⟨"ns", "blog"⟩

/-- A Running request on `wiki`, whose workload does not get ready in time. -/
def runningWiki : RunningRequest := ⟨"ns", "wiki"⟩

/-- The oracle under which every creation of configuration bindings fails and nothing else
does. -/
def faultBinding : Call → Option String
  | .CreateConfigurationBinding _ _ _ => some "store unavailable"
  | _ => none

/-- One deploy call per listed application name, in order, with an empty stage id, no origin
and the successive clock readings from `clock` on as start values. -/
def stampedDeploys (org username : String) : List String → Int → List Call
  | [], _ => []
  | name :: rest, clock =>
    .DeployApp (NewAppRef name org) username "" none (some clock) ::
      stampedDeploys org username rest (clock + 1)

/-- The calls of a restart loop in which every lookup and every deploy succeeds: per bound
application name its lookup, followed for a running application by a clock reading and the
deploy stamped with that reading. -/
def restartCalls (running : String → Bool) (org username : String) :
    List String → Int → List Call
  | [], _ => []
  | name :: rest, clock =>
    if running name then
      .ApplicationLookup org name :: .TimeNow ::
        .DeployApp (NewAppRef name org) username "" none (some clock) ::
        restartCalls running org username rest (clock + 1)
    else
      .ApplicationLookup org name :: restartCalls running org username rest clock

/-- A Bind request of the service `db` to the deployed application `blog`. -/
def bindBlog : BindRequest :=
  ⟨"ns", "db", .ok ⟨"blog"⟩⟩

/-- The sample ledger with a binding of `creds` to `ghost`, a name that resolves to no
application. -/
def danglingRegistry : Registry :=
  { ledgerRegistry with
    bindings := [(⟨"blog", "ns"⟩, "creds"), (⟨"ghost", "ns"⟩, "creds"), (⟨"wiki", "ns"⟩, "creds")] }

/-- The sample ledger with `creds` bound to `idle` as well, after `wiki`. -/
def crowdedRegistry : Registry :=
  { ledgerRegistry with bindings := ledgerRegistry.bindings ++ [(⟨"idle", "ns"⟩, "creds")] }

/-- The oracle under which every deploy of `wiki` fails and nothing else does. -/
def faultDeployWiki : Call → Option String
  | .DeployApp ref _ _ _ _ => if ref.Name = "wiki" then some "rollout failed" else none
  | _ => none

/-- The oracle under which every `BoundServicesSet` fails and nothing else does. -/
def faultRecord : Call → Option String
  | .BoundServicesSet _ _ _ => some "store unavailable"
  | _ => none

/-- The oracle under which the lookup of the service `db` fails with a message other than
`service not found`, and nothing else fails. -/
def faultServiceDb : Call → Option String
  | .ServicesLookup _ service => if service = "db" then some "connection refused" else none
  | _ => none

/-- A Replace request that leaves the content of the configuration `creds` as it is. -/
def replaceSame : ReplaceRequest :=
  ⟨"ns", "creds", "admin", .ok [("user", "a")]⟩

/-- A Bind request of an unknown service to an unknown application. -/
def bindGhost : BindRequest :=
  ⟨"ns", "nosuch", .ok ⟨"ghost"⟩⟩

/-- A Bind request of an unknown service to the application `shop`. -/
def bindNoSuch : BindRequest :=
  ⟨"ns", "nosuch", .ok ⟨"shop"⟩⟩

/-- A sample state in which the deployed application `blog` is bound to the services `cache`
and `db`, and the application `shop`, not deployed, to `db`. -/
def mountedRegistry : Registry where
  namespaces := ["ns"]
  services := [("ns", "cache"), ("ns", "db")]
  apps :=
    [ ⟨⟨"blog", "ns"⟩, "admin", 2, ["cache", "db"], [], some ⟨"stage1", none⟩⟩,
      ⟨⟨"shop", "ns"⟩, "admin", 1, ["db"], [], none⟩ ]

/-- The workloads of a registry: every application reference with the workload of its
record, in the order of the records. -/
def Registry.workloads (w : Registry) : List (AppRef × Option AppDeployment) :=
  w.apps.map (fun a => (a.Meta, a.Workload))

/-- The part of a record that a change of the bound services leaves alone: the record with
its bound-service names blanked. -/
def App.withoutServices (a : App) : App :=
  { a with Services := [] }

/-- The part of a registry that binding a service leaves alone: the registry with the
bound-service names of its records, its configurations and its bindings blanked.  What stays
is the namespaces, the services and their secrets, the clock, the stalled applications and,
of every record, the reference, owner, instance count, environment and workload. -/
def Registry.withoutBindings (w : Registry) : Registry :=
  { w with apps := w.apps.map App.withoutServices, configurations := [], bindings := [] }

/-! ## Basic facts about runs -/

@[simp] theorem Outcome.after_result {σ : Type} (c : Call) (o : Outcome σ) :
    (Outcome.after c o).result = o.result := rfl

@[simp] theorem Outcome.after_calls {σ : Type} (c : Call) (o : Outcome σ) :
    (Outcome.after c o).calls = c :: o.calls := rfl

@[simp] theorem Outcome.after_state {σ : Type} (c : Call) (o : Outcome σ) :
    (Outcome.after c o).state = o.state := rfl

@[simp] theorem Outcome.ret_result {σ : Type} (s : σ) (res : Option APIErrors) :
    (Outcome.ret s res).result = res := rfl

@[simp] theorem Outcome.ret_calls {σ : Type} (s : σ) (res : Option APIErrors) :
    (Outcome.ret s res).calls = [] := rfl

@[simp] theorem Outcome.ret_state {σ : Type} (s : σ) (res : Option APIErrors) :
    (Outcome.ret s res).state = s := rfl

/-- The service loop only looks services up: its calls are the lookups of a prefix of the
listed names, none of them a mutation. -/
theorem checkServices_calls_read {σ : Type} (B : Backend σ) (s : σ) (org : String)
    (names : List String) (acc : List APIError) :
    ∀ c ∈ (checkServices B s org names acc).1, c.isMutation = false := by
  induction names generalizing acc with
  | nil => simp [checkServices]
  | cons n rest ih =>
    intro c hc
    simp only [checkServices, List.mem_cons] at hc
    rcases hc with rfl | hc
    · rfl
    · cases hl : B.ServicesLookup s org n with
      | none => rw [hl] at hc; exact ih acc c hc
      | some err =>
        rw [hl] at hc
        by_cases he : err = "service not found"
        · simp only [he, if_true] at hc; exact ih _ c hc
        · simp [he] at hc

/-- The service loop makes no registry write. -/
theorem checkServices_no_write {σ : Type} (B : Backend σ) (s : σ) (org : String)
    (names : List String) (acc : List APIError) :
    (checkServices B s org names acc).1.filter Call.isRegistryWrite = [] := by
  rw [List.filter_eq_nil_iff]
  intro c hc
  have h := checkServices_calls_read B s org names acc c hc
  simp [Call.isMutation] at h
  simp [h.1]

/-- When every lookup succeeds or reports `service not found`, the loop runs to its end and
has collected one `ServiceIsNotKnown` per unknown listed name, in the order of the request. -/
theorem checkServices_collects {σ : Type} (B : Backend σ) (s : σ) (org : String)
    (names : List String) (acc : List APIError)
    (hl : ∀ n ∈ names, B.ServicesLookup s org n = none ∨
      B.ServicesLookup s org n = some "service not found") :
    (checkServices B s org names acc).2 =
      .ok (acc ++ (unknownServices B s org names).map APIError.ServiceIsNotKnown) ∧
    (checkServices B s org names acc).1 = names.map (Call.ServicesLookup org) := by
  induction names generalizing acc with
  | nil => simp [checkServices, unknownServices]
  | cons n rest ih =>
    have hrest : ∀ m ∈ rest, B.ServicesLookup s org m = none ∨
        B.ServicesLookup s org m = some "service not found" :=
      fun m hm => hl m (List.mem_cons_of_mem _ hm)
    rcases hl n (List.mem_cons_self _ _) with h | h
    · have := ih acc hrest
      simp [checkServices, unknownServices, h] at this ⊢
      exact this
    · have := ih (acc ++ [APIError.ServiceIsNotKnown n]) hrest
      simp [checkServices, unknownServices, h] at this ⊢
      exact this

/-- When every listed service is found, the loop runs to its end with the issues it began
with. -/
theorem checkServices_all_found {σ : Type} (B : Backend σ) (s : σ) (org : String)
    (names : List String) (acc : List APIError)
    (hl : ∀ n ∈ names, B.ServicesLookup s org n = none) :
    (checkServices B s org names acc).2 = .ok acc ∧
    (checkServices B s org names acc).1 = names.map (Call.ServicesLookup org) := by
  have h := checkServices_collects B s org names acc (fun n hn => Or.inl (hl n hn))
  have hu : unknownServices B s org names = [] := by
    simp only [unknownServices, List.filter_eq_nil_iff]
    intro n hn
    simp [hl n hn]
  simpa [hu] using h

/-! ## Create -/

/-- C1: a Create request on an existing namespace with a well-formed body whose application
name already exists returns `AppAlreadyKnown` for that name; the run consists of the three
checks only, makes no registry write, and leaves the state, hence every Lookup, unchanged. -/
theorem Create_existing_application {σ : Type} (B : Backend σ) (DefaultInstances : Int)
    (r : CreateRequest) (s : σ) (createRequest : ApplicationCreateRequest)
    (hc : B.GetCluster s = none)
    (ho : B.OrganizationsExists s r.org = .ok true)
    (hb : r.body = .Decoded createRequest)
    (he : B.ApplicationExists s (NewAppRef createRequest.Name r.org) = .ok true) :
    (Create B DefaultInstances r s).result
        = some (.single (.AppAlreadyKnown createRequest.Name)) ∧
    (Create B DefaultInstances r s).calls
        = [.GetCluster, .OrganizationsExists r.org,
           .ApplicationExists (NewAppRef createRequest.Name r.org)] ∧
    (Create B DefaultInstances r s).writes = [] ∧
    (∀ c ∈ (Create B DefaultInstances r s).calls, c.isMutation = false) ∧
    (Create B DefaultInstances r s).state = s ∧
    (∀ org name, B.ApplicationLookup (Create B DefaultInstances r s).state org name
        = B.ApplicationLookup s org name) := by
  have hcalls : (Create B DefaultInstances r s).calls
      = [.GetCluster, .OrganizationsExists r.org,
         .ApplicationExists (NewAppRef createRequest.Name r.org)] := by
    simp [Create, hc, ho, hb, he]
  have hstate : (Create B DefaultInstances r s).state = s := by
    simp [Create, hc, ho, hb, he]
  refine ⟨by simp [Create, hc, ho, hb, he], hcalls, ?_, ?_, hstate, ?_⟩
  · simp [Outcome.writes, hcalls, Call.isRegistryWrite]
  · intro c hcm
    rw [hcalls] at hcm
    simp at hcm
    rcases hcm with rfl | rfl | rfl <;> rfl
  · intro org name
    rw [hstate]

/-- Witness of C1: creating `shop`, which exists in the sample registry. -/
theorem Create_existing_application_witness :
    (Create (registryBackend noFault 1) 1 createShop sampleRegistry).result
        = some (.single (.AppAlreadyKnown "shop")) ∧
    (Create (registryBackend noFault 1) 1 createShop sampleRegistry).writes = [] ∧
    (Create (registryBackend noFault 1) 1 createShop sampleRegistry).state = sampleRegistry :=
  have h := Create_existing_application (registryBackend noFault 1) 1 createShop sampleRegistry
    ⟨"shop", ⟨some 3, ["db"], [("MYVAR", "v9")]⟩⟩ (by rfl) (by rfl) (by rfl) (by rfl)
  ⟨h.1, h.2.2.1, h.2.2.2.2.1⟩

/-- C2: a Create request (namespace exists, body well-formed, application absent) whose
service lookups each succeed or report `service not found`, with K >= 1 unknown names among
the N listed, returns a MultiError of exactly K entries, the `ServiceIsNotKnown` errors of
the unknown names in request order; no registry write is made and the state is unchanged. -/
theorem Create_unknown_services {σ : Type} (B : Backend σ) (DefaultInstances : Int)
    (r : CreateRequest) (s : σ) (createRequest : ApplicationCreateRequest)
    (hc : B.GetCluster s = none)
    (ho : B.OrganizationsExists s r.org = .ok true)
    (hb : r.body = .Decoded createRequest)
    (he : B.ApplicationExists s (NewAppRef createRequest.Name r.org) = .ok false)
    (hl : ∀ n ∈ createRequest.Configuration.Services,
      B.ServicesLookup s r.org n = none ∨ B.ServicesLookup s r.org n = some "service not found")
    (hk : 1 ≤ (unknownServices B s r.org createRequest.Configuration.Services).length) :
    (Create B DefaultInstances r s).result
        = some (.NewMultiError
            ((unknownServices B s r.org createRequest.Configuration.Services).map
              APIError.ServiceIsNotKnown)) ∧
    (∀ errs, (Create B DefaultInstances r s).result = some errs →
      errs.Errors.length
        = (unknownServices B s r.org createRequest.Configuration.Services).length) ∧
    (Create B DefaultInstances r s).writes = [] ∧
    (∀ c ∈ (Create B DefaultInstances r s).calls, c.isMutation = false) ∧
    (Create B DefaultInstances r s).state = s := by
  obtain ⟨h2, h1⟩ := checkServices_collects B s r.org createRequest.Configuration.Services [] hl
  have hpos : ¬ (unknownServices B s r.org createRequest.Configuration.Services) = [] := by
    intro h; rw [h] at hk; simp at hk
  have hres : (Create B DefaultInstances r s).result
      = some (.NewMultiError
          ((unknownServices B s r.org createRequest.Configuration.Services).map
            APIError.ServiceIsNotKnown)) := by
    simp [Create, hc, ho, hb, he, h2, List.length_pos, hpos]
  have hcalls : (Create B DefaultInstances r s).calls
      = [.GetCluster, .OrganizationsExists r.org,
         .ApplicationExists (NewAppRef createRequest.Name r.org)] ++
        createRequest.Configuration.Services.map (Call.ServicesLookup r.org) := by
    simp [Create, hc, ho, hb, he, h2, h1, List.length_pos, hpos]
  have hmut : ∀ c ∈ (Create B DefaultInstances r s).calls, c.isMutation = false := by
    intro c hcm
    rw [hcalls] at hcm
    simp at hcm
    rcases hcm with rfl | rfl | rfl | ⟨n, _, rfl⟩ <;> rfl
  refine ⟨hres, ?_, ?_, hmut, ?_⟩
  · intro errs herrs
    rw [hres] at herrs
    cases herrs
    simp [APIErrors.Errors]
  · simp only [Outcome.writes, List.filter_eq_nil_iff]
    intro c hcm
    have := hmut c hcm
    simp [Call.isMutation] at this
    simp [this.1]
  · simp [Create, hc, ho, hb, he, h2, List.length_pos, hpos]

/-- Witness of C2: three listed services of which `cache` and `queue` are unknown. -/
theorem Create_unknown_services_witness :
    (unknownServices (registryBackend noFault 1) sampleRegistry "ns" ["cache", "db", "queue"])
        = ["cache", "queue"] ∧
    (Create (registryBackend noFault 1) 1 createWithUnknown sampleRegistry).result
        = some (.NewMultiError [.ServiceIsNotKnown "cache", .ServiceIsNotKnown "queue"]) ∧
    (Create (registryBackend noFault 1) 1 createWithUnknown sampleRegistry).writes = [] ∧
    (Create (registryBackend noFault 1) 1 createWithUnknown sampleRegistry).state
        = sampleRegistry :=
  have h := Create_unknown_services (registryBackend noFault 1) 1 createWithUnknown
    sampleRegistry ⟨"wiki", ⟨none, ["cache", "db", "queue"], []⟩⟩
    (by rfl) (by rfl) (by rfl) (by rfl) (by decide) (by decide)
  ⟨by decide, h.1, h.2.2.1, h.2.2.2.2⟩

/-- The run of `Create` once the namespace, the body and the absence of the application were
checked and every listed service was found: the checks, the service lookups, then the
modifying tail. -/
theorem Create_validated {σ : Type} (B : Backend σ) (DefaultInstances : Int)
    (r : CreateRequest) (s : σ) (createRequest : ApplicationCreateRequest)
    (hc : B.GetCluster s = none)
    (ho : B.OrganizationsExists s r.org = .ok true)
    (hb : r.body = .Decoded createRequest)
    (he : B.ApplicationExists s (NewAppRef createRequest.Name r.org) = .ok false)
    (hl : ∀ n ∈ createRequest.Configuration.Services, B.ServicesLookup s r.org n = none) :
    (Create B DefaultInstances r s).result
        = (createWrites B DefaultInstances (NewAppRef createRequest.Name r.org) r.username
            createRequest s).result ∧
    (Create B DefaultInstances r s).calls
        = [.GetCluster, .OrganizationsExists r.org,
           .ApplicationExists (NewAppRef createRequest.Name r.org)] ++
          createRequest.Configuration.Services.map (Call.ServicesLookup r.org) ++
          (createWrites B DefaultInstances (NewAppRef createRequest.Name r.org) r.username
            createRequest s).calls ∧
    (Create B DefaultInstances r s).state
        = (createWrites B DefaultInstances (NewAppRef createRequest.Name r.org) r.username
            createRequest s).state := by
  obtain ⟨h2, h1⟩ :=
    checkServices_all_found B s r.org createRequest.Configuration.Services [] hl
  simp [Create, hc, ho, hb, he, h2, h1]

/-- The registry writes among the checks and service lookups of `Create`: none. -/
theorem Create_checks_no_write (org : String) (ref : AppRef) (names : List String)
    (rest : List Call) :
    ([Call.GetCluster, .OrganizationsExists org, .ApplicationExists ref] ++
      names.map (Call.ServicesLookup org) ++ rest).filter Call.isRegistryWrite
      = rest.filter Call.isRegistryWrite := by
  have h : (names.map (Call.ServicesLookup org)).filter Call.isRegistryWrite = [] := by
    simp only [List.filter_eq_nil_iff]
    intro c hc
    simp at hc
    obtain ⟨n, _, rfl⟩ := hc
    simp [Call.isRegistryWrite]
  simp [List.filter_append, h, Call.isRegistryWrite]

/-- C3: when the namespace exists, the body is well-formed, the application is absent, every
listed service is found and every write succeeds, Create returns success (whatever the
application name) after exactly the four writes, in order, application.Create, ScalingSet,
BoundServicesSet with the listed services and replaceAll = true, EnvironmentSet with the
request's environment and replaceAll = true. -/
theorem Create_success_writes {σ : Type} (B : Backend σ) (DefaultInstances : Int)
    (r : CreateRequest) (s s1 s2 s3 s4 : σ) (createRequest : ApplicationCreateRequest)
    (hc : B.GetCluster s = none)
    (ho : B.OrganizationsExists s r.org = .ok true)
    (hb : r.body = .Decoded createRequest)
    (he : B.ApplicationExists s (NewAppRef createRequest.Name r.org) = .ok false)
    (hl : ∀ n ∈ createRequest.Configuration.Services, B.ServicesLookup s r.org n = none)
    (h1 : B.ApplicationCreate s (NewAppRef createRequest.Name r.org) r.username = (none, s1))
    (h2 : B.ScalingSet s1 (NewAppRef createRequest.Name r.org)
      (desiredInstances DefaultInstances createRequest) = (none, s2))
    (h3 : B.BoundServicesSet s2 (NewAppRef createRequest.Name r.org)
      createRequest.Configuration.Services true = (none, s3))
    (h4 : B.EnvironmentSet s3 (NewAppRef createRequest.Name r.org)
      createRequest.Configuration.Environment true = (none, s4))
    (h5 : B.ResponseJSON s4 = none) :
    (Create B DefaultInstances r s).result = none ∧
    (Create B DefaultInstances r s).writes
        = [.ApplicationCreate (NewAppRef createRequest.Name r.org) r.username,
           .ScalingSet (NewAppRef createRequest.Name r.org)
             (desiredInstances DefaultInstances createRequest),
           .BoundServicesSet (NewAppRef createRequest.Name r.org)
             createRequest.Configuration.Services true,
           .EnvironmentSet (NewAppRef createRequest.Name r.org)
             createRequest.Configuration.Environment true] ∧
    (Create B DefaultInstances r s).state = s4 := by
  obtain ⟨hr, hcalls, hs⟩ := Create_validated B DefaultInstances r s createRequest hc ho hb he hl
  refine ⟨?_, ?_, ?_⟩
  · rw [hr]; simp [createWrites, h1, h2, h3, h4, h5]
  · rw [Outcome.writes, hcalls, Create_checks_no_write]
    simp [createWrites, h1, h2, h3, h4, h5, Call.isRegistryWrite]
  · rw [hs]; simp [createWrites, h1, h2, h3, h4, h5]

/-- Witness of C3: creating `12monkeys`, a name with leading digits, in the sample registry. -/
theorem Create_success_writes_witness :
    (Create (registryBackend noFault 1) 1 createMonkeys sampleRegistry).result = none ∧
    (Create (registryBackend noFault 1) 1 createMonkeys sampleRegistry).writes
        = [.ApplicationCreate ⟨"12monkeys", "ns"⟩ "admin",
           .ScalingSet ⟨"12monkeys", "ns"⟩ 0,
           .BoundServicesSet ⟨"12monkeys", "ns"⟩ ["db"] true,
           .EnvironmentSet ⟨"12monkeys", "ns"⟩ [("CREDO", "up")] true] :=
  have h := Create_success_writes (registryBackend noFault 1) 1 createMonkeys sampleRegistry
    _ _ _ _ ⟨"12monkeys", ⟨some 0, ["db"], [("CREDO", "up")]⟩⟩
    (by rfl) (by rfl) (by rfl) (by rfl) (by decide) (by rfl) (by rfl) (by rfl) (by rfl) (by rfl)
  ⟨h.1, h.2.1⟩

/-- The modifying tail of `Create` never invokes the deployment reconciler. -/
theorem createWrites_no_deploy {σ : Type} (B : Backend σ) (DefaultInstances : Int)
    (appRef : AppRef) (username : String) (createRequest : ApplicationCreateRequest) (s : σ) :
    ∀ c ∈ (createWrites B DefaultInstances appRef username createRequest s).calls,
      c.isDeploy = false := by
  intro c hc
  simp only [createWrites] at hc
  repeat' split at hc
  all_goals simp at hc
  all_goals rcases hc with rfl | rfl | rfl | rfl | rfl <;> rfl

/-- No run of `Create` invokes the deployment reconciler. -/
theorem Create_no_deploy {σ : Type} (B : Backend σ) (DefaultInstances : Int)
    (r : CreateRequest) (s : σ) :
    ∀ c ∈ (Create B DefaultInstances r s).calls, c.isDeploy = false := by
  intro c hm
  have hloop : ∀ names, ∀ c ∈ (checkServices B s r.org names []).1, c.isDeploy = false := by
    intro names c hc
    have := checkServices_calls_read B s r.org names [] c hc
    simp [Call.isMutation] at this
    exact this.2
  cases hc : B.GetCluster s with
  | some err => simp [Create, hc] at hm; subst hm; rfl
  | none =>
  cases ho : B.OrganizationsExists s r.org with
  | error err => simp [Create, hc, ho] at hm; rcases hm with rfl | rfl <;> rfl
  | ok b =>
  cases b with
  | false => simp [Create, hc, ho] at hm; rcases hm with rfl | rfl <;> rfl
  | true =>
  cases hb : r.body with
  | ReadError err => simp [Create, hc, ho, hb] at hm; rcases hm with rfl | rfl <;> rfl
  | Malformed err => simp [Create, hc, ho, hb] at hm; rcases hm with rfl | rfl <;> rfl
  | Decoded createRequest =>
  cases he : B.ApplicationExists s (NewAppRef createRequest.Name r.org) with
  | error err => simp [Create, hc, ho, hb, he] at hm; rcases hm with rfl | rfl | rfl <;> rfl
  | ok b =>
  cases b with
  | true => simp [Create, hc, ho, hb, he] at hm; rcases hm with rfl | rfl | rfl <;> rfl
  | false =>
  cases hl : (checkServices B s r.org createRequest.Configuration.Services []).2 with
  | error issues =>
    simp [Create, hc, ho, hb, he, hl] at hm
    rcases hm with rfl | rfl | rfl | hm
    · rfl
    · rfl
    · rfl
    · exact hloop _ c hm
  | ok issues =>
    by_cases hi : issues.length > 0
    · simp [Create, hc, ho, hb, he, hl, hi] at hm
      rcases hm with rfl | rfl | rfl | hm
      · rfl
      · rfl
      · rfl
      · exact hloop _ c hm
    · simp only [Create, hc, ho, hb, he, hl, hi] at hm
      simp at hm
      rcases hm with rfl | rfl | rfl | hm | hm
      · rfl
      · rfl
      · rfl
      · exact hloop _ c hm
      · exact createWrites_no_deploy _ _ _ _ _ _ c hm

/-- A successful run of the modifying tail went through its four writes and the response. -/
theorem createWrites_success {σ : Type} (B : Backend σ) (DefaultInstances : Int)
    (appRef : AppRef) (username : String) (createRequest : ApplicationCreateRequest) (s : σ)
    (h : (createWrites B DefaultInstances appRef username createRequest s).result = none) :
    ∃ s1 s2 s3 s4,
      B.ApplicationCreate s appRef username = (none, s1) ∧
      B.ScalingSet s1 appRef (desiredInstances DefaultInstances createRequest) = (none, s2) ∧
      B.BoundServicesSet s2 appRef createRequest.Configuration.Services true = (none, s3) ∧
      B.EnvironmentSet s3 appRef createRequest.Configuration.Environment true = (none, s4) ∧
      (createWrites B DefaultInstances appRef username createRequest s).state = s4 := by
  rcases h1 : B.ApplicationCreate s appRef username with ⟨e1, s1⟩
  cases e1 with
  | some err => simp [createWrites, h1] at h
  | none =>
  rcases h2 : B.ScalingSet s1 appRef (desiredInstances DefaultInstances createRequest)
    with ⟨e2, s2⟩
  cases e2 with
  | some err => simp [createWrites, h1, h2] at h
  | none =>
  rcases h3 : B.BoundServicesSet s2 appRef createRequest.Configuration.Services true
    with ⟨e3, s3⟩
  cases e3 with
  | some err => simp [createWrites, h1, h2, h3] at h
  | none =>
  rcases h4 : B.EnvironmentSet s3 appRef createRequest.Configuration.Environment true
    with ⟨e4, s4⟩
  cases e4 with
  | some err => simp [createWrites, h1, h2, h3, h4] at h
  | none =>
  refine ⟨s1, s2, s3, s4, rfl, h2, h3, h4, ?_⟩
  cases h5 : B.ResponseJSON s4 <;> simp [createWrites, h1, h2, h3, h4, h5]

/-- A successful run of `Create` decoded a request, found the application absent and ran the
modifying tail from the initial state to success. -/
theorem Create_success_inv {σ : Type} (B : Backend σ) (DefaultInstances : Int)
    (r : CreateRequest) (s : σ) (h : (Create B DefaultInstances r s).result = none) :
    ∃ createRequest, r.body = .Decoded createRequest ∧
      B.ApplicationExists s (NewAppRef createRequest.Name r.org) = .ok false ∧
      (createWrites B DefaultInstances (NewAppRef createRequest.Name r.org) r.username
        createRequest s).result = none ∧
      (Create B DefaultInstances r s).state
        = (createWrites B DefaultInstances (NewAppRef createRequest.Name r.org) r.username
            createRequest s).state := by
  cases hc : B.GetCluster s with
  | some err => simp [Create, hc] at h
  | none =>
  cases ho : B.OrganizationsExists s r.org with
  | error err => simp [Create, hc, ho] at h
  | ok b =>
  cases b with
  | false => simp [Create, hc, ho] at h
  | true =>
  cases hb : r.body with
  | ReadError err => simp [Create, hc, ho, hb] at h
  | Malformed err => simp [Create, hc, ho, hb] at h
  | Decoded createRequest =>
  cases he : B.ApplicationExists s (NewAppRef createRequest.Name r.org) with
  | error err => simp [Create, hc, ho, hb, he] at h
  | ok b =>
  cases b with
  | true => simp [Create, hc, ho, hb, he] at h
  | false =>
  refine ⟨createRequest, rfl, he, ?_⟩
  cases hl : (checkServices B s r.org createRequest.Configuration.Services []).2 with
  | error issues => simp [Create, hc, ho, hb, he, hl] at h
  | ok issues =>
    by_cases hi : issues.length > 0
    · simp [Create, hc, ho, hb, he, hl, hi] at h
    · simp only [Create, hc, ho, hb, he, hl, hi] at h ⊢
      simpa using h

/-! ## The registry -/

/-- A single-record update that keeps the reference shows in `Lookup` as the update of the
record found before. -/
theorem Registry.Lookup_update (w : Registry) (org name : String) (f : App → App)
    (hf : ∀ a, (f a).Meta = a.Meta) :
    (w.update (NewAppRef name org) f).Lookup org name = (w.Lookup org name).map f := by
  obtain ⟨nss, svcs, apps, cfgs, secs, bnds, clk, stl⟩ := w
  simp only [Registry.update, Registry.Lookup]
  induction apps with
  | nil => simp
  | cons a rest ih =>
    by_cases ha : a.Meta = NewAppRef name org
    · simp [List.find?_cons, ha, hf]
    · simp [List.find?_cons, ha, ih]

/-- A record created is the one found by `Lookup` under its reference. -/
theorem Registry.Lookup_Create (w : Registry) (DefaultInstances : Int) (org name owner : String) :
    (w.Create DefaultInstances (NewAppRef name org) owner).Lookup org name
      = some ⟨NewAppRef name org, owner, DefaultInstances, [], [], none⟩ := by
  simp [Registry.Create, Registry.Lookup, List.find?_cons]

/-- A setter that reports no error has updated the record. -/
theorem Registry.set_ok (w w1 : Registry) (ref : AppRef) (f : App → App)
    (h : w.set ref f = (none, w1)) : w1 = w.update ref f := by
  unfold Registry.set at h
  split at h
  · simpa using h.symm
  · simp at h

/-- The setters of the registry backend applied to the reference of a record keep a record
without workload under that reference: they change neither `Meta` nor `Workload`. -/
theorem Registry.set_keeps (w : Registry) (org name : String) (f : App → App)
    (hf : ∀ a, (f a).Meta = a.Meta) (hw : ∀ a, (f a).Workload = a.Workload)
    (h : ∃ app, w.Lookup org name = some app ∧ app.Workload = none) :
    ∃ app, (w.set (NewAppRef name org) f).2.Lookup org name = some app ∧ app.Workload = none := by
  obtain ⟨app, ha, hn⟩ := h
  unfold Registry.set
  split
  · exact ⟨f app, by simp [Registry.Lookup_update w org name f hf, ha], by rw [hw, hn]⟩
  · exact ⟨app, ha, hn⟩

/-- Every run of `Create` either stops before the modifying tail, with no registry write and
the state untouched, or decodes a request and continues as the modifying tail from the
initial state. -/
theorem Create_cases {σ : Type} (B : Backend σ) (DefaultInstances : Int)
    (r : CreateRequest) (s : σ) :
    ((Create B DefaultInstances r s).writes = [] ∧ (Create B DefaultInstances r s).state = s) ∨
    ∃ createRequest, r.body = .Decoded createRequest ∧
      (Create B DefaultInstances r s).writes
        = (createWrites B DefaultInstances (NewAppRef createRequest.Name r.org) r.username
            createRequest s).writes ∧
      (Create B DefaultInstances r s).state
        = (createWrites B DefaultInstances (NewAppRef createRequest.Name r.org) r.username
            createRequest s).state ∧
      (Create B DefaultInstances r s).result
        = (createWrites B DefaultInstances (NewAppRef createRequest.Name r.org) r.username
            createRequest s).result := by
  have hloop : ∀ names,
      (checkServices B s r.org names []).1.filter Call.isRegistryWrite = [] :=
    fun names => checkServices_no_write B s r.org names []
  cases hc : B.GetCluster s with
  | some err => left; simp [Create, hc, Outcome.writes, Call.isRegistryWrite]
  | none =>
  cases ho : B.OrganizationsExists s r.org with
  | error err => left; simp [Create, hc, ho, Outcome.writes, Call.isRegistryWrite]
  | ok b =>
  cases b with
  | false => left; simp [Create, hc, ho, Outcome.writes, Call.isRegistryWrite]
  | true =>
  cases hb : r.body with
  | ReadError err => left; simp [Create, hc, ho, hb, Outcome.writes, Call.isRegistryWrite]
  | Malformed err => left; simp [Create, hc, ho, hb, Outcome.writes, Call.isRegistryWrite]
  | Decoded createRequest =>
  cases he : B.ApplicationExists s (NewAppRef createRequest.Name r.org) with
  | error err => left; simp [Create, hc, ho, hb, he, Outcome.writes, Call.isRegistryWrite]
  | ok b =>
  cases b with
  | true => left; simp [Create, hc, ho, hb, he, Outcome.writes, Call.isRegistryWrite]
  | false =>
  cases hl : (checkServices B s r.org createRequest.Configuration.Services []).2 with
  | error issues =>
    left
    simp [Create, hc, ho, hb, he, hl, Outcome.writes, Call.isRegistryWrite, List.filter_cons,
      hloop]
  | ok issues =>
    by_cases hi : issues.length > 0
    · left
      simp [Create, hc, ho, hb, he, hl, hi, Outcome.writes, Call.isRegistryWrite,
        List.filter_cons, hloop]
    · right
      refine ⟨createRequest, rfl, ?_, ?_, ?_⟩
      · simp only [Create, hc, ho, hb, he, hl, hi]
        simp [Outcome.writes, Call.isRegistryWrite, List.filter_cons, List.filter_append, hloop]
      · simp only [Create, hc, ho, hb, he, hl, hi]
        simp
      · simp only [Create, hc, ho, hb, he, hl, hi]
        simp

/-- The only `ScalingSet` call of the modifying tail carries the application reference and
the value of `desired`. -/
theorem createWrites_scaling {σ : Type} (B : Backend σ) (DefaultInstances : Int)
    (appRef : AppRef) (username : String) (createRequest : ApplicationCreateRequest) (s : σ)
    (ref : AppRef) (n : Int)
    (h : Call.ScalingSet ref n
      ∈ (createWrites B DefaultInstances appRef username createRequest s).calls) :
    ref = appRef ∧ n = desiredInstances DefaultInstances createRequest := by
  simp only [createWrites] at h
  repeat' split at h
  all_goals simp at h
  all_goals exact h

/-- C4: after every successful Create on the registry, a Lookup of (namespace, name) returns
an application with no workload and the requested instance count: the request's count when
one is given (0 included), DefaultInstances when none is given; the run invoked no deploy. -/
theorem Create_then_Lookup (fault : Call → Option String) (DefaultInstances : Int)
    (r : CreateRequest) (w : Registry)
    (h : (Create (registryBackend fault DefaultInstances) DefaultInstances r w).result = none) :
    ∃ createRequest app, r.body = .Decoded createRequest ∧
      (Create (registryBackend fault DefaultInstances) DefaultInstances r w).state.Lookup
        r.org createRequest.Name = some app ∧
      app.Workload = none ∧
      (∀ n, createRequest.Configuration.Instances = some n → app.Instances = n) ∧
      (createRequest.Configuration.Instances = none → app.Instances = DefaultInstances) ∧
      (∀ c ∈ (Create (registryBackend fault DefaultInstances) DefaultInstances r w).calls,
        c.isDeploy = false) := by
  obtain ⟨req, hb, -, hr, hs⟩ := Create_success_inv _ _ _ _ h
  obtain ⟨s1, s2, s3, s4, h1, h2, h3, h4, hs4⟩ := createWrites_success _ _ _ _ _ _ hr
  rw [hs4] at hs
  have e1 : s1 = w.Create DefaultInstances (NewAppRef req.Name r.org) r.username := by
    simp only [registryBackend] at h1
    split at h1
    · simp at h1
    · split at h1
      · simp at h1
      · simpa using h1.symm
  have e2 : s2 = s1.update (NewAppRef req.Name r.org)
      (fun a => { a with Instances := desiredInstances DefaultInstances req }) := by
    simp only [registryBackend] at h2
    split at h2
    · simp at h2
    · exact Registry.set_ok _ _ _ _ h2
  have e3 : s3 = s2.update (NewAppRef req.Name r.org)
      (fun a => { a with Services :=
        if true then req.Configuration.Services
        else mergeServices a.Services req.Configuration.Services }) := by
    simp only [registryBackend] at h3
    split at h3
    · simp at h3
    · exact Registry.set_ok _ _ _ _ h3
  have e4 : s4 = s3.update (NewAppRef req.Name r.org)
      (fun a => { a with Environment :=
        if true then req.Configuration.Environment
        else mergeEnvironment a.Environment req.Configuration.Environment }) := by
    simp only [registryBackend] at h4
    split at h4
    · simp at h4
    · exact Registry.set_ok _ _ _ _ h4
  have hlook : s4.Lookup r.org req.Name
      = some ⟨NewAppRef req.Name r.org, r.username, desiredInstances DefaultInstances req,
          req.Configuration.Services, req.Configuration.Environment, none⟩ := by
    rw [e4, Registry.Lookup_update, e3, Registry.Lookup_update, e2, Registry.Lookup_update,
      e1, Registry.Lookup_Create]
    · simp
    all_goals intro a; rfl
  refine ⟨req, _, hb, by rw [hs]; exact hlook, rfl, ?_, ?_, Create_no_deploy _ _ _ _⟩
  · intro n hn
    simp [desiredInstances, hn]
  · intro hn
    simp [desiredInstances, hn]

/-- Witness of C4: `12monkeys` is created with an explicit count of 0. -/
theorem Create_then_Lookup_witness :
    (Create (registryBackend noFault 1) 1 createMonkeys sampleRegistry).result = none ∧
    ∃ createRequest app, createMonkeys.body = .Decoded createRequest ∧
      (Create (registryBackend noFault 1) 1 createMonkeys sampleRegistry).state.Lookup
        createMonkeys.org createRequest.Name = some app ∧
      app.Workload = none ∧
      (∀ n, createRequest.Configuration.Instances = some n → app.Instances = n) ∧
      (createRequest.Configuration.Instances = none → app.Instances = 1) ∧
      (∀ c ∈ (Create (registryBackend noFault 1) 1 createMonkeys sampleRegistry).calls,
        c.isDeploy = false) :=
  ⟨by rfl, Create_then_Lookup noFault 1 createMonkeys sampleRegistry (by rfl)⟩

/-- C5 as stated fails: a request may carry a negative instance count, and Create hands it
to ScalingSet unchanged. -/
theorem Create_desired_nonneg_counterexample :
    ¬ (∀ (DefaultInstances : Int) (r : CreateRequest) (w : Registry) (ref : AppRef) (n : Int),
        Call.ScalingSet ref n
          ∈ (Create (registryBackend noFault DefaultInstances) DefaultInstances r w).calls →
        0 ≤ n) := by
  intro h
  have h1 := h 1 createNegative sampleRegistry ⟨"wiki", "ns"⟩ (-1) (by decide)
  exact absurd h1 (by decide)

/-- C5, amended: the count Create hands to ScalingSet is the request's instance count when one
is given and DefaultInstances otherwise; it is non-negative whenever DefaultInstances is and
the request gives no negative count. -/
theorem Create_desired_value {σ : Type} (B : Backend σ) (DefaultInstances : Int)
    (r : CreateRequest) (s : σ) (ref : AppRef) (n : Int)
    (h : Call.ScalingSet ref n ∈ (Create B DefaultInstances r s).calls) :
    ∃ createRequest, r.body = .Decoded createRequest ∧
      ref = NewAppRef createRequest.Name r.org ∧
      (∀ i, createRequest.Configuration.Instances = some i → n = i) ∧
      (createRequest.Configuration.Instances = none → n = DefaultInstances) ∧
      (0 ≤ DefaultInstances →
        (∀ i, createRequest.Configuration.Instances = some i → 0 ≤ i) → 0 ≤ n) := by
  have hw : Call.ScalingSet ref n ∈ (Create B DefaultInstances r s).writes := by
    simp [Outcome.writes, h, Call.isRegistryWrite]
  rcases Create_cases B DefaultInstances r s with ⟨h0, -⟩ | ⟨req, hb, hwr, -, -⟩
  · rw [h0] at hw; simp at hw
  · rw [hwr] at hw
    have hm := (List.mem_filter.mp hw).1
    obtain ⟨hr, hn⟩ := createWrites_scaling _ _ _ _ _ _ _ _ hm
    refine ⟨req, hb, hr, ?_, ?_, ?_⟩
    · intro i hi; simp [hn, desiredInstances, hi]
    · intro hi; simp [hn, desiredInstances, hi]
    · intro hd hi
      rw [hn]
      unfold desiredInstances
      split
      · exact hi _ (by assumption)
      · exact hd

/-- Witness of C5, amended: the request for `12monkeys` hands its explicit count 0 over. -/
theorem Create_desired_value_witness :
    Call.ScalingSet ⟨"12monkeys", "ns"⟩ 0
      ∈ (Create (registryBackend noFault 1) 1 createMonkeys sampleRegistry).calls ∧
    ∃ createRequest, createMonkeys.body = .Decoded createRequest ∧
      (⟨"12monkeys", "ns"⟩ : AppRef) = NewAppRef createRequest.Name createMonkeys.org ∧
      (∀ i, createRequest.Configuration.Instances = some i → (0 : Int) = i) ∧
      (createRequest.Configuration.Instances = none → (0 : Int) = 1) ∧
      ((0 : Int) ≤ 1 →
        (∀ i, createRequest.Configuration.Instances = some i → 0 ≤ i) → (0 : Int) ≤ 0) :=
  ⟨by decide, Create_desired_value (registryBackend noFault 1) 1 createMonkeys sampleRegistry
    ⟨"12monkeys", "ns"⟩ 0 (by decide)⟩

/-- C6: when the namespace of a Create request does not exist, Create returns
`OrgIsNotKnown`; when it exists but the body is not a well-formed request, Create returns
`BadRequest`; either way no registry write (indeed no mutation) is invoked and the state is
unchanged. -/
theorem Create_rejects_before_mutation {σ : Type} (B : Backend σ) (DefaultInstances : Int)
    (r : CreateRequest) (s : σ) (hc : B.GetCluster s = none) :
    (B.OrganizationsExists s r.org = .ok false →
      (Create B DefaultInstances r s).result = some (.single (.OrgIsNotKnown r.org)) ∧
      (Create B DefaultInstances r s).calls = [.GetCluster, .OrganizationsExists r.org] ∧
      (Create B DefaultInstances r s).writes = [] ∧
      (∀ c ∈ (Create B DefaultInstances r s).calls, c.isMutation = false) ∧
      (Create B DefaultInstances r s).state = s) ∧
    (∀ err, B.OrganizationsExists s r.org = .ok true → r.body = .Malformed err →
      (Create B DefaultInstances r s).result = some (.single (.BadRequest err)) ∧
      (Create B DefaultInstances r s).calls = [.GetCluster, .OrganizationsExists r.org] ∧
      (Create B DefaultInstances r s).writes = [] ∧
      (∀ c ∈ (Create B DefaultInstances r s).calls, c.isMutation = false) ∧
      (Create B DefaultInstances r s).state = s) := by
  constructor
  · intro ho
    have hcalls : (Create B DefaultInstances r s).calls
        = [.GetCluster, .OrganizationsExists r.org] := by
      simp [Create, hc, ho]
    refine ⟨by simp [Create, hc, ho], hcalls, ?_, ?_, by simp [Create, hc, ho]⟩
    · simp [Outcome.writes, hcalls, Call.isRegistryWrite]
    · intro c hm
      rw [hcalls] at hm
      simp at hm
      rcases hm with rfl | rfl <;> rfl
  · intro err ho hb
    have hcalls : (Create B DefaultInstances r s).calls
        = [.GetCluster, .OrganizationsExists r.org] := by
      simp [Create, hc, ho, hb]
    refine ⟨by simp [Create, hc, ho, hb], hcalls, ?_, ?_, by simp [Create, hc, ho, hb]⟩
    · simp [Outcome.writes, hcalls, Call.isRegistryWrite]
    · intro c hm
      rw [hcalls] at hm
      simp at hm
      rcases hm with rfl | rfl <;> rfl

/-- Witness of C6: a request in the unknown namespace `nowhere`, and a request with a
malformed body in the existing namespace `ns`. -/
theorem Create_rejects_before_mutation_witness :
    ((Create (registryBackend noFault 1) 1 createElsewhere sampleRegistry).result
        = some (.single (.OrgIsNotKnown "nowhere")) ∧
      (Create (registryBackend noFault 1) 1 createElsewhere sampleRegistry).writes = []) ∧
    ((Create (registryBackend noFault 1) 1 createMalformed sampleRegistry).result
        = some (.single (.BadRequest "unexpected end of JSON input")) ∧
      (Create (registryBackend noFault 1) 1 createMalformed sampleRegistry).writes = []) :=
  have h1 := (Create_rejects_before_mutation (registryBackend noFault 1) 1 createElsewhere
    sampleRegistry (by rfl)).1 (by rfl)
  have h2 := (Create_rejects_before_mutation (registryBackend noFault 1) 1 createMalformed
    sampleRegistry (by rfl)).2 "unexpected end of JSON input" (by rfl) (by rfl)
  ⟨⟨h1.1, h1.2.2.1⟩, ⟨h2.1, h2.2.2.1⟩⟩

/-- The setters of the registry backend keep a record without workload in place, whether
they fail or succeed. -/
theorem registryBackend_setters_keep (fault : Call → Option String) (DefaultInstances : Int)
    (t : Registry) (org name : String)
    (h : ∃ app, t.Lookup org name = some app ∧ app.Workload = none) :
    (∀ n, ∃ app, ((registryBackend fault DefaultInstances).ScalingSet t
        (NewAppRef name org) n).2.Lookup org name = some app ∧ app.Workload = none) ∧
    (∀ names b, ∃ app, ((registryBackend fault DefaultInstances).BoundServicesSet t
        (NewAppRef name org) names b).2.Lookup org name = some app ∧ app.Workload = none) ∧
    (∀ m b, ∃ app, ((registryBackend fault DefaultInstances).EnvironmentSet t
        (NewAppRef name org) m b).2.Lookup org name = some app ∧ app.Workload = none) := by
  refine ⟨fun n => ?_, fun names b => ?_, fun m b => ?_⟩
  · simp only [registryBackend]
    split
    · exact h
    · exact Registry.set_keeps t org name _ (fun _ => rfl) (fun _ => rfl) h
  · simp only [registryBackend]
    split
    · exact h
    · exact Registry.set_keeps t org name _ (fun _ => rfl) (fun _ => rfl) h
  · simp only [registryBackend]
    split
    · exact h
    · exact Registry.set_keeps t org name _ (fun _ => rfl) (fun _ => rfl) h

/-- On the registry, a run of the modifying tail that got past `application.Create` leaves
the created record, without workload, in place, whatever step failed afterwards. -/
theorem createWrites_record_remains (fault : Call → Option String) (DefaultInstances : Int)
    (org name username : String) (createRequest : ApplicationCreateRequest) (w : Registry)
    (h : 2 ≤ (createWrites (registryBackend fault DefaultInstances) DefaultInstances
      (NewAppRef name org) username createRequest w).writes.length) :
    ∃ app, (createWrites (registryBackend fault DefaultInstances) DefaultInstances
      (NewAppRef name org) username createRequest w).state.Lookup org name = some app ∧
      app.Workload = none := by
  rcases h1 : (registryBackend fault DefaultInstances).ApplicationCreate w
    (NewAppRef name org) username with ⟨e1, s1⟩
  cases e1 with
  | some err => simp [createWrites, h1, Outcome.writes, Call.isRegistryWrite] at h
  | none =>
  have p1 : ∃ app, s1.Lookup org name = some app ∧ app.Workload = none := by
    simp only [registryBackend] at h1
    split at h1
    · simp at h1
    · split at h1
      · simp at h1
      · have e : s1 = w.Create DefaultInstances (NewAppRef name org) username := by
          simpa using h1.symm
        exact ⟨_, by rw [e, Registry.Lookup_Create], rfl⟩
  have p2 := (registryBackend_setters_keep fault DefaultInstances s1 org name p1).1
    (desiredInstances DefaultInstances createRequest)
  rcases h2 : (registryBackend fault DefaultInstances).ScalingSet s1 (NewAppRef name org)
    (desiredInstances DefaultInstances createRequest) with ⟨e2, s2⟩
  rw [h2] at p2
  cases e2 with
  | some err => simpa [createWrites, h1, h2] using p2
  | none =>
  have p3 := (registryBackend_setters_keep fault DefaultInstances s2 org name p2).2.1
    createRequest.Configuration.Services true
  rcases h3 : (registryBackend fault DefaultInstances).BoundServicesSet s2 (NewAppRef name org)
    createRequest.Configuration.Services true with ⟨e3, s3⟩
  rw [h3] at p3
  cases e3 with
  | some err => simpa [createWrites, h1, h2, h3] using p3
  | none =>
  have p4 := (registryBackend_setters_keep fault DefaultInstances s3 org name p3).2.2
    createRequest.Configuration.Environment true
  rcases h4 : (registryBackend fault DefaultInstances).EnvironmentSet s3 (NewAppRef name org)
    createRequest.Configuration.Environment true with ⟨e4, s4⟩
  rw [h4] at p4
  cases e4 with
  | some err => simpa [createWrites, h1, h2, h3, h4] using p4
  | none =>
    cases h5 : (registryBackend fault DefaultInstances).ResponseJSON s4 <;>
      simpa [createWrites, h1, h2, h3, h4, h5] using p4

/-- C7: once validation has passed, a failure of one of the four writes of Create
(application.Create, ScalingSet, BoundServicesSet, EnvironmentSet) makes Create return the
InternalError of that failure; the failing call is the last call of the run, so no later step
and no compensating operation is invoked, and the state is the one the failing step left.  On
the registry, whenever Create got past application.Create the record it wrote, without
workload, is still found afterwards. -/
theorem Create_write_failure {σ : Type} (B : Backend σ) (DefaultInstances : Int)
    (r : CreateRequest) (s : σ) (createRequest : ApplicationCreateRequest)
    (hc : B.GetCluster s = none)
    (ho : B.OrganizationsExists s r.org = .ok true)
    (hb : r.body = .Decoded createRequest)
    (he : B.ApplicationExists s (NewAppRef createRequest.Name r.org) = .ok false)
    (hl : ∀ n ∈ createRequest.Configuration.Services, B.ServicesLookup s r.org n = none) :
    (∀ err s1,
      B.ApplicationCreate s (NewAppRef createRequest.Name r.org) r.username = (some err, s1) →
      (Create B DefaultInstances r s).result = some (.single (.InternalError err [])) ∧
      (Create B DefaultInstances r s).calls = createChecks r createRequest ++
        [.ApplicationCreate (NewAppRef createRequest.Name r.org) r.username] ∧
      (Create B DefaultInstances r s).state = s1) ∧
    (∀ err s1 s2,
      B.ApplicationCreate s (NewAppRef createRequest.Name r.org) r.username = (none, s1) →
      B.ScalingSet s1 (NewAppRef createRequest.Name r.org)
        (desiredInstances DefaultInstances createRequest) = (some err, s2) →
      (Create B DefaultInstances r s).result = some (.single (.InternalError err [])) ∧
      (Create B DefaultInstances r s).calls = createChecks r createRequest ++
        [.ApplicationCreate (NewAppRef createRequest.Name r.org) r.username,
         .ScalingSet (NewAppRef createRequest.Name r.org)
           (desiredInstances DefaultInstances createRequest)] ∧
      (Create B DefaultInstances r s).state = s2) ∧
    (∀ err s1 s2 s3,
      B.ApplicationCreate s (NewAppRef createRequest.Name r.org) r.username = (none, s1) →
      B.ScalingSet s1 (NewAppRef createRequest.Name r.org)
        (desiredInstances DefaultInstances createRequest) = (none, s2) →
      B.BoundServicesSet s2 (NewAppRef createRequest.Name r.org)
        createRequest.Configuration.Services true = (some err, s3) →
      (Create B DefaultInstances r s).result = some (.single (.InternalError err [])) ∧
      (Create B DefaultInstances r s).calls = createChecks r createRequest ++
        [.ApplicationCreate (NewAppRef createRequest.Name r.org) r.username,
         .ScalingSet (NewAppRef createRequest.Name r.org)
           (desiredInstances DefaultInstances createRequest),
         .BoundServicesSet (NewAppRef createRequest.Name r.org)
           createRequest.Configuration.Services true] ∧
      (Create B DefaultInstances r s).state = s3) ∧
    (∀ err s1 s2 s3 s4,
      B.ApplicationCreate s (NewAppRef createRequest.Name r.org) r.username = (none, s1) →
      B.ScalingSet s1 (NewAppRef createRequest.Name r.org)
        (desiredInstances DefaultInstances createRequest) = (none, s2) →
      B.BoundServicesSet s2 (NewAppRef createRequest.Name r.org)
        createRequest.Configuration.Services true = (none, s3) →
      B.EnvironmentSet s3 (NewAppRef createRequest.Name r.org)
        createRequest.Configuration.Environment true = (some err, s4) →
      (Create B DefaultInstances r s).result = some (.single (.InternalError err [])) ∧
      (Create B DefaultInstances r s).calls = createChecks r createRequest ++
        [.ApplicationCreate (NewAppRef createRequest.Name r.org) r.username,
         .ScalingSet (NewAppRef createRequest.Name r.org)
           (desiredInstances DefaultInstances createRequest),
         .BoundServicesSet (NewAppRef createRequest.Name r.org)
           createRequest.Configuration.Services true,
         .EnvironmentSet (NewAppRef createRequest.Name r.org)
           createRequest.Configuration.Environment true] ∧
      (Create B DefaultInstances r s).state = s4) ∧
    (∀ (fault : Call → Option String) (D : Int) (q : CreateRequest) (w : Registry),
      2 ≤ (Create (registryBackend fault D) D q w).writes.length →
      ∃ request app, q.body = .Decoded request ∧
        (Create (registryBackend fault D) D q w).state.Lookup q.org request.Name = some app ∧
        app.Workload = none) := by
  obtain ⟨hr, hcalls, hs⟩ := Create_validated B DefaultInstances r s createRequest hc ho hb he hl
  refine ⟨?_, ?_, ?_, ?_, ?_⟩
  · intro err s1 h1
    rw [hr, hcalls, hs]
    simp [createWrites, createChecks, h1]
  · intro err s1 s2 h1 h2
    rw [hr, hcalls, hs]
    simp [createWrites, createChecks, h1, h2]
  · intro err s1 s2 s3 h1 h2 h3
    rw [hr, hcalls, hs]
    simp [createWrites, createChecks, h1, h2, h3]
  · intro err s1 s2 s3 s4 h1 h2 h3 h4
    rw [hr, hcalls, hs]
    simp [createWrites, createChecks, h1, h2, h3, h4]
  · intro fault D q w h2
    rcases Create_cases (registryBackend fault D) D q w with ⟨h0, -⟩ | ⟨req, hq, hw, hst, -⟩
    · rw [h0] at h2; simp at h2
    · rw [hw] at h2
      obtain ⟨app, ha, hn⟩ := createWrites_record_remains fault D q.org req.Name q.username req w h2
      exact ⟨req, app, hq, by rw [hst]; exact ha, hn⟩

/-- Witness of C7: `ScalingSet` fails while `12monkeys` is created; the record written by
`application.Create` is still there, holding the default instance count. -/
theorem Create_write_failure_witness :
    (Create (registryBackend faultScaling 1) 1 createMonkeys sampleRegistry).result
        = some (.single (.InternalError "store unavailable" [])) ∧
    (Create (registryBackend faultScaling 1) 1 createMonkeys sampleRegistry).calls
        = [.GetCluster, .OrganizationsExists "ns", .ApplicationExists ⟨"12monkeys", "ns"⟩,
           .ServicesLookup "ns" "db", .ApplicationCreate ⟨"12monkeys", "ns"⟩ "admin",
           .ScalingSet ⟨"12monkeys", "ns"⟩ 0] ∧
    (Create (registryBackend faultScaling 1) 1 createMonkeys sampleRegistry).state.Lookup
        "ns" "12monkeys" = some ⟨⟨"12monkeys", "ns"⟩, "admin", 1, [], [], none⟩ :=
  have h := (Create_write_failure (registryBackend faultScaling 1) 1 createMonkeys
    sampleRegistry ⟨"12monkeys", ⟨some 0, ["db"], [("CREDO", "up")]⟩⟩
    (by rfl) (by rfl) (by rfl) (by rfl) (by decide)).2.1 "store unavailable" _ _
    (by rfl) (by rfl)
  ⟨h.1, h.2.1, by rw [h.2.2]; rfl⟩

/-! ## Environment Set -/

/-- Filtering by a condition implied by the search predicate does not change what `find?`
finds. -/
theorem find?_filter_of_imp {α : Type} (l : List α) (p q : α → Bool)
    (h : ∀ a, p a = true → q a = true) : (l.filter q).find? p = l.find? p := by
  induction l with
  | nil => rfl
  | cons a rest ih =>
    cases hq : q a with
    | true =>
      rw [List.filter_cons_of_pos hq, List.find?_cons, List.find?_cons, ih]
    | false =>
      have hp : p a = false := by
        cases hpa : p a with
        | false => rfl
        | true => rw [h a hpa] at hq; cases hq
      rw [List.filter_cons_of_neg (by simp [hq]), List.find?_cons, hp, ih]

/-- The value of a variable after a merge: the given assignment when there is one, the
previous value otherwise. -/
theorem mergeEnvironment_value (old assignments : EnvVariableMap) (k : String) :
    EnvVariableMap.value (mergeEnvironment old assignments) k
      = match EnvVariableMap.value assignments k with
        | some v => some v
        | none => EnvVariableMap.value old k := by
  simp only [EnvVariableMap.value, mergeEnvironment, List.find?_append]
  cases hm : assignments.find? (fun p => decide (p.1 = k)) with
  | some p => simp
  | none =>
    have hk : ∀ p ∈ assignments, ¬ p.1 = k := by
      simpa [List.find?_eq_none] using hm
    have hf : (old.filter (fun p => !((assignments.map Prod.fst).contains p.1))).find?
        (fun p => decide (p.1 = k)) = old.find? (fun p => decide (p.1 = k)) := by
      apply find?_filter_of_imp
      intro a ha
      have hak : a.1 = k := by simpa using ha
      simp only [Bool.not_eq_true', List.contains_eq_any_beq, List.any_eq_false, List.mem_map]
      rintro x ⟨p, hp, rfl⟩
      rw [hak]
      simpa using fun h => hk p hp h.symm
    rw [hf]
    simp

/-- A record found by `Lookup` carries the reference it was looked up with, and a setter on
that reference succeeds and shows in `Lookup` as the update of that record. -/
theorem Registry.set_found (w : Registry) (org name : String) (app : App) (f : App → App)
    (hf : ∀ a, (f a).Meta = a.Meta) (h : w.Lookup org name = some app) :
    app.Meta = NewAppRef name org ∧
    w.set (NewAppRef name org) f = (none, w.update (NewAppRef name org) f) ∧
    (w.update (NewAppRef name org) f).Lookup org name = some (f app) := by
  have hm : app.Meta = NewAppRef name org := by
    have := List.find?_some h
    simpa using this
  have hex : w.Exists (NewAppRef name org) = true := by
    simp only [Registry.Exists, List.any_eq_true]
    exact ⟨app, List.mem_of_find?_eq_some h, by simpa using hm⟩
  exact ⟨hm, by simp [Registry.set, hex], by rw [Registry.Lookup_update w org name f hf, h]; rfl⟩

/-- C8 as stated fails: on an application with a workload, with EnvironmentSet succeeding,
the single `deploy.DeployApp` call of Set carries no start value. -/
theorem Set_deploy_stamp_counterexample :
    ¬ (∀ (r : SetRequest) (w : Registry) (app : App) (m : EnvVariableMap),
        (registryBackend noFault 1).GetCluster w = none →
        (registryBackend noFault 1).ApplicationLookup w r.namespaceName r.appName
          = .ok (some app) →
        app.Workload ≠ none →
        r.body = .ok m →
        ((registryBackend noFault 1).EnvironmentSet w app.Meta m false).1 = none →
        ∃ username stageID origin stamp,
          (Set (registryBackend noFault 1) r w).calls.filter Call.isDeploy
            = [.DeployApp app.Meta username stageID origin (some stamp)]) := by
  intro h
  obtain ⟨username, stageID, origin, stamp, hs⟩ :=
    h setBlog sampleRegistry
      ⟨⟨"blog", "ns"⟩, "admin", 2, ["db"], [("MYVAR", "v1")], some ⟨"stage1", none⟩⟩
      [("MYVAR", "v2")] (by rfl) (by rfl) (by decide) (by rfl) (by rfl)
  have hcalls : (Set (registryBackend noFault 1) setBlog sampleRegistry).calls.filter
      Call.isDeploy = [.DeployApp ⟨"blog", "ns"⟩ "admin" "" none none] := by decide
  rw [hcalls] at hs
  simp at hs

/-- C8, amended: on an existing application with a workload, when EnvironmentSet succeeds,
Set invokes `deploy.DeployApp` exactly once, for that application and the requesting user,
with an empty stage id, no origin and an absent start value (no generation stamp); it
returns what that deploy returns. -/
theorem Set_deploys_once {σ : Type} (B : Backend σ) (r : SetRequest) (s s1 : σ) (app : App)
    (workload : AppDeployment) (m : EnvVariableMap)
    (hc : B.GetCluster s = none)
    (hl : B.ApplicationLookup s r.namespaceName r.appName = .ok (some app))
    (hw : app.Workload = some workload)
    (hb : r.body = .ok m)
    (he : B.EnvironmentSet s app.Meta m false = (none, s1)) :
    (Set B r s).calls.filter Call.isDeploy
        = [.DeployApp app.Meta r.username "" none none] ∧
    (Set B r s).result = (B.DeployApp s1 app.Meta r.username "" none none).1 ∧
    (Set B r s).state = (B.DeployApp s1 app.Meta r.username "" none none).2 := by
  rcases hd : B.DeployApp s1 app.Meta r.username "" none none with ⟨e, s2⟩
  cases e with
  | some apierr => simp [Set, hc, hl, hw, hb, he, hd, Call.isDeploy]
  | none => simp [Set, hc, hl, hw, hb, he, hd, Call.isDeploy]

/-- Witness of C8, amended: Set on the deployed application `blog`. -/
theorem Set_deploys_once_witness :
    (Set (registryBackend noFault 1) setBlog sampleRegistry).calls.filter Call.isDeploy
        = [.DeployApp ⟨"blog", "ns"⟩ "admin" "" none none] ∧
    (Set (registryBackend noFault 1) setBlog sampleRegistry).result = none :=
  have h := Set_deploys_once (registryBackend noFault 1) setBlog sampleRegistry _
    ⟨⟨"blog", "ns"⟩, "admin", 2, ["db"], [("MYVAR", "v1")], some ⟨"stage1", none⟩⟩
    ⟨"stage1", none⟩ [("MYVAR", "v2")] (by rfl) (by rfl) (by rfl) (by rfl) (by rfl)
  ⟨h.1, by rw [h.2.1]; rfl⟩

/-- C9: a Set request on an existing application without workload never invokes
`deploy.DeployApp`, whatever its body; with a decoded body it invokes EnvironmentSet once,
with the request's variables, ends in the state EnvironmentSet left, and succeeds when
EnvironmentSet does. -/
theorem Set_without_workload {σ : Type} (B : Backend σ) (r : SetRequest) (s : σ) (app : App)
    (hc : B.GetCluster s = none)
    (hl : B.ApplicationLookup s r.namespaceName r.appName = .ok (some app))
    (hw : app.Workload = none) :
    (∀ c ∈ (Set B r s).calls, c.isDeploy = false) ∧
    (∀ m, r.body = .ok m →
      (Set B r s).writes = [.EnvironmentSet app.Meta m false] ∧
      (Set B r s).state = (B.EnvironmentSet s app.Meta m false).2 ∧
      ((B.EnvironmentSet s app.Meta m false).1 = none → (Set B r s).result = none)) := by
  constructor
  · intro c hm
    cases hb : r.body with
    | error err =>
      simp [Set, hc, hl, hb] at hm
      rcases hm with rfl | rfl <;> rfl
    | ok m =>
      rcases he : B.EnvironmentSet s app.Meta m false with ⟨e, s1⟩
      cases e with
      | some err =>
        simp [Set, hc, hl, hw, hb, he] at hm
        rcases hm with rfl | rfl | rfl <;> rfl
      | none =>
        simp [Set, hc, hl, hw, hb, he] at hm
        rcases hm with rfl | rfl | rfl | rfl <;> rfl
  · intro m hb
    rcases he : B.EnvironmentSet s app.Meta m false with ⟨e, s1⟩
    cases e with
    | some err => simp [Set, hc, hl, hw, hb, he, Outcome.writes, Call.isRegistryWrite]
    | none => simp [Set, hc, hl, hw, hb, he, Outcome.writes, Call.isRegistryWrite]

/-- Witness of C9: Set on `shop`, which has no workload. -/
theorem Set_without_workload_witness :
    (∀ c ∈ (Set (registryBackend noFault 1) setShop sampleRegistry).calls,
      c.isDeploy = false) ∧
    (Set (registryBackend noFault 1) setShop sampleRegistry).writes
        = [.EnvironmentSet ⟨"shop", "ns"⟩ [("MYVAR", "v2")] false] ∧
    (Set (registryBackend noFault 1) setShop sampleRegistry).result = none :=
  have h := Set_without_workload (registryBackend noFault 1) setShop sampleRegistry
    ⟨⟨"shop", "ns"⟩, "admin", 1, [], [("MODE", "dev"), ("MYVAR", "v1")], none⟩
    (by rfl) (by rfl) (by rfl)
  have h2 := h.2 [("MYVAR", "v2")] (by rfl)
  ⟨h.1, h2.1, h2.2.2 (by rfl)⟩

/-- C10: Set merges.  On the registry, for a request on an existing application with a
decoded body, the only registry write of Set is EnvironmentSet with exactly the request's
mapping and replaceAll = false; when that write succeeds, the application found afterwards
has, for every variable named in the request, the request's value, and for every other
variable the value it had before. -/
theorem Set_merges (fault : Call → Option String) (DefaultInstances : Int) (r : SetRequest)
    (w : Registry) (app : App) (m : EnvVariableMap)
    (hc : fault .GetCluster = none)
    (hf : fault (.ApplicationLookup r.namespaceName r.appName) = none)
    (ha : w.Lookup r.namespaceName r.appName = some app)
    (hb : r.body = .ok m) :
    (Set (registryBackend fault DefaultInstances) r w).writes
        = [.EnvironmentSet app.Meta m false] ∧
    (fault (.EnvironmentSet app.Meta m false) = none →
      ∃ after, (Set (registryBackend fault DefaultInstances) r w).state.Lookup
          r.namespaceName r.appName = some after ∧
        (∀ k v, EnvVariableMap.value m k = some v →
          EnvVariableMap.value after.Environment k = some v) ∧
        (∀ k, EnvVariableMap.value m k = none →
          EnvVariableMap.value after.Environment k = EnvVariableMap.value app.Environment k)) := by
  have hgc : (registryBackend fault DefaultInstances).GetCluster w = none := hc
  have hl : (registryBackend fault DefaultInstances).ApplicationLookup w r.namespaceName
      r.appName = .ok (some app) := by
    simp [registryBackend, hf, ha]
  constructor
  · rcases he : (registryBackend fault DefaultInstances).EnvironmentSet w app.Meta m false
      with ⟨e, s1⟩
    cases e with
    | some err => simp [Set, hgc, hl, hb, he, Outcome.writes, Call.isRegistryWrite]
    | none =>
      cases hw : app.Workload with
      | none => simp [Set, hgc, hl, hb, he, hw, Outcome.writes, Call.isRegistryWrite]
      | some workload =>
        rcases hd : (registryBackend fault DefaultInstances).DeployApp s1 app.Meta r.username
          "" none none with ⟨d, s2⟩
        cases d <;> simp [Set, hgc, hl, hb, he, hw, hd, Outcome.writes, Call.isRegistryWrite]
  · intro hfe
    obtain ⟨hmeta, hset, hlook⟩ := Registry.set_found w r.namespaceName r.appName app
      (fun a => { a with Environment := mergeEnvironment a.Environment m })
      (fun _ => rfl) ha
    have he : (registryBackend fault DefaultInstances).EnvironmentSet w app.Meta m false
        = (none, w.update (NewAppRef r.appName r.namespaceName)
            (fun a => { a with Environment := mergeEnvironment a.Environment m })) := by
      simp only [registryBackend, hfe]
      rw [hmeta]
      simpa using hset
    have hstate : ∃ after, (Set (registryBackend fault DefaultInstances) r w).state.Lookup
        r.namespaceName r.appName = some after ∧
        after.Environment = mergeEnvironment app.Environment m := by
      cases hw : app.Workload with
      | none =>
        refine ⟨{ app with Environment := mergeEnvironment app.Environment m }, ?_, rfl⟩
        simp only [Set, hgc, hl, hb, he, hw]
        rw [hw] at hlook
        simpa [hw] using hlook
      | some workload =>
        cases hfd : fault (.DeployApp app.Meta r.username "" none none) with
        | some err =>
          have hd : (registryBackend fault DefaultInstances).DeployApp
              (w.update (NewAppRef r.appName r.namespaceName)
                (fun a => { a with Environment := mergeEnvironment a.Environment m }))
              app.Meta r.username "" none none
              = (some (.single (.InternalError err [])),
                  w.update (NewAppRef r.appName r.namespaceName)
                    (fun a => { a with Environment := mergeEnvironment a.Environment m })) := by
            simp [registryBackend, hfd]
          refine ⟨{ app with Environment := mergeEnvironment app.Environment m }, ?_, rfl⟩
          simp only [Set, hgc, hl, hb, he, hw, hd]
          rw [hw] at hlook
          simpa [hw] using hlook
        | none =>
          obtain ⟨-, hset2, hlook2⟩ := Registry.set_found _ r.namespaceName r.appName _
            (fun a => { a with Workload := some ⟨"", none⟩ }) (fun _ => rfl) hlook
          have hd : (registryBackend fault DefaultInstances).DeployApp
              (w.update (NewAppRef r.appName r.namespaceName)
                (fun a => { a with Environment := mergeEnvironment a.Environment m }))
              app.Meta r.username "" none none
              = (none,
                  (w.update (NewAppRef r.appName r.namespaceName)
                    (fun a => { a with Environment := mergeEnvironment a.Environment m })).update
                    (NewAppRef r.appName r.namespaceName)
                    (fun a => { a with Workload := some ⟨"", none⟩ })) := by
            simp only [registryBackend, hfd]
            rw [hmeta, hset2]
          refine ⟨⟨app.Meta, app.Owner, app.Instances, app.Services,
            mergeEnvironment app.Environment m, some ⟨"", none⟩⟩, ?_, rfl⟩
          simp only [Set, hgc, hl, hb, he, hw, hd]
          simpa using hlook2
    obtain ⟨after, hla, henv⟩ := hstate
    refine ⟨after, hla, ?_, ?_⟩
    · intro k v hk
      rw [henv, mergeEnvironment_value, hk]
    · intro k hk
      rw [henv, mergeEnvironment_value, hk]

/-- Witness of C10: Set of `MYVAR` on `shop` keeps `MODE` and replaces `MYVAR`. -/
theorem Set_merges_witness :
    (Set (registryBackend noFault 1) setShop sampleRegistry).writes
        = [.EnvironmentSet ⟨"shop", "ns"⟩ [("MYVAR", "v2")] false] ∧
    ∃ after, (Set (registryBackend noFault 1) setShop sampleRegistry).state.Lookup
        "ns" "shop" = some after ∧
      (∀ k v, EnvVariableMap.value [("MYVAR", "v2")] k = some v →
        EnvVariableMap.value after.Environment k = some v) ∧
      (∀ k, EnvVariableMap.value [("MYVAR", "v2")] k = none →
        EnvVariableMap.value after.Environment k
          = EnvVariableMap.value [("MODE", "dev"), ("MYVAR", "v1")] k) :=
  have h := Set_merges noFault 1 setShop sampleRegistry
    ⟨⟨"shop", "ns"⟩, "admin", 1, [], [("MODE", "dev"), ("MYVAR", "v1")], none⟩
    [("MYVAR", "v2")] (by rfl) (by rfl) (by rfl) (by rfl)
  ⟨h.1, h.2 (by rfl)⟩

/-- C11: a Set request whose application does not exist (Lookup gives an absent result
without error) returns `AppIsNotKnown` for that name; the run consists of GetCluster and the
lookup only, so neither EnvironmentSet nor the deployment reconciler is invoked. -/
theorem Set_unknown_application {σ : Type} (B : Backend σ) (r : SetRequest) (s : σ)
    (hc : B.GetCluster s = none)
    (hl : B.ApplicationLookup s r.namespaceName r.appName = .ok none) :
    (Set B r s).result = some (.single (.AppIsNotKnown r.appName)) ∧
    (Set B r s).calls = [.GetCluster, .ApplicationLookup r.namespaceName r.appName] ∧
    (∀ c ∈ (Set B r s).calls, c.isMutation = false) ∧
    (Set B r s).state = s := by
  have hcalls : (Set B r s).calls
      = [.GetCluster, .ApplicationLookup r.namespaceName r.appName] := by
    simp [Set, hc, hl]
  refine ⟨by simp [Set, hc, hl], hcalls, ?_, by simp [Set, hc, hl]⟩
  intro c hm
  rw [hcalls] at hm
  simp at hm
  rcases hm with rfl | rfl <;> rfl

/-- Witness of C11: Set on `ghost`, which does not exist in the sample registry. -/
theorem Set_unknown_application_witness :
    (Set (registryBackend noFault 1) setGhost sampleRegistry).result
        = some (.single (.AppIsNotKnown "ghost")) ∧
    (Set (registryBackend noFault 1) setGhost sampleRegistry).calls
        = [.GetCluster, .ApplicationLookup "ns" "ghost"] :=
  have h := Set_unknown_application (registryBackend noFault 1) setGhost sampleRegistry
    (by rfl) (by rfl)
  ⟨h.1, h.2.1⟩

/-! ## Configuration Replace -/

@[simp] theorem ReplaceRun.run_after_ending {σ : Type} (c : Call) (o : ReplaceRun σ) :
    (ReplaceRun.after c o).ending = o.ending := rfl

@[simp] theorem ReplaceRun.run_after_calls {σ : Type} (c : Call) (o : ReplaceRun σ) :
    (ReplaceRun.after c o).calls = c :: o.calls := rfl

@[simp] theorem ReplaceRun.run_after_state {σ : Type} (c : Call) (o : ReplaceRun σ) :
    (ReplaceRun.after c o).state = o.state := rfl

@[simp] theorem ReplaceRun.run_ret_ending {σ : Type} (s : σ) (res : Option APIErrors) :
    (ReplaceRun.ret s res).ending = .returned res := rfl

@[simp] theorem ReplaceRun.run_ret_calls {σ : Type} (s : σ) (res : Option APIErrors) :
    (ReplaceRun.ret s res).calls = [] := rfl

@[simp] theorem ReplaceRun.run_ret_state {σ : Type} (s : σ) (res : Option APIErrors) :
    (ReplaceRun.ret s res).state = s := rfl

/-- C13: when the configuration lookup of a Replace request reports `configuration not
found`, Replace returns `ConfigurationIsNotKnown` for that name; when it fails with any other
message, Replace returns the InternalError of that failure; both runs consist of GetCluster
and the lookup only, so neither ReplaceConfiguration nor any deploy is invoked. -/
theorem Replace_unknown_configuration {σ : Type} (B : Backend σ) (r : ReplaceRequest) (s : σ)
    (hc : B.GetCluster s = none) :
    (B.ConfigurationsLookup s r.namespaceName r.configurationName
        = .error "configuration not found" →
      (Replace B r s).ending
        = .returned (some (.single (.ConfigurationIsNotKnown r.configurationName))) ∧
      (Replace B r s).calls
        = [.GetCluster, .ConfigurationsLookup r.namespaceName r.configurationName] ∧
      (∀ c ∈ (Replace B r s).calls, c.changesState = false) ∧
      (Replace B r s).state = s) ∧
    (∀ err, err ≠ "configuration not found" →
      B.ConfigurationsLookup s r.namespaceName r.configurationName = .error err →
      (Replace B r s).ending = .returned (some (.single (.InternalError err []))) ∧
      (Replace B r s).calls
        = [.GetCluster, .ConfigurationsLookup r.namespaceName r.configurationName] ∧
      (∀ c ∈ (Replace B r s).calls, c.changesState = false) ∧
      (Replace B r s).state = s) := by
  constructor
  · intro hl
    have hcalls : (Replace B r s).calls
        = [.GetCluster, .ConfigurationsLookup r.namespaceName r.configurationName] := by
      simp [Replace, hc, hl]
    refine ⟨by simp [Replace, hc, hl], hcalls, ?_, by simp [Replace, hc, hl]⟩
    intro c hm
    rw [hcalls] at hm
    simp at hm
    rcases hm with rfl | rfl <;> rfl
  · intro err hne hl
    have hcalls : (Replace B r s).calls
        = [.GetCluster, .ConfigurationsLookup r.namespaceName r.configurationName] := by
      simp only [Replace, hc, hl, hne, if_false]
      simp
    refine ⟨?_, hcalls, ?_, ?_⟩
    · simp only [Replace, hc, hl, hne, if_false]
      simp
    · intro c hm
      rw [hcalls] at hm
      simp at hm
      rcases hm with rfl | rfl <;> rfl
    · simp only [Replace, hc, hl, hne, if_false]
      simp

/-- Witness of C13: Replace of the unknown configuration `ghost`, and Replace of `creds` while
the configuration store is unavailable. -/
theorem Replace_unknown_configuration_witness :
    ((Replace (registryBackend noFault 1) replaceGhost ledgerRegistry).ending
        = .returned (some (.single (.ConfigurationIsNotKnown "ghost"))) ∧
      (Replace (registryBackend noFault 1) replaceGhost ledgerRegistry).calls
        = [.GetCluster, .ConfigurationsLookup "ns" "ghost"]) ∧
    ((Replace (registryBackend faultConfigurationsLookup 1) replaceCreds ledgerRegistry).ending
        = .returned (some (.single (.InternalError "store unavailable" []))) ∧
      (Replace (registryBackend faultConfigurationsLookup 1) replaceCreds ledgerRegistry).calls
        = [.GetCluster, .ConfigurationsLookup "ns" "creds"]) :=
  have h1 := (Replace_unknown_configuration (registryBackend noFault 1) replaceGhost
    ledgerRegistry (by rfl)).1 (by rfl)
  have h2 := (Replace_unknown_configuration (registryBackend faultConfigurationsLookup 1)
    replaceCreds ledgerRegistry (by rfl)).2 "store unavailable" (by decide) (by rfl)
  ⟨⟨h1.1, h1.2.1⟩, ⟨h2.1, h2.2.1⟩⟩

/-! ## Running -/

/-- The result of `Running` when the wait on an application with a workload fails: the
InternalError carrying the message of the error of the wait. -/
theorem Running_wait_error {σ : Type} (B : Backend σ) (ToAppBuilt : Int) (r : RunningRequest)
    (s : σ) (app : App) (workload : AppDeployment) (e : WaitError)
    (hc : B.GetCluster s = none)
    (ho : B.OrganizationsExists s r.org = .ok true)
    (hl : B.ApplicationLookup s r.org r.appName = .ok (some app))
    (hw : app.Workload = some workload)
    (he : B.WaitForDeploymentCompleted s r.org r.appName ToAppBuilt = some e) :
    (Running B ToAppBuilt r s).result = some (.single (.InternalError e.Message [])) ∧
    (Running B ToAppBuilt r s).calls
      = [.GetCluster, .OrganizationsExists r.org, .ApplicationLookup r.org r.appName,
         .WaitForDeploymentCompleted r.org r.appName ToAppBuilt] ∧
    (Running B ToAppBuilt r s).state = s := by
  simp [Running, hc, ho, hl, hw, he]

/-- C14: a Running request on an existing application without workload returns the API error
`No status available for application without workload` with status 400; the run consists of
the three checks only, so the readiness wait is not invoked; and this result differs from
every result Running returns when the wait on an application with a workload fails. -/
theorem Running_without_workload {σ : Type} (B : Backend σ) (ToAppBuilt : Int)
    (r : RunningRequest) (s : σ) (app : App)
    (hc : B.GetCluster s = none)
    (ho : B.OrganizationsExists s r.org = .ok true)
    (hl : B.ApplicationLookup s r.org r.appName = .ok (some app))
    (hw : app.Workload = none) :
    (Running B ToAppBuilt r s).result
      = some (.single
          (.NewAPIError "No status available for application without workload" "" 400)) ∧
    (Running B ToAppBuilt r s).calls
      = [.GetCluster, .OrganizationsExists r.org, .ApplicationLookup r.org r.appName] ∧
    (Running B ToAppBuilt r s).state = s ∧
    (∀ {τ : Type} (B2 : Backend τ) (timeout : Int) (q : RunningRequest) (t : τ) (other : App)
        (workload : AppDeployment) (e : WaitError),
      B2.GetCluster t = none →
      B2.OrganizationsExists t q.org = .ok true →
      B2.ApplicationLookup t q.org q.appName = .ok (some other) →
      other.Workload = some workload →
      B2.WaitForDeploymentCompleted t q.org q.appName timeout = some e →
      (Running B2 timeout q t).result ≠ (Running B ToAppBuilt r s).result) := by
  have hres : (Running B ToAppBuilt r s).result
      = some (.single
          (.NewAPIError "No status available for application without workload" "" 400)) := by
    simp [Running, hc, ho, hl, hw]
  refine ⟨hres, by simp [Running, hc, ho, hl, hw], by simp [Running, hc, ho, hl, hw], ?_⟩
  intro τ B2 timeout q t other workload e h1 h2 h3 h4 h5
  rw [hres, (Running_wait_error B2 timeout q t other workload e h1 h2 h3 h4 h5).1]
  simp

/-- Witness of C14: Running on `shop` (no workload), compared with Running on `wiki`, whose
wait fails. -/
theorem Running_without_workload_witness :
    (Running (registryBackend noFault 1) 600 runningShop ledgerRegistry).result
      = some (.single
          (.NewAPIError "No status available for application without workload" "" 400)) ∧
    (Running (registryBackend noFault 1) 600 runningShop ledgerRegistry).calls
      = [.GetCluster, .OrganizationsExists "ns", .ApplicationLookup "ns" "shop"] ∧
    (Running (registryBackend noFault 1) 600 runningWiki ledgerRegistry).result
      ≠ (Running (registryBackend noFault 1) 600 runningShop ledgerRegistry).result :=
  have h := Running_without_workload (registryBackend noFault 1) 600 runningShop ledgerRegistry
    ⟨⟨"shop", "ns"⟩, "admin", 1, ["cache"], [], none⟩ (by rfl) (by rfl) (by rfl) (by rfl)
  ⟨h.1, h.2.1, h.2.2.2 (registryBackend noFault 1) 600 runningWiki ledgerRegistry
    ⟨⟨"wiki", "ns"⟩, "admin", 1, [], [], some ⟨"stage7", none⟩⟩ ⟨"stage7", none⟩
    ⟨true, "timed out waiting for the condition"⟩ (by rfl) (by rfl) (by rfl) (by rfl) (by rfl)⟩

/-- C15 as stated fails: no reading of the result of Running tells an expired wait from
another failure of the wait; the two give the same result when their errors carry the same
message. -/
theorem Running_timeout_counterexample :
    ¬ (∃ isNotReadyInTime : Option APIErrors → Bool,
        ∀ (fault : Call → Option String) (w : Registry) (r : RunningRequest) (app : App)
          (workload : AppDeployment) (e : WaitError),
          (registryBackend fault 1).GetCluster w = none →
          (registryBackend fault 1).OrganizationsExists w r.org = .ok true →
          (registryBackend fault 1).ApplicationLookup w r.org r.appName = .ok (some app) →
          app.Workload = some workload →
          (registryBackend fault 1).WaitForDeploymentCompleted w r.org r.appName 600 = some e →
          isNotReadyInTime (Running (registryBackend fault 1) 600 r w).result = e.Expired) := by
  rintro ⟨f, hf⟩
  have h1 := hf noFault ledgerRegistry runningWiki
    ⟨⟨"wiki", "ns"⟩, "admin", 1, [], [], some ⟨"stage7", none⟩⟩ ⟨"stage7", none⟩
    ⟨true, "timed out waiting for the condition"⟩ (by rfl) (by rfl) (by rfl) (by rfl) (by rfl)
  have h2 := hf faultWait ledgerRegistry runningBlog
    ⟨⟨"blog", "ns"⟩, "admin", 2, [], [], some ⟨"stage1", none⟩⟩ ⟨"stage1", none⟩
    ⟨false, "timed out waiting for the condition"⟩ (by rfl) (by rfl) (by rfl) (by rfl) (by rfl)
  have e1 : (Running (registryBackend noFault 1) 600 runningWiki ledgerRegistry).result
      = some (.single (.InternalError "timed out waiting for the condition" [])) := by rfl
  have e2 : (Running (registryBackend faultWait 1) 600 runningBlog ledgerRegistry).result
      = some (.single (.InternalError "timed out waiting for the condition" [])) := by rfl
  rw [e1] at h1
  rw [e2, h1] at h2
  simp at h2

/-- C15, amended: when the readiness wait inside Running fails for an application that has a
workload, by expiry or otherwise, Running returns the InternalError carrying the message of
the error of the wait, after the three checks and the wait; the results of two such runs are
equal exactly when the two messages are. -/
theorem Running_wait_failure {σ : Type} (B : Backend σ) (ToAppBuilt : Int) (r : RunningRequest)
    (s : σ) (app : App) (workload : AppDeployment) (e : WaitError)
    (hc : B.GetCluster s = none)
    (ho : B.OrganizationsExists s r.org = .ok true)
    (hl : B.ApplicationLookup s r.org r.appName = .ok (some app))
    (hw : app.Workload = some workload)
    (he : B.WaitForDeploymentCompleted s r.org r.appName ToAppBuilt = some e) :
    (Running B ToAppBuilt r s).result = some (.single (.InternalError e.Message [])) ∧
    (Running B ToAppBuilt r s).calls
      = [.GetCluster, .OrganizationsExists r.org, .ApplicationLookup r.org r.appName,
         .WaitForDeploymentCompleted r.org r.appName ToAppBuilt] ∧
    (∀ {τ : Type} (B2 : Backend τ) (timeout : Int) (q : RunningRequest) (t : τ) (other : App)
        (deployment : AppDeployment) (e2 : WaitError),
      B2.GetCluster t = none →
      B2.OrganizationsExists t q.org = .ok true →
      B2.ApplicationLookup t q.org q.appName = .ok (some other) →
      other.Workload = some deployment →
      B2.WaitForDeploymentCompleted t q.org q.appName timeout = some e2 →
      ((Running B2 timeout q t).result = (Running B ToAppBuilt r s).result
        ↔ e2.Message = e.Message)) := by
  obtain ⟨hres, hcalls, -⟩ := Running_wait_error B ToAppBuilt r s app workload e hc ho hl hw he
  refine ⟨hres, hcalls, ?_⟩
  intro τ B2 timeout q t other deployment e2 h1 h2 h3 h4 h5
  rw [hres, (Running_wait_error B2 timeout q t other deployment e2 h1 h2 h3 h4 h5).1]
  simp

/-- Witness of C15, amended: the wait on the stalled application `wiki` expires. -/
theorem Running_wait_failure_witness :
    (Running (registryBackend noFault 1) 600 runningWiki ledgerRegistry).result
      = some (.single (.InternalError "timed out waiting for the condition" [])) ∧
    (Running (registryBackend noFault 1) 600 runningWiki ledgerRegistry).calls
      = [.GetCluster, .OrganizationsExists "ns", .ApplicationLookup "ns" "wiki",
         .WaitForDeploymentCompleted "ns" "wiki" 600] :=
  have h := Running_wait_failure (registryBackend noFault 1) 600 runningWiki ledgerRegistry
    ⟨⟨"wiki", "ns"⟩, "admin", 1, [], [], some ⟨"stage7", none⟩⟩ ⟨"stage7", none⟩
    ⟨true, "timed out waiting for the condition"⟩ (by rfl) (by rfl) (by rfl) (by rfl) (by rfl)
  ⟨h.1, h.2.1⟩

/-- C16: Running is a read-only wait.  It returns the OK response only when the namespace
exists, the application exists and has a workload, and WaitForDeploymentCompleted, invoked
for that namespace and application with the timeout `duration.ToAppBuilt()`, returned
without error; and every run leaves the state as it was and invokes no operation changing the
registry, the bindings or the workload. -/
theorem Running_read_only {σ : Type} (B : Backend σ) (ToAppBuilt : Int) (r : RunningRequest)
    (s : σ) :
    ((Running B ToAppBuilt r s).result = none →
      B.OrganizationsExists s r.org = .ok true ∧
      (∃ app workload, B.ApplicationLookup s r.org r.appName = .ok (some app) ∧
        app.Workload = some workload) ∧
      B.WaitForDeploymentCompleted s r.org r.appName ToAppBuilt = none ∧
      (Running B ToAppBuilt r s).calls
        = [.GetCluster, .OrganizationsExists r.org, .ApplicationLookup r.org r.appName,
           .WaitForDeploymentCompleted r.org r.appName ToAppBuilt, .ResponseOK]) ∧
    (∀ c ∈ (Running B ToAppBuilt r s).calls, c.changesState = false) ∧
    (Running B ToAppBuilt r s).state = s := by
  cases hc : B.GetCluster s with
  | some err =>
    refine ⟨by simp [Running, hc], ?_, by simp [Running, hc]⟩
    intro c hm
    simp [Running, hc] at hm
    subst hm
    rfl
  | none =>
  cases ho : B.OrganizationsExists s r.org with
  | error err =>
    refine ⟨by simp [Running, hc, ho], ?_, by simp [Running, hc, ho]⟩
    intro c hm
    simp [Running, hc, ho] at hm
    rcases hm with rfl | rfl <;> rfl
  | ok b =>
  cases b with
  | false =>
    refine ⟨by simp [Running, hc, ho], ?_, by simp [Running, hc, ho]⟩
    intro c hm
    simp [Running, hc, ho] at hm
    rcases hm with rfl | rfl <;> rfl
  | true =>
  cases hl : B.ApplicationLookup s r.org r.appName with
  | error err =>
    refine ⟨by simp [Running, hc, ho, hl], ?_, by simp [Running, hc, ho, hl]⟩
    intro c hm
    simp [Running, hc, ho, hl] at hm
    rcases hm with rfl | rfl | rfl <;> rfl
  | ok found =>
  cases found with
  | none =>
    refine ⟨by simp [Running, hc, ho, hl], ?_, by simp [Running, hc, ho, hl]⟩
    intro c hm
    simp [Running, hc, ho, hl] at hm
    rcases hm with rfl | rfl | rfl <;> rfl
  | some app =>
  cases hw : app.Workload with
  | none =>
    refine ⟨by simp [Running, hc, ho, hl, hw], ?_, by simp [Running, hc, ho, hl, hw]⟩
    intro c hm
    simp [Running, hc, ho, hl, hw] at hm
    rcases hm with rfl | rfl | rfl <;> rfl
  | some workload =>
  cases he : B.WaitForDeploymentCompleted s r.org r.appName ToAppBuilt with
  | some e =>
    refine ⟨by simp [Running, hc, ho, hl, hw, he], ?_, by simp [Running, hc, ho, hl, hw, he]⟩
    intro c hm
    simp [Running, hc, ho, hl, hw, he] at hm
    rcases hm with rfl | rfl | rfl | rfl <;> rfl
  | none =>
    have hcalls : (Running B ToAppBuilt r s).calls
        = [.GetCluster, .OrganizationsExists r.org, .ApplicationLookup r.org r.appName,
           .WaitForDeploymentCompleted r.org r.appName ToAppBuilt, .ResponseOK] := by
      cases hj : B.ResponseJSON s <;> simp [Running, hc, ho, hl, hw, he, hj]
    refine ⟨fun _ => ⟨rfl, ⟨app, workload, rfl, hw⟩, rfl, hcalls⟩, ?_, ?_⟩
    · intro c hm
      rw [hcalls] at hm
      simp at hm
      rcases hm with rfl | rfl | rfl | rfl | rfl <;> rfl
    · cases hj : B.ResponseJSON s <;> simp [Running, hc, ho, hl, hw, he, hj]

/-- Witness of C16: Running on `blog`, whose workload gets ready, returns the OK response. -/
theorem Running_read_only_witness :
    (Running (registryBackend noFault 1) 600 runningBlog ledgerRegistry).result = none ∧
    (Running (registryBackend noFault 1) 600 runningBlog ledgerRegistry).calls
      = [.GetCluster, .OrganizationsExists "ns", .ApplicationLookup "ns" "blog",
         .WaitForDeploymentCompleted "ns" "blog" 600, .ResponseOK] ∧
    (Running (registryBackend noFault 1) 600 runningBlog ledgerRegistry).state
      = ledgerRegistry :=
  have h := Running_read_only (registryBackend noFault 1) 600 runningBlog ledgerRegistry
  ⟨by rfl, (h.1 (by rfl)).2.2.2, h.2.2⟩

/-- C17 as stated fails: the error Running returns for an application without workload does
not carry the application name; two applications get the same error, so no reading of it
gives the name back. -/
theorem Running_names_entity_counterexample :
    ¬ (∃ nameOf : Option APIErrors → String,
        ∀ (w : Registry) (r : RunningRequest) (app : App),
          (registryBackend noFault 1).GetCluster w = none →
          (registryBackend noFault 1).OrganizationsExists w r.org = .ok true →
          (registryBackend noFault 1).ApplicationLookup w r.org r.appName = .ok (some app) →
          app.Workload = none →
          nameOf (Running (registryBackend noFault 1) 600 r w).result = r.appName) := by
  rintro ⟨f, hf⟩
  have h1 := hf ledgerRegistry runningShop ⟨⟨"shop", "ns"⟩, "admin", 1, ["cache"], [], none⟩
    (by rfl) (by rfl) (by rfl) (by rfl)
  have h2 := hf ledgerRegistry runningIdle ⟨⟨"idle", "ns"⟩, "admin", 1, [], [], none⟩
    (by rfl) (by rfl) (by rfl) (by rfl)
  have e : (Running (registryBackend noFault 1) 600 runningIdle ledgerRegistry).result
      = (Running (registryBackend noFault 1) 600 runningShop ledgerRegistry).result := by rfl
  rw [e, h1] at h2
  exact absurd h2 (by decide)

/-- C17, amended: the unknown-namespace error of Running carries the namespace name and the
unknown-application error carries the application name; the error for an application without
workload is the fixed message `No status available for application without workload` with
empty details and status 400, whatever the application. -/
theorem Running_validation_errors {σ : Type} (B : Backend σ) (ToAppBuilt : Int)
    (r : RunningRequest) (s : σ) (hc : B.GetCluster s = none) :
    (B.OrganizationsExists s r.org = .ok false →
      (Running B ToAppBuilt r s).result = some (.single (.OrgIsNotKnown r.org))) ∧
    (B.OrganizationsExists s r.org = .ok true →
      B.ApplicationLookup s r.org r.appName = .ok none →
      (Running B ToAppBuilt r s).result = some (.single (.AppIsNotKnown r.appName))) ∧
    (∀ app, B.OrganizationsExists s r.org = .ok true →
      B.ApplicationLookup s r.org r.appName = .ok (some app) →
      app.Workload = none →
      (Running B ToAppBuilt r s).result
        = some (.single
            (.NewAPIError "No status available for application without workload" "" 400))) := by
  refine ⟨fun ho => ?_, fun ho hl => ?_, fun app ho hl hw => ?_⟩
  · simp [Running, hc, ho]
  · simp [Running, hc, ho, hl]
  · simp [Running, hc, ho, hl, hw]

/-- Witness of C17, amended: Running in the unknown namespace `nowhere`, on the unknown
application `ghost`, and on `shop`, which has no workload. -/
theorem Running_validation_errors_witness :
    (Running (registryBackend noFault 1) 600 ⟨"nowhere", "shop"⟩ ledgerRegistry).result
      = some (.single (.OrgIsNotKnown "nowhere")) ∧
    (Running (registryBackend noFault 1) 600 ⟨"ns", "ghost"⟩ ledgerRegistry).result
      = some (.single (.AppIsNotKnown "ghost")) ∧
    (Running (registryBackend noFault 1) 600 runningShop ledgerRegistry).result
      = some (.single
          (.NewAPIError "No status available for application without workload" "" 400)) :=
  ⟨(Running_validation_errors (registryBackend noFault 1) 600 ⟨"nowhere", "shop"⟩
      ledgerRegistry (by rfl)).1 (by rfl),
    (Running_validation_errors (registryBackend noFault 1) 600 ⟨"ns", "ghost"⟩
      ledgerRegistry (by rfl)).2.1 (by rfl) (by rfl),
    (Running_validation_errors (registryBackend noFault 1) 600 runningShop
      ledgerRegistry (by rfl)).2.2 ⟨⟨"shop", "ns"⟩, "admin", 1, ["cache"], [], none⟩
      (by rfl) (by rfl) (by rfl)⟩

/-! ## Service Bind -/

/-- Every run of `Bind` invokes no deploy, and either stops before `BoundServicesSet`, making
no registry write, or has decoded a request, found the application, validated the service,
labelled its secrets and created the configuration bindings without error before the one
`BoundServicesSet` call. -/
theorem Bind_cases {σ : Type} (B : Backend σ) (r : BindRequest) (s : σ) :
    (∀ c ∈ (Bind B r s).calls, c.isDeploy = false) ∧
    (((∀ c ∈ (Bind B r s).calls, c.isRegistryWrite = false) ∧ (Bind B r s).result ≠ none) ∨
     ∃ bindRequest app configurationSecrets s1 s2,
      r.body = .ok bindRequest ∧
      B.GetCluster s = none ∧
      B.ApplicationLookup s r.namespaceName bindRequest.AppName = .ok (some app) ∧
      B.ValidateService s r.namespaceName r.serviceName = none ∧
      B.LabelServiceSecrets s r.namespaceName r.serviceName = (.ok configurationSecrets, s1) ∧
      B.CreateConfigurationBinding s1 r.namespaceName app
        (configurationSecrets.map Secret.Name) = (none, s2) ∧
      (∃ post, (Bind B r s).calls
        = [.GetCluster, .ApplicationLookup r.namespaceName bindRequest.AppName,
           .ValidateService r.namespaceName r.serviceName,
           .LabelServiceSecrets r.namespaceName r.serviceName,
           .CreateConfigurationBinding r.namespaceName app
             (configurationSecrets.map Secret.Name),
           .BoundServicesSet app.Meta [r.serviceName] false] ++ post ∧
        ∀ c ∈ post, c = Call.ResponseOK) ∧
      (Bind B r s).state = (B.BoundServicesSet s2 app.Meta [r.serviceName] false).2 ∧
      ((Bind B r s).result = none ↔
        (B.BoundServicesSet s2 app.Meta [r.serviceName] false).1 = none)) := by
  cases hb : r.body with
  | error err =>
    refine ⟨?_, Or.inl ⟨?_, ?_⟩⟩ <;> simp [Bind, hb]
  | ok bindRequest =>
  cases hc : B.GetCluster s with
  | some err =>
    refine ⟨?_, Or.inl ⟨?_, by simp [Bind, hb, hc]⟩⟩ <;>
    · intro c hm
      simp [Bind, hb, hc] at hm
      subst hm
      rfl
  | none =>
  cases hl : B.ApplicationLookup s r.namespaceName bindRequest.AppName with
  | error err =>
    refine ⟨?_, Or.inl ⟨?_, by simp [Bind, hb, hc, hl]⟩⟩ <;>
    · intro c hm
      simp [Bind, hb, hc, hl] at hm
      rcases hm with rfl | rfl <;> rfl
  | ok found =>
  cases found with
  | none =>
    refine ⟨?_, Or.inl ⟨?_, by simp [Bind, hb, hc, hl]⟩⟩ <;>
    · intro c hm
      simp [Bind, hb, hc, hl] at hm
      rcases hm with rfl | rfl <;> rfl
  | some app =>
  cases hv : B.ValidateService s r.namespaceName r.serviceName with
  | some apiErr =>
    refine ⟨?_, Or.inl ⟨?_, by simp [Bind, hb, hc, hl, hv]⟩⟩ <;>
    · intro c hm
      simp [Bind, hb, hc, hl, hv] at hm
      rcases hm with rfl | rfl | rfl <;> rfl
  | none =>
  rcases hs : B.LabelServiceSecrets s r.namespaceName r.serviceName with ⟨labelled, s1⟩
  cases labelled with
  | error err =>
    refine ⟨?_, Or.inl ⟨?_, by simp [Bind, hb, hc, hl, hv, hs]⟩⟩ <;>
    · intro c hm
      simp [Bind, hb, hc, hl, hv, hs] at hm
      rcases hm with rfl | rfl | rfl | rfl <;> rfl
  | ok configurationSecrets =>
  rcases hx : B.CreateConfigurationBinding s1 r.namespaceName app
    (configurationSecrets.map Secret.Name) with ⟨errors, s2⟩
  cases errors with
  | some errs =>
    refine ⟨?_, Or.inl ⟨?_, by simp [Bind, hb, hc, hl, hv, hs, hx]⟩⟩ <;>
    · intro c hm
      simp [Bind, hb, hc, hl, hv, hs, hx] at hm
      rcases hm with rfl | rfl | rfl | rfl | rfl <;> rfl
  | none =>
  rcases hy : B.BoundServicesSet s2 app.Meta [r.serviceName] false with ⟨e, s3⟩
  cases e with
  | some err =>
    refine ⟨?_, Or.inr ⟨bindRequest, app, configurationSecrets, s1, s2, rfl, rfl, hl, rfl,
      rfl, hx, ⟨[], ?_, ?_⟩, ?_, ?_⟩⟩
    · intro c hm
      simp [Bind, hb, hc, hl, hv, hs, hx, hy] at hm
      rcases hm with rfl | rfl | rfl | rfl | rfl | rfl <;> rfl
    · simp [Bind, hb, hc, hl, hv, hs, hx, hy]
    · simp
    · simp [Bind, hb, hc, hl, hv, hs, hx, hy]
    · simp [Bind, hb, hc, hl, hv, hs, hx, hy]
  | none =>
    refine ⟨?_, Or.inr ⟨bindRequest, app, configurationSecrets, s1, s2, rfl, rfl, hl, rfl,
      rfl, hx, ⟨[.ResponseOK], ?_, ?_⟩, ?_, ?_⟩⟩
    · intro c hm
      simp [Bind, hb, hc, hl, hv, hs, hx, hy] at hm
      rcases hm with rfl | rfl | rfl | rfl | rfl | rfl | rfl <;> rfl
    · simp [Bind, hb, hc, hl, hv, hs, hx, hy]
    · simp
    · simp [Bind, hb, hc, hl, hv, hs, hx, hy]
    · simp [Bind, hb, hc, hl, hv, hs, hx, hy]

/-- C18: in every run of Bind that invokes BoundServicesSet, CreateConfigurationBinding was
invoked just before it, with the names of the configurations returned by LabelServiceSecrets
(same names, same order, same count), and reported no errors; and when
CreateConfigurationBinding reports errors, Bind returns the MultiError of exactly those
errors and makes no registry write, BoundServicesSet included. -/
theorem Bind_after_configuration_bindings {σ : Type} (B : Backend σ) (r : BindRequest) (s : σ) :
    (∀ ref names replaceAll,
      Call.BoundServicesSet ref names replaceAll ∈ (Bind B r s).calls →
      ∃ bindRequest app configurationSecrets s1 s2,
        r.body = .ok bindRequest ∧
        B.ApplicationLookup s r.namespaceName bindRequest.AppName = .ok (some app) ∧
        B.LabelServiceSecrets s r.namespaceName r.serviceName = (.ok configurationSecrets, s1) ∧
        B.CreateConfigurationBinding s1 r.namespaceName app
          (configurationSecrets.map Secret.Name) = (none, s2) ∧
        (configurationSecrets.map Secret.Name).length = configurationSecrets.length ∧
        ∃ post, (Bind B r s).calls
          = [.GetCluster, .ApplicationLookup r.namespaceName bindRequest.AppName,
             .ValidateService r.namespaceName r.serviceName,
             .LabelServiceSecrets r.namespaceName r.serviceName,
             .CreateConfigurationBinding r.namespaceName app
               (configurationSecrets.map Secret.Name),
             .BoundServicesSet app.Meta [r.serviceName] false] ++ post) ∧
    (∀ bindRequest app configurationSecrets s1 s2 errors,
      r.body = .ok bindRequest →
      B.GetCluster s = none →
      B.ApplicationLookup s r.namespaceName bindRequest.AppName = .ok (some app) →
      B.ValidateService s r.namespaceName r.serviceName = none →
      B.LabelServiceSecrets s r.namespaceName r.serviceName = (.ok configurationSecrets, s1) →
      B.CreateConfigurationBinding s1 r.namespaceName app
        (configurationSecrets.map Secret.Name) = (some errors, s2) →
      (Bind B r s).result = some (.NewMultiError errors.Errors) ∧
      (∀ c ∈ (Bind B r s).calls, c.isRegistryWrite = false) ∧
      (Bind B r s).state = s2) := by
  constructor
  · intro ref names replaceAll hm
    rcases (Bind_cases B r s).2 with ⟨h, -⟩ | ⟨req, app, secrets, s1, s2, hb, -, hl, -, hs, hx,
      ⟨post, hcalls, -⟩, -, -⟩
    · have := h _ hm
      simp [Call.isRegistryWrite] at this
    · exact ⟨req, app, secrets, s1, s2, hb, hl, hs, hx, by simp, post, hcalls⟩
  · intro req app secrets s1 s2 errors hb hc hl hv hs hx
    refine ⟨by simp [Bind, hb, hc, hl, hv, hs, hx], ?_, by simp [Bind, hb, hc, hl, hv, hs, hx]⟩
    intro c hm
    simp [Bind, hb, hc, hl, hv, hs, hx] at hm
    rcases hm with rfl | rfl | rfl | rfl | rfl <;> rfl

/-- Witness of C18: binding `db` to `shop` binds the two configurations of the service before
the service name is recorded; with the ledger unavailable the error is returned instead. -/
theorem Bind_after_configuration_bindings_witness :
    (Bind (registryBackend noFault 1) bindShop ledgerRegistry).calls
      = [.GetCluster, .ApplicationLookup "ns" "shop", .ValidateService "ns" "db",
         .LabelServiceSecrets "ns" "db",
         .CreateConfigurationBinding "ns" ⟨⟨"shop", "ns"⟩, "admin", 1, ["cache"], [], none⟩
           ["db-conn", "db-auth"],
         .BoundServicesSet ⟨"shop", "ns"⟩ ["db"] false, .ResponseOK] ∧
    (∃ bindRequest app configurationSecrets s1 s2,
        bindShop.body = .ok bindRequest ∧
        (registryBackend noFault 1).ApplicationLookup ledgerRegistry bindShop.namespaceName
          bindRequest.AppName = .ok (some app) ∧
        (registryBackend noFault 1).LabelServiceSecrets ledgerRegistry bindShop.namespaceName
          bindShop.serviceName = (.ok configurationSecrets, s1) ∧
        (registryBackend noFault 1).CreateConfigurationBinding s1 bindShop.namespaceName app
          (configurationSecrets.map Secret.Name) = (none, s2) ∧
        (configurationSecrets.map Secret.Name).length = configurationSecrets.length ∧
        ∃ post, (Bind (registryBackend noFault 1) bindShop ledgerRegistry).calls
          = [.GetCluster, .ApplicationLookup bindShop.namespaceName bindRequest.AppName,
             .ValidateService bindShop.namespaceName bindShop.serviceName,
             .LabelServiceSecrets bindShop.namespaceName bindShop.serviceName,
             .CreateConfigurationBinding bindShop.namespaceName app
               (configurationSecrets.map Secret.Name),
             .BoundServicesSet app.Meta [bindShop.serviceName] false] ++ post) ∧
    (Bind (registryBackend faultBinding 1) bindShop ledgerRegistry).result
      = some (.NewMultiError [.InternalError "store unavailable" []]) :=
  ⟨by rfl,
    (Bind_after_configuration_bindings (registryBackend noFault 1) bindShop ledgerRegistry).1
      ⟨"shop", "ns"⟩ ["db"] false (by decide),
    ((Bind_after_configuration_bindings (registryBackend faultBinding 1) bindShop
      ledgerRegistry).2 ⟨"shop"⟩ ⟨⟨"shop", "ns"⟩, "admin", 1, ["cache"], [], none⟩
      [⟨"db-conn"⟩, ⟨"db-auth"⟩] _ _ (.single (.InternalError "store unavailable" []))
      (by rfl) (by rfl) (by rfl) (by rfl) (by rfl) (by rfl)).1⟩

/-- No call of a run of `Bind` is a deploy or an operation on a workload. -/
theorem Bind_calls_no_workload {σ : Type} (B : Backend σ) (r : BindRequest) (s : σ) :
    ∀ c ∈ (Bind B r s).calls, c.isDeploy = false ∧ c.isWorkloadChange = false := by
  cases hb : r.body with
  | error err => simp [Bind, hb]
  | ok bindRequest =>
  cases hc : B.GetCluster s with
  | some err =>
    intro c hm
    simp [Bind, hb, hc] at hm
    subst hm
    exact ⟨rfl, rfl⟩
  | none =>
  cases hl : B.ApplicationLookup s r.namespaceName bindRequest.AppName with
  | error err =>
    intro c hm
    simp [Bind, hb, hc, hl] at hm
    rcases hm with rfl | rfl <;> exact ⟨rfl, rfl⟩
  | ok found =>
  cases found with
  | none =>
    intro c hm
    simp [Bind, hb, hc, hl] at hm
    rcases hm with rfl | rfl <;> exact ⟨rfl, rfl⟩
  | some app =>
  cases hv : B.ValidateService s r.namespaceName r.serviceName with
  | some apiErr =>
    intro c hm
    simp [Bind, hb, hc, hl, hv] at hm
    rcases hm with rfl | rfl | rfl <;> exact ⟨rfl, rfl⟩
  | none =>
  rcases hs : B.LabelServiceSecrets s r.namespaceName r.serviceName with ⟨labelled, s1⟩
  cases labelled with
  | error err =>
    intro c hm
    simp [Bind, hb, hc, hl, hv, hs] at hm
    rcases hm with rfl | rfl | rfl | rfl <;> exact ⟨rfl, rfl⟩
  | ok configurationSecrets =>
  rcases hx : B.CreateConfigurationBinding s1 r.namespaceName app
    (configurationSecrets.map Secret.Name) with ⟨errors, s2⟩
  cases errors with
  | some errs =>
    intro c hm
    simp [Bind, hb, hc, hl, hv, hs, hx] at hm
    rcases hm with rfl | rfl | rfl | rfl | rfl <;> exact ⟨rfl, rfl⟩
  | none =>
  rcases hy : B.BoundServicesSet s2 app.Meta [r.serviceName] false with ⟨e, s3⟩
  cases e with
  | some err =>
    intro c hm
    simp [Bind, hb, hc, hl, hv, hs, hx, hy] at hm
    rcases hm with rfl | rfl | rfl | rfl | rfl | rfl <;> exact ⟨rfl, rfl⟩
  | none =>
    intro c hm
    simp [Bind, hb, hc, hl, hv, hs, hx, hy] at hm
    rcases hm with rfl | rfl | rfl | rfl | rfl | rfl | rfl <;> exact ⟨rfl, rfl⟩

/-- A run of `Bind` changes the state through LabelServiceSecrets, CreateConfigurationBinding
and BoundServicesSet only: a property of the state that these three keep, whether they fail
or not, holds after every run of `Bind`. -/
theorem Bind_frame {σ : Type} (B : Backend σ) (r : BindRequest) (s : σ) (P : σ → Prop)
    (hL : ∀ t org service, P t → P (B.LabelServiceSecrets t org service).2)
    (hC : ∀ t org app names, P t → P (B.CreateConfigurationBinding t org app names).2)
    (hS : ∀ t ref names replaceAll, P t → P (B.BoundServicesSet t ref names replaceAll).2)
    (h : P s) : P (Bind B r s).state := by
  cases hb : r.body with
  | error err => simpa [Bind, hb] using h
  | ok bindRequest =>
  cases hc : B.GetCluster s with
  | some err => simpa [Bind, hb, hc] using h
  | none =>
  cases hl : B.ApplicationLookup s r.namespaceName bindRequest.AppName with
  | error err => simpa [Bind, hb, hc, hl] using h
  | ok found =>
  cases found with
  | none => simpa [Bind, hb, hc, hl] using h
  | some app =>
  cases hv : B.ValidateService s r.namespaceName r.serviceName with
  | some apiErr => simpa [Bind, hb, hc, hl, hv] using h
  | none =>
  have h1 := hL s r.namespaceName r.serviceName h
  rcases hs : B.LabelServiceSecrets s r.namespaceName r.serviceName with ⟨labelled, s1⟩
  rw [hs] at h1
  cases labelled with
  | error err => simpa [Bind, hb, hc, hl, hv, hs] using h1
  | ok configurationSecrets =>
  have h2 := hC s1 r.namespaceName app (configurationSecrets.map Secret.Name) h1
  rcases hx : B.CreateConfigurationBinding s1 r.namespaceName app
    (configurationSecrets.map Secret.Name) with ⟨errors, s2⟩
  rw [hx] at h2
  cases errors with
  | some errs => simpa [Bind, hb, hc, hl, hv, hs, hx] using h2
  | none =>
  have h3 := hS s2 app.Meta [r.serviceName] false h2
  rcases hy : B.BoundServicesSet s2 app.Meta [r.serviceName] false with ⟨e, s3⟩
  rw [hy] at h3
  cases e <;> simpa [Bind, hb, hc, hl, hv, hs, hx, hy] using h3

/-- A setter of the registry that changes the bound-service names of a record only leaves
the rest of the registry as it is. -/
theorem Registry.set_withoutBindings (w : Registry) (ref : AppRef) (f : App → App)
    (hf : ∀ a, (f a).withoutServices = a.withoutServices) :
    (w.set ref f).2.withoutBindings = w.withoutBindings := by
  unfold Registry.set
  split
  · have hmap : (w.apps.map (fun a => if a.Meta = ref then f a else a)).map App.withoutServices
        = w.apps.map App.withoutServices := by
      rw [List.map_map]
      apply List.map_congr_left
      intro a _
      by_cases ha : a.Meta = ref
      · simp [ha, hf]
      · simp [ha]
    simp only [Registry.withoutBindings, Registry.update, hmap]
  · rfl

/-- On the registry the three writes of `Bind`, failing or not, change bound-service names,
configurations and bindings only. -/
theorem registryBackend_bind_writes_keep (fault : Call → Option String)
    (DefaultInstances : Int) (t : Registry) :
    (∀ org service, ((registryBackend fault DefaultInstances).LabelServiceSecrets t org
      service).2.withoutBindings = t.withoutBindings) ∧
    (∀ org app names, ((registryBackend fault DefaultInstances).CreateConfigurationBinding t
      org app names).2.withoutBindings = t.withoutBindings) ∧
    (∀ ref names replaceAll, ((registryBackend fault DefaultInstances).BoundServicesSet t ref
      names replaceAll).2.withoutBindings = t.withoutBindings) := by
  refine ⟨?_, ?_, ?_⟩
  · intro org service
    simp only [registryBackend]
    split <;> rfl
  · intro org app names
    simp only [registryBackend]
    split
    · rfl
    · split <;> rfl
  · intro ref names replaceAll
    simp only [registryBackend]
    split
    · rfl
    · exact Registry.set_withoutBindings t ref _ (fun _ => rfl)

/-- Registries that agree beside the bindings hold the same workloads. -/
theorem Registry.workloads_of_withoutBindings (t w : Registry)
    (h : t.withoutBindings = w.withoutBindings) :
    t.workloads = w.workloads ∧
    ∀ org name, (t.Lookup org name).map App.Workload = (w.Lookup org name).map App.Workload := by
  have happs : t.apps.map App.withoutServices = w.apps.map App.withoutServices :=
    congrArg Registry.apps h
  constructor
  · have h1 := congrArg (List.map (fun a : App => (a.Meta, a.Workload))) happs
    simpa [List.map_map, Function.comp_def, App.withoutServices, Registry.workloads] using h1
  · intro org name
    have hfind : ∀ l : List App,
        (l.find? (fun a => a.Meta = NewAppRef name org)).map App.Workload
          = ((l.map App.withoutServices).find? (fun a => a.Meta = NewAppRef name org)).map
              App.Workload := by
      intro l
      induction l with
      | nil => rfl
      | cons a rest ih =>
        by_cases ha : a.Meta = NewAppRef name org
        · simp [List.find?_cons, ha, App.withoutServices]
        · simpa [List.find?_cons, ha, App.withoutServices] using ih
    simp only [Registry.Lookup]
    rw [hfind t.apps, hfind w.apps, happs]

/-- C20: service Bind is metadata-only.  For every backend, no call of a run of Bind, whatever
the application and its workload, is an invocation of the deployment reconciler
`deploy.DeployApp` or an operation on a workload.  On the registry, after every run of Bind,
whichever call fails, nothing has changed beside bound-service names, configurations and
bindings: every application has the workload it had before, a running application with the
stage and start value it had, an application without workload still without one. -/
theorem Bind_metadata_only {σ : Type} (B : Backend σ) (r : BindRequest) (s : σ)
    (fault : Call → Option String) (DefaultInstances : Int) (w : Registry) :
    (∀ c ∈ (Bind B r s).calls, c.isDeploy = false ∧ c.isWorkloadChange = false) ∧
    (Bind (registryBackend fault DefaultInstances) r w).state.withoutBindings
      = w.withoutBindings ∧
    (Bind (registryBackend fault DefaultInstances) r w).state.workloads = w.workloads ∧
    (∀ org name,
      ((Bind (registryBackend fault DefaultInstances) r w).state.Lookup org name).map
          App.Workload
        = (w.Lookup org name).map App.Workload) := by
  have hkeep : (Bind (registryBackend fault DefaultInstances) r w).state.withoutBindings
      = w.withoutBindings :=
    Bind_frame (registryBackend fault DefaultInstances) r w
      (fun t => t.withoutBindings = w.withoutBindings)
      (fun t org service ht =>
        ((registryBackend_bind_writes_keep fault DefaultInstances t).1 org service).trans ht)
      (fun t org app names ht =>
        ((registryBackend_bind_writes_keep fault DefaultInstances t).2.1 org app names).trans
          ht)
      (fun t ref names replaceAll ht =>
        ((registryBackend_bind_writes_keep fault DefaultInstances t).2.2 ref names
          replaceAll).trans ht)
      rfl
  exact ⟨Bind_calls_no_workload B r s, hkeep,
    (Registry.workloads_of_withoutBindings _ w hkeep).1,
    (Registry.workloads_of_withoutBindings _ w hkeep).2⟩

/-- Witness of C20: binding `db` to the deployed application `blog` records the service name
in a call that is neither a deploy nor an operation on a workload; the run makes no deploy,
`blog` is bound to `db` afterwards, and `blog` and `wiki` run the workloads they ran before
while `shop` and `idle` still have none; binding `db` to `shop` leaves `shop` without
workload, and a run whose BoundServicesSet fails leaves the workloads alone as well. -/
theorem Bind_metadata_only_witness :
    Call.BoundServicesSet ⟨"blog", "ns"⟩ ["db"] false
      ∈ (Bind (registryBackend noFault 1) bindBlog ledgerRegistry).calls ∧
    ((Call.BoundServicesSet ⟨"blog", "ns"⟩ ["db"] false).isDeploy = false ∧
      (Call.BoundServicesSet ⟨"blog", "ns"⟩ ["db"] false).isWorkloadChange = false) ∧
    (Bind (registryBackend noFault 1) bindBlog ledgerRegistry).result = none ∧
    (Bind (registryBackend noFault 1) bindBlog ledgerRegistry).state.Lookup "ns" "blog"
      = some ⟨⟨"blog", "ns"⟩, "admin", 2, ["db"], [], some ⟨"stage1", none⟩⟩ ∧
    (Bind (registryBackend noFault 1) bindBlog ledgerRegistry).state.workloads
      = [(⟨"shop", "ns"⟩, none), (⟨"blog", "ns"⟩, some ⟨"stage1", none⟩),
         (⟨"idle", "ns"⟩, none), (⟨"wiki", "ns"⟩, some ⟨"stage7", none⟩)] ∧
    ((Bind (registryBackend noFault 1) bindBlog ledgerRegistry).state.Lookup "ns" "blog").map
        App.Workload
      = some (some ⟨"stage1", none⟩) ∧
    ((Bind (registryBackend noFault 1) bindShop ledgerRegistry).state.Lookup "ns" "shop").map
        App.Workload
      = some none ∧
    (Bind (registryBackend faultRecord 1) bindBlog ledgerRegistry).state.workloads
      = [(⟨"shop", "ns"⟩, none), (⟨"blog", "ns"⟩, some ⟨"stage1", none⟩),
         (⟨"idle", "ns"⟩, none), (⟨"wiki", "ns"⟩, some ⟨"stage7", none⟩)] :=
  have h := Bind_metadata_only (registryBackend noFault 1) bindBlog ledgerRegistry noFault 1
    ledgerRegistry
  ⟨by decide, h.1 _ (by decide), by rfl, by rfl, h.2.2.1.trans (by rfl),
    (h.2.2.2 "ns" "blog").trans (by rfl),
    ((Bind_metadata_only (registryBackend noFault 1) bindShop ledgerRegistry noFault 1
      ledgerRegistry).2.2.2 "ns" "shop").trans (by rfl),
    (Bind_metadata_only (registryBackend faultRecord 1) bindBlog ledgerRegistry faultRecord 1
      ledgerRegistry).2.2.1.trans (by rfl)⟩

/-- The record found by `Lookup` depends on the application records only. -/
theorem Registry.Lookup_of_apps (t w : Registry) (org name : String) (h : t.apps = w.apps) :
    t.Lookup org name = w.Lookup org name := by
  simp [Registry.Lookup, h]

/-- A merge of bound services keeps every name recorded before and records the new ones. -/
theorem mergeServices_mem (old names : List String) (n : String) :
    n ∈ mergeServices old names ↔ n ∈ old ∨ n ∈ names := by
  simp only [mergeServices, List.mem_append, List.mem_filter]
  constructor
  · rintro (h | ⟨h, -⟩)
    · exact Or.inl h
    · exact Or.inr h
  · rintro (h | h)
    · exact Or.inl h
    · by_cases ho : n ∈ old
      · exact Or.inl ho
      · exact Or.inr ⟨h, by simpa using ho⟩

/-- C19: binding a service merges.  On the registry, every BoundServicesSet call of Bind
carries the application found, exactly the one service name and replaceAll = false; and after
a successful Bind the application found afterwards still records every service name it
recorded before, and records the bound service. -/
theorem Bind_merges (fault : Call → Option String) (DefaultInstances : Int) (r : BindRequest)
    (w : Registry) (bindRequest : ServiceBindRequest) (app : App)
    (hb : r.body = .ok bindRequest)
    (hf : fault (.ApplicationLookup r.namespaceName bindRequest.AppName) = none)
    (ha : w.Lookup r.namespaceName bindRequest.AppName = some app) :
    (∀ ref names replaceAll,
      Call.BoundServicesSet ref names replaceAll
        ∈ (Bind (registryBackend fault DefaultInstances) r w).calls →
      ref = app.Meta ∧ names = [r.serviceName] ∧ replaceAll = false) ∧
    ((Bind (registryBackend fault DefaultInstances) r w).result = none →
      ∃ after, (Bind (registryBackend fault DefaultInstances) r w).state.Lookup
          r.namespaceName bindRequest.AppName = some after ∧
        (∀ n ∈ app.Services, n ∈ after.Services) ∧
        r.serviceName ∈ after.Services) := by
  have hl : (registryBackend fault DefaultInstances).ApplicationLookup w r.namespaceName
      bindRequest.AppName = .ok (some app) := by
    simp [registryBackend, hf, ha]
  constructor
  · intro ref names replaceAll hm
    rcases (Bind_cases (registryBackend fault DefaultInstances) r w).2 with
      ⟨h, -⟩ | ⟨req, found, secrets, s1, s2, hb2, -, hl2, -, -, -, ⟨post, hcalls, hpost⟩, -, -⟩
    · have := h _ hm
      simp [Call.isRegistryWrite] at this
    · rw [hb] at hb2
      cases hb2
      rw [hl] at hl2
      cases hl2
      rw [hcalls] at hm
      simp at hm
      rcases hm with h | h
      · exact h
      · have := hpost _ h
        cases this
  · intro hres
    rcases (Bind_cases (registryBackend fault DefaultInstances) r w).2 with
      ⟨-, h⟩ | ⟨req, found, secrets, s1, s2, hb2, -, hl2, -, hs, hx, -, hstate, hiff⟩
    · exact absurd hres h
    · rw [hb] at hb2
      cases hb2
      rw [hl] at hl2
      cases hl2
      have e1 : s1.apps = w.apps := by
        simp only [registryBackend] at hs
        split at hs
        · simp at hs
        · have := (Prod.mk.inj hs).2
          rw [← this]
          rfl
      have e2 : s2.apps = s1.apps := by
        simp only [registryBackend] at hx
        split at hx
        · simp at hx
        · split at hx
          · have := (Prod.mk.inj hx).2
            rw [← this]
            rfl
          · simp at hx
      have hlook : s2.Lookup r.namespaceName bindRequest.AppName = some app := by
        rw [Registry.Lookup_of_apps s2 w _ _ (e2.trans e1), ha]
      obtain ⟨hmeta, hset, hupd⟩ := Registry.set_found s2 r.namespaceName bindRequest.AppName
        app (fun a => { a with Services := mergeServices a.Services [r.serviceName] })
        (fun _ => rfl) hlook
      have hnone := hiff.mp hres
      have hbss : (registryBackend fault DefaultInstances).BoundServicesSet s2 app.Meta
          [r.serviceName] false
          = (none, s2.update (NewAppRef bindRequest.AppName r.namespaceName)
              (fun a => { a with Services := mergeServices a.Services [r.serviceName] })) := by
        cases hfault : fault (.BoundServicesSet app.Meta [r.serviceName] false) with
        | some err => simp [registryBackend, hfault] at hnone
        | none =>
          simp only [registryBackend, hfault]
          rw [hmeta]
          simpa using hset
      rw [hstate, hbss]
      refine ⟨_, hupd, ?_, ?_⟩
      · intro n hn
        exact (mergeServices_mem _ _ _).mpr (Or.inl hn)
      · exact (mergeServices_mem _ _ _).mpr (Or.inr (by simp))

/-- Witness of C19: after binding `db`, `shop` still records `cache` and records `db`. -/
theorem Bind_merges_witness :
    (Bind (registryBackend noFault 1) bindShop ledgerRegistry).result = none ∧
    ∃ after, (Bind (registryBackend noFault 1) bindShop ledgerRegistry).state.Lookup
        "ns" "shop" = some after ∧
      (∀ n ∈ ["cache"], n ∈ after.Services) ∧ "db" ∈ after.Services :=
  ⟨by rfl, (Bind_merges noFault 1 bindShop ledgerRegistry ⟨"shop"⟩
    ⟨⟨"shop", "ns"⟩, "admin", 1, ["cache"], [], none⟩ (by rfl) (by rfl) (by rfl)).2 (by rfl)⟩

/-! ## The restart loop of Replace on the registry -/

/-- The deploy calls among the calls of a successful restart loop: one per running
application, stamped with successive clock readings. -/
theorem restartCalls_deploys (running : String → Bool) (org username : String)
    (names : List String) (clock : Int) :
    (restartCalls running org username names clock).filter Call.isDeploy
      = stampedDeploys org username (names.filter running) clock := by
  induction names generalizing clock with
  | nil => rfl
  | cons n rest ih =>
    cases hr : running n with
    | true =>
      simp [restartCalls, hr, List.filter_cons, Call.isDeploy, stampedDeploys, ih]
    | false =>
      simp [restartCalls, hr, List.filter_cons, Call.isDeploy, ih]

/-- A single-record update does not change what `Lookup` finds under another reference. -/
theorem Registry.Lookup_update_ne (w : Registry) (ref : AppRef) (org name : String)
    (f : App → App) (hf : ∀ a, (f a).Meta = a.Meta) (hne : NewAppRef name org ≠ ref) :
    (w.update ref f).Lookup org name = w.Lookup org name := by
  obtain ⟨nss, svcs, apps, cfgs, secs, bnds, clk, stl⟩ := w
  simp only [Registry.update, Registry.Lookup]
  induction apps with
  | nil => simp
  | cons a rest ih =>
    by_cases ha : a.Meta = ref
    · have hr : ¬ ref = NewAppRef name org := fun h => hne h.symm
      simp [List.find?_cons, ha, hf, hr, ih]
    · simp [List.find?_cons, ha, ih]

/-- On the registry without faults, a restart loop over names that all resolve to an
application runs to the OK response, and its calls are, per name, the lookup and, for a running
application, the clock reading and the deploy stamped with it. -/
theorem restartApps_registry (fault : Call → Option String) (DefaultInstances : Int)
    (org username : String) (hfault : ∀ c, fault c = none) :
    ∀ (names : List String) (t : Registry), (∀ n ∈ names, (t.Lookup org n).isSome) →
      (restartApps (registryBackend fault DefaultInstances) org username names t).ending
        = .returned none ∧
      (restartApps (registryBackend fault DefaultInstances) org username names t).calls
        = restartCalls (t.hasWorkload org) org username names t.clock ++ [.ResponseOK] := by
  intro names
  induction names with
  | nil =>
    intro t _
    simp [restartApps, restartCalls]
  | cons n rest ih =>
    intro t hres
    cases hlk : t.Lookup org n with
    | none =>
      have := hres n (List.mem_cons_self _ _)
      simp [hlk] at this
    | some app =>
    have hB : (registryBackend fault DefaultInstances).ApplicationLookup t org n
        = .ok (some app) := by
      simp [registryBackend, hfault, hlk]
    cases hw : app.Workload with
    | none =>
      have hrun : t.hasWorkload org n = false := by
        simp [Registry.hasWorkload, hlk, hw]
      obtain ⟨h1, h2⟩ := ih t (fun m hm => hres m (List.mem_cons_of_mem _ hm))
      constructor
      · simp only [restartApps, hB, hw]
        simpa using h1
      · simp only [restartApps, hB, hw, restartCalls, hrun]
        simpa using h2
    | some workload =>
      have hrun : t.hasWorkload org n = true := by
        simp [Registry.hasWorkload, hlk, hw]
      have hlk1 : t.tick.Lookup org n = some app := by
        exact (Registry.Lookup_of_apps t.tick t org n rfl).trans hlk
      obtain ⟨hmeta, hset, hupd⟩ := Registry.set_found _ org n app
        (fun a => { a with Workload := some ⟨"", some t.clock⟩ }) (fun _ => rfl) hlk1
      have hD : (registryBackend fault DefaultInstances).DeployApp
          ((registryBackend fault DefaultInstances).Now t).2 app.Meta username "" none
          (some ((registryBackend fault DefaultInstances).Now t).1)
          = (none, t.tick.update (NewAppRef n org)
              (fun a => { a with Workload := some ⟨"", some t.clock⟩ })) := by
        simp only [registryBackend, hfault]
        rw [hmeta, hset]
      have hother : ∀ m, m ≠ n →
          (t.tick.update (NewAppRef n org)
            (fun a => { a with Workload := some ⟨"", some t.clock⟩ })).Lookup org m
          = t.Lookup org m := by
        intro m hm
        exact (Registry.Lookup_update_ne t.tick (NewAppRef n org) org m
          (fun a => { a with Workload := some ⟨"", some t.clock⟩ }) (fun _ => rfl)
          (by simpa [NewAppRef] using hm)).trans (Registry.Lookup_of_apps t.tick t org m rfl)
      have hfun : (t.tick.update (NewAppRef n org)
          (fun a => { a with Workload := some ⟨"", some t.clock⟩ })).hasWorkload org
          = t.hasWorkload org := by
        funext m
        by_cases hm : m = n
        · subst hm
          simp [Registry.hasWorkload, hupd, hlk, hw]
        · simp [Registry.hasWorkload, hother m hm]
      obtain ⟨h1, h2⟩ := ih
        (t.tick.update (NewAppRef n org)
          (fun a => { a with Workload := some ⟨"", some t.clock⟩ }))
        (by
          intro m hm
          by_cases hmn : m = n
          · subst hmn
            simp [hupd]
          · rw [hother m hmn]
            exact hres m (List.mem_cons_of_mem _ hm))
      rw [hfun] at h2
      constructor
      · simp only [restartApps, hB, hw, hD]
        simpa using h1
      · simp only [restartApps, hB, hw, hD, restartCalls, hrun]
        rw [hmeta]
        simpa [registryBackend, Registry.update] using h2

/-- The restarts of Replace when every bound name resolves to an application: a Replace that
changes the content of the configuration, on the registry with no call failing, returns the
OK response after, per bound application name in order, its lookup and, exactly when the
application has a workload, one clock reading followed by one deploy stamped with that
reading: the deploys are one per bound application with a workload, with successive clock
readings as start values, and none for a bound application without workload. -/
theorem Replace_restarts_running (fault : Call → Option String) (DefaultInstances : Int)
    (r : ReplaceRequest) (w : Registry) (configuration : Configuration)
    (replaceRequest : ConfigurationReplaceRequest)
    (hfault : ∀ c, fault c = none)
    (hq : r.body = .ok replaceRequest)
    (hcfg : w.configuration r.namespaceName r.configurationName = some configuration)
    (hchg : configuration.Values ≠ replaceRequest)
    (hres : ∀ n ∈ w.boundApps r.namespaceName r.configurationName,
      (w.Lookup r.namespaceName n).isSome) :
    (Replace (registryBackend fault DefaultInstances) r w).ending = .returned none ∧
    (Replace (registryBackend fault DefaultInstances) r w).calls
      = [.GetCluster, .ConfigurationsLookup r.namespaceName r.configurationName,
         .ReplaceConfiguration configuration replaceRequest,
         .BoundAppsNamesFor r.namespaceName r.configurationName] ++
        restartCalls (w.hasWorkload r.namespaceName) r.namespaceName r.username
          (w.boundApps r.namespaceName r.configurationName) w.clock ++ [.ResponseOK] ∧
    (Replace (registryBackend fault DefaultInstances) r w).calls.filter Call.isDeploy
      = stampedDeploys r.namespaceName r.username
          ((w.boundApps r.namespaceName r.configurationName).filter
            (w.hasWorkload r.namespaceName)) w.clock := by
  have hkey : configuration.Name = r.configurationName ∧
      configuration.Org = r.namespaceName := by
    have := List.find?_some hcfg
    simpa using this
  have hc : (registryBackend fault DefaultInstances).GetCluster w = none := hfault _
  have hCL : (registryBackend fault DefaultInstances).ConfigurationsLookup w r.namespaceName
      r.configurationName = .ok configuration := by
    simp [registryBackend, hfault, hcfg]
  have hRC : (registryBackend fault DefaultInstances).ReplaceConfiguration w configuration
      replaceRequest
      = (.ok true, w.replaceValues configuration.Org configuration.Name replaceRequest) := by
    simp only [registryBackend, hfault, hkey.1, hkey.2, hcfg]
    simp [hchg]
  have hBA : (registryBackend fault DefaultInstances).BoundAppsNamesFor
      (w.replaceValues configuration.Org configuration.Name replaceRequest) r.namespaceName
      r.configurationName = .ok (w.boundApps r.namespaceName r.configurationName) := by
    simp only [registryBackend, hfault]
    rfl
  have hL : ∀ m, (w.replaceValues configuration.Org configuration.Name replaceRequest).Lookup
      r.namespaceName m = w.Lookup r.namespaceName m :=
    fun m => Registry.Lookup_of_apps _ w r.namespaceName m rfl
  have hfun : (w.replaceValues configuration.Org configuration.Name replaceRequest).hasWorkload
      r.namespaceName = w.hasWorkload r.namespaceName := by
    funext m
    simp only [Registry.hasWorkload, hL m]
  obtain ⟨h1, h2⟩ := restartApps_registry fault DefaultInstances r.namespaceName r.username
    hfault (w.boundApps r.namespaceName r.configurationName)
    (w.replaceValues configuration.Org configuration.Name replaceRequest)
    (fun n hn => by
      rw [hL n]
      exact hres n hn)
  rw [hfun] at h2
  have hcalls : (Replace (registryBackend fault DefaultInstances) r w).calls
      = [.GetCluster, .ConfigurationsLookup r.namespaceName r.configurationName,
         .ReplaceConfiguration configuration replaceRequest,
         .BoundAppsNamesFor r.namespaceName r.configurationName] ++
        restartCalls (w.hasWorkload r.namespaceName) r.namespaceName r.username
          (w.boundApps r.namespaceName r.configurationName) w.clock ++ [.ResponseOK] := by
    simp only [Replace, hc, hCL, hq, hRC, hBA]
    simpa [Registry.replaceValues] using h2
  refine ⟨?_, hcalls, ?_⟩
  · simp only [Replace, hc, hCL, hq, hRC, hBA]
    simpa using h1
  · rw [hcalls]
    simp [List.filter_append, Call.isDeploy, restartCalls_deploys]

/-- An instance: replacing the content of `creds`, bound to `blog`, `shop` and `wiki`,
redeploys `blog` and `wiki` with the clock readings 100 and 101 and leaves `shop`, which has no
workload, alone. -/
theorem Replace_restarts_running_witness :
    (Replace (registryBackend noFault 1) replaceCreds ledgerRegistry).ending
      = .returned none ∧
    (Replace (registryBackend noFault 1) replaceCreds ledgerRegistry).calls
      = [.GetCluster, .ConfigurationsLookup "ns" "creds",
         .ReplaceConfiguration ⟨"creds", "ns", [("user", "a")]⟩ [("user", "b")],
         .BoundAppsNamesFor "ns" "creds",
         .ApplicationLookup "ns" "blog", .TimeNow,
         .DeployApp ⟨"blog", "ns"⟩ "admin" "" none (some 100),
         .ApplicationLookup "ns" "shop",
         .ApplicationLookup "ns" "wiki", .TimeNow,
         .DeployApp ⟨"wiki", "ns"⟩ "admin" "" none (some 101),
         .ResponseOK] ∧
    (Replace (registryBackend noFault 1) replaceCreds ledgerRegistry).calls.filter
        Call.isDeploy
      = [.DeployApp ⟨"blog", "ns"⟩ "admin" "" none (some 100),
         .DeployApp ⟨"wiki", "ns"⟩ "admin" "" none (some 101)] :=
  Replace_restarts_running noFault 1 replaceCreds ledgerRegistry
    ⟨"creds", "ns", [("user", "a")]⟩ [("user", "b")] (fun _ => rfl) (by rfl) (by rfl)
    (by decide) (by decide)

/-- C12 fails on the code: `creds` is bound to `blog`, `ghost` and `wiki`, where `blog` and
`wiki` have a running workload and `ghost` resolves to no application.  Replacing the content
of `creds` succeeds and asks for a restart, every application lookup returns without error
and the one deploy made succeeds, yet the running bound application `wiki` is never looked
up nor redeployed: after redeploying `blog` the run faults on the nil application of `ghost`,
so one deploy is made where the two running bound applications call for two, and `wiki` is
left with the workload it had. -/
theorem Replace_skips_running_application :
    ((registryBackend noFault 1).ReplaceConfiguration danglingRegistry
        ⟨"creds", "ns", [("user", "a")]⟩ [("user", "b")]).1 = .ok true ∧
    (registryBackend noFault 1).BoundAppsNamesFor danglingRegistry "ns" "creds"
      = .ok ["blog", "ghost", "wiki"] ∧
    (registryBackend noFault 1).ApplicationLookup danglingRegistry "ns" "blog"
      = .ok (some ⟨⟨"blog", "ns"⟩, "admin", 2, [], [], some ⟨"stage1", none⟩⟩) ∧
    (registryBackend noFault 1).ApplicationLookup danglingRegistry "ns" "ghost" = .ok none ∧
    (registryBackend noFault 1).ApplicationLookup danglingRegistry "ns" "wiki"
      = .ok (some ⟨⟨"wiki", "ns"⟩, "admin", 1, [], [], some ⟨"stage7", none⟩⟩) ∧
    ["blog", "ghost", "wiki"].filter (danglingRegistry.hasWorkload "ns") = ["blog", "wiki"] ∧
    (Replace (registryBackend noFault 1) replaceCreds danglingRegistry).ending
      = .nilDereference ∧
    (Replace (registryBackend noFault 1) replaceCreds danglingRegistry).calls.filter
        Call.isDeploy
      = [.DeployApp ⟨"blog", "ns"⟩ "admin" "" none (some 100)] ∧
    Call.ApplicationLookup "ns" "wiki"
      ∉ (Replace (registryBackend noFault 1) replaceCreds danglingRegistry).calls ∧
    (Replace (registryBackend noFault 1) replaceCreds danglingRegistry).state.Lookup "ns" "blog"
      = some ⟨⟨"blog", "ns"⟩, "admin", 2, [], [], some ⟨"", some 100⟩⟩ ∧
    (Replace (registryBackend noFault 1) replaceCreds danglingRegistry).state.Lookup "ns" "wiki"
      = some ⟨⟨"wiki", "ns"⟩, "admin", 1, [], [], some ⟨"stage7", none⟩⟩ := by
  refine ⟨by rfl, by rfl, by rfl, by rfl, by rfl, by decide, by rfl, by decide, by decide,
    by rfl, by rfl⟩

/-- C21: Bind rejects unknown targets before any mutation.  With a decoded body, an absent
application gives `AppIsNotKnown` whatever the service; an existing application whose service
validation fails gives the error of the validation; both runs stop before LabelServiceSecrets,
CreateConfigurationBinding and BoundServicesSet and leave the state unchanged. -/
theorem Bind_rejects_unknown_targets {σ : Type} (B : Backend σ) (r : BindRequest) (s : σ)
    (bindRequest : ServiceBindRequest)
    (hb : r.body = .ok bindRequest)
    (hc : B.GetCluster s = none) :
    (B.ApplicationLookup s r.namespaceName bindRequest.AppName = .ok none →
      (Bind B r s).result = some (.single (.AppIsNotKnown bindRequest.AppName)) ∧
      (Bind B r s).calls
        = [.GetCluster, .ApplicationLookup r.namespaceName bindRequest.AppName] ∧
      (∀ c ∈ (Bind B r s).calls, c.changesState = false) ∧
      (Bind B r s).state = s) ∧
    (∀ app apiErr,
      B.ApplicationLookup s r.namespaceName bindRequest.AppName = .ok (some app) →
      B.ValidateService s r.namespaceName r.serviceName = some apiErr →
      (Bind B r s).result = some apiErr ∧
      (Bind B r s).calls
        = [.GetCluster, .ApplicationLookup r.namespaceName bindRequest.AppName,
           .ValidateService r.namespaceName r.serviceName] ∧
      (∀ c ∈ (Bind B r s).calls, c.changesState = false) ∧
      (Bind B r s).state = s) := by
  constructor
  · intro hl
    have hcalls : (Bind B r s).calls
        = [.GetCluster, .ApplicationLookup r.namespaceName bindRequest.AppName] := by
      simp [Bind, hb, hc, hl]
    refine ⟨by simp [Bind, hb, hc, hl], hcalls, ?_, by simp [Bind, hb, hc, hl]⟩
    intro c hm
    rw [hcalls] at hm
    simp at hm
    rcases hm with rfl | rfl <;> rfl
  · intro app apiErr hl hv
    have hcalls : (Bind B r s).calls
        = [.GetCluster, .ApplicationLookup r.namespaceName bindRequest.AppName,
           .ValidateService r.namespaceName r.serviceName] := by
      simp [Bind, hb, hc, hl, hv]
    refine ⟨by simp [Bind, hb, hc, hl, hv], hcalls, ?_, by simp [Bind, hb, hc, hl, hv]⟩
    intro c hm
    rw [hcalls] at hm
    simp at hm
    rcases hm with rfl | rfl | rfl <;> rfl

/-- Witness of C21: binding an unknown service to the unknown application `ghost`, and to the
existing application `shop`. -/
theorem Bind_rejects_unknown_targets_witness :
    ((Bind (registryBackend noFault 1) bindGhost ledgerRegistry).result
        = some (.single (.AppIsNotKnown "ghost")) ∧
      (Bind (registryBackend noFault 1) bindGhost ledgerRegistry).calls
        = [.GetCluster, .ApplicationLookup "ns" "ghost"]) ∧
    ((Bind (registryBackend noFault 1) bindNoSuch ledgerRegistry).result
        = some (.single (.ServiceIsNotKnown "nosuch")) ∧
      (Bind (registryBackend noFault 1) bindNoSuch ledgerRegistry).calls
        = [.GetCluster, .ApplicationLookup "ns" "shop", .ValidateService "ns" "nosuch"]) :=
  have h1 := (Bind_rejects_unknown_targets (registryBackend noFault 1) bindGhost ledgerRegistry
    ⟨"ghost"⟩ (by rfl) (by rfl)).1 (by rfl)
  have h2 := (Bind_rejects_unknown_targets (registryBackend noFault 1) bindNoSuch
    ledgerRegistry ⟨"shop"⟩ (by rfl) (by rfl)).2
    ⟨⟨"shop", "ns"⟩, "admin", 1, ["cache"], [], none⟩ (.single (.ServiceIsNotKnown "nosuch"))
    (by rfl) (by rfl)
  ⟨⟨h1.1, h1.2.1⟩, ⟨h2.1, h2.2.1⟩⟩

/-- Recording bindings keeps every binding there was and adds one per given name. -/
theorem Registry.bind_mem (w : Registry) (ref : AppRef) (names : List String) :
    (∀ b ∈ w.bindings, b ∈ (w.bind ref names).bindings) ∧
    (∀ n ∈ names, (ref, n) ∈ (w.bind ref names).bindings) := by
  simp only [Registry.bind, List.mem_append, List.mem_map, List.mem_filter]
  constructor
  · intro b hb
    exact Or.inl hb
  · intro n hn
    by_cases h : (ref, n) ∈ w.bindings
    · exact Or.inl h
    · exact Or.inr ⟨n, ⟨hn, by simpa using h⟩, rfl⟩

/-- C22: when BoundServicesSet fails after the configuration bindings were created, Bind
returns the InternalError of that failure, never the OK response; BoundServicesSet is the last
call of the run, so no rewind is invoked, and the state is the one that step left.  On the
registry, every run that reached BoundServicesSet ends with the configuration bindings of the
service in place, whatever BoundServicesSet did. -/
theorem Bind_record_failure {σ : Type} (B : Backend σ) (r : BindRequest) (s s1 s2 s3 : σ)
    (bindRequest : ServiceBindRequest) (app : App) (configurationSecrets : List Secret)
    (err : String)
    (hb : r.body = .ok bindRequest)
    (hc : B.GetCluster s = none)
    (hl : B.ApplicationLookup s r.namespaceName bindRequest.AppName = .ok (some app))
    (hv : B.ValidateService s r.namespaceName r.serviceName = none)
    (hs : B.LabelServiceSecrets s r.namespaceName r.serviceName = (.ok configurationSecrets, s1))
    (hx : B.CreateConfigurationBinding s1 r.namespaceName app
      (configurationSecrets.map Secret.Name) = (none, s2))
    (hy : B.BoundServicesSet s2 app.Meta [r.serviceName] false = (some err, s3)) :
    (Bind B r s).result = some (.single (.InternalError err [])) ∧
    (Bind B r s).result ≠ none ∧
    (Bind B r s).calls
      = [.GetCluster, .ApplicationLookup r.namespaceName bindRequest.AppName,
         .ValidateService r.namespaceName r.serviceName,
         .LabelServiceSecrets r.namespaceName r.serviceName,
         .CreateConfigurationBinding r.namespaceName app
           (configurationSecrets.map Secret.Name),
         .BoundServicesSet app.Meta [r.serviceName] false] ∧
    (Bind B r s).state = s3 ∧
    (∀ (fault : Call → Option String) (D : Int) (q : BindRequest) (w : Registry)
        (ref : AppRef) (names : List String) (replaceAll : Bool),
      Call.BoundServicesSet ref names replaceAll ∈ (Bind (registryBackend fault D) q w).calls →
      ∀ n ∈ w.serviceSecrets q.namespaceName q.serviceName,
        (ref, n) ∈ (Bind (registryBackend fault D) q w).state.bindings) := by
  have hres : (Bind B r s).result = some (.single (.InternalError err [])) := by
    simp [Bind, hb, hc, hl, hv, hs, hx, hy]
  refine ⟨hres, by rw [hres]; simp, by simp [Bind, hb, hc, hl, hv, hs, hx, hy],
    by simp [Bind, hb, hc, hl, hv, hs, hx, hy], ?_⟩
  intro fault D q w ref names replaceAll hm n hn
  rcases (Bind_cases (registryBackend fault D) q w).2 with
    ⟨h, -⟩ | ⟨req, found, secrets, t1, t2, -, -, -, -, hs2, hx2, ⟨post, hcalls, hpost⟩,
      hstate, -⟩
  · have := h _ hm
    simp [Call.isRegistryWrite] at this
  · have href : ref = found.Meta := by
      rw [hcalls] at hm
      simp at hm
      rcases hm with h | h
      · exact h.1
      · have := hpost _ h
        cases this
    have e1 : secrets.map Secret.Name = w.serviceSecrets q.namespaceName q.serviceName ∧
        t1 = w.label q.namespaceName (w.serviceSecrets q.namespaceName q.serviceName) := by
      simp only [registryBackend] at hs2
      split at hs2
      · simp at hs2
      · have h1 := (Prod.mk.inj hs2).1
        have h2 := (Prod.mk.inj hs2).2
        injection h1 with h1
        exact ⟨by rw [← h1]; simp [Function.comp_def], h2.symm⟩
    have e2 : t2 = t1.bind found.Meta (secrets.map Secret.Name) := by
      simp only [registryBackend] at hx2
      split at hx2
      · simp at hx2
      · split at hx2
        · exact (Prod.mk.inj hx2).2.symm
        · simp at hx2
    have e3 : ((registryBackend fault D).BoundServicesSet t2 found.Meta [q.serviceName]
        false).2.bindings = t2.bindings := by
      simp only [registryBackend]
      split
      · rfl
      · unfold Registry.set
        split <;> rfl
    rw [hstate, e3, e2, e1.1, href]
    exact (Registry.bind_mem t1 found.Meta _).2 n hn

/-- Witness of C22: recording `db` against `shop` fails after its two configurations were
bound; the error is returned and the two bindings are still there. -/
theorem Bind_record_failure_witness :
    (Bind (registryBackend faultRecord 1) bindShop ledgerRegistry).result
      = some (.single (.InternalError "store unavailable" [])) ∧
    (Bind (registryBackend faultRecord 1) bindShop ledgerRegistry).calls
      = [.GetCluster, .ApplicationLookup "ns" "shop", .ValidateService "ns" "db",
         .LabelServiceSecrets "ns" "db",
         .CreateConfigurationBinding "ns" ⟨⟨"shop", "ns"⟩, "admin", 1, ["cache"], [], none⟩
           ["db-conn", "db-auth"],
         .BoundServicesSet ⟨"shop", "ns"⟩ ["db"] false] ∧
    (Bind (registryBackend faultRecord 1) bindShop ledgerRegistry).state.boundConfigurations
      ⟨"shop", "ns"⟩ = ["creds", "db-conn", "db-auth"] :=
  have h := Bind_record_failure (registryBackend faultRecord 1) bindShop ledgerRegistry _ _ _
    ⟨"shop"⟩ ⟨⟨"shop", "ns"⟩, "admin", 1, ["cache"], [], none⟩ [⟨"db-conn"⟩, ⟨"db-auth"⟩]
    "store unavailable" (by rfl) (by rfl) (by rfl) (by rfl) (by rfl) (by rfl) (by rfl)
  ⟨h.1, h.2.2.1, by rw [h.2.2.2.1]; rfl⟩

/-! ## Replace: restart not needed, failures, absent applications -/

/-- C28: when ReplaceConfiguration succeeds and reports that no restart is needed, Replace
returns the OK response right away: the run consists of GetCluster, the configuration lookup,
ReplaceConfiguration and the response, without BoundAppsNamesFor, application lookups or
deploys. -/
theorem Replace_without_restart {σ : Type} (B : Backend σ) (r : ReplaceRequest) (s s1 : σ)
    (configuration : Configuration) (replaceRequest : ConfigurationReplaceRequest)
    (hc : B.GetCluster s = none)
    (hl : B.ConfigurationsLookup s r.namespaceName r.configurationName = .ok configuration)
    (hq : r.body = .ok replaceRequest)
    (hr : B.ReplaceConfiguration s configuration replaceRequest = (.ok false, s1)) :
    (Replace B r s).ending = .returned none ∧
    (Replace B r s).calls
      = [.GetCluster, .ConfigurationsLookup r.namespaceName r.configurationName,
         .ReplaceConfiguration configuration replaceRequest, .ResponseOK] ∧
    (Replace B r s).calls.filter Call.isDeploy = [] ∧
    (Replace B r s).state = s1 := by
  have hcalls : (Replace B r s).calls
      = [.GetCluster, .ConfigurationsLookup r.namespaceName r.configurationName,
         .ReplaceConfiguration configuration replaceRequest, .ResponseOK] := by
    simp [Replace, hc, hl, hq, hr]
  refine ⟨by simp [Replace, hc, hl, hq, hr], hcalls, ?_, by simp [Replace, hc, hl, hq, hr]⟩
  rw [hcalls]
  simp [Call.isDeploy]

/-- Witness of C28: replacing `creds` by the content it already has. -/
theorem Replace_without_restart_witness :
    (Replace (registryBackend noFault 1) replaceSame ledgerRegistry).ending = .returned none ∧
    (Replace (registryBackend noFault 1) replaceSame ledgerRegistry).calls
      = [.GetCluster, .ConfigurationsLookup "ns" "creds",
         .ReplaceConfiguration ⟨"creds", "ns", [("user", "a")]⟩ [("user", "a")],
         .ResponseOK] :=
  have h := Replace_without_restart (registryBackend noFault 1) replaceSame ledgerRegistry _
    ⟨"creds", "ns", [("user", "a")]⟩ [("user", "a")] (by rfl) (by rfl) (by rfl) (by rfl)
  ⟨h.1, h.2.1⟩

/-- C27 fails on the code: with `creds` bound to the name `ghost`, for which the lookup gives
a nil application without error, Replace does not run to a result; after redeploying `blog`
it looks `ghost` up and faults on the dereference `app.Workload`. -/
theorem Replace_nil_application_faults :
    (registryBackend noFault 1).ApplicationLookup danglingRegistry "ns" "ghost" = .ok none ∧
    (Replace (registryBackend noFault 1) replaceCreds danglingRegistry).ending
      = .nilDereference ∧
    (Replace (registryBackend noFault 1) replaceCreds danglingRegistry).calls
      = [.GetCluster, .ConfigurationsLookup "ns" "creds",
         .ReplaceConfiguration ⟨"creds", "ns", [("user", "a")]⟩ [("user", "b")],
         .BoundAppsNamesFor "ns" "creds",
         .ApplicationLookup "ns" "blog", .TimeNow,
         .DeployApp ⟨"blog", "ns"⟩ "admin" "" none (some 100),
         .ApplicationLookup "ns" "ghost"] := by
  refine ⟨by rfl, by rfl, by rfl⟩

/-! ## Create: a failing service lookup -/

/-- When the lookup of a listed service fails with a message other than `service not found`,
the loop stops there: it returns the InternalError of that failure in front of the issues
collected so far, having looked up the names up to the failing one only. -/
theorem checkServices_internal {σ : Type} (B : Backend σ) (s : σ) (org : String)
    (before : List String) (name : String) (behind : List String) (acc : List APIError)
    (err : String)
    (hp : ∀ n ∈ before, B.ServicesLookup s org n = none ∨
      B.ServicesLookup s org n = some "service not found")
    (hn : B.ServicesLookup s org name = some err)
    (hne : err ≠ "service not found") :
    (checkServices B s org (before ++ name :: behind) acc).2
      = .error (APIError.InternalError err [] ::
          (acc ++ (unknownServices B s org before).map APIError.ServiceIsNotKnown)) ∧
    (checkServices B s org (before ++ name :: behind) acc).1
      = (before ++ [name]).map (Call.ServicesLookup org) := by
  induction before generalizing acc with
  | nil => simp [checkServices, unknownServices, hn, hne]
  | cons m rest ih =>
    have hrest : ∀ n ∈ rest, B.ServicesLookup s org n = none ∨
        B.ServicesLookup s org n = some "service not found" :=
      fun n hmem => hp n (List.mem_cons_of_mem _ hmem)
    rcases hp m (List.mem_cons_self _ _) with h | h
    · have := ih acc hrest
      simp [checkServices, unknownServices, h] at this ⊢
      exact this
    · have := ih (acc ++ [APIError.ServiceIsNotKnown m]) hrest
      simp [checkServices, unknownServices, h] at this ⊢
      exact this

/-- C29: when, during Create, the lookup of a listed service fails with a message that is not
`service not found`, Create looks up no further service and returns the MultiError whose
first entry is the InternalError of that failure, followed by the ServiceIsNotKnown entries of
the unknown names listed before it, in request order; no mutation is invoked. -/
theorem Create_service_lookup_failure {σ : Type} (B : Backend σ) (DefaultInstances : Int)
    (r : CreateRequest) (s : σ) (createRequest : ApplicationCreateRequest)
    (before : List String) (name : String) (behind : List String) (err : String)
    (hc : B.GetCluster s = none)
    (ho : B.OrganizationsExists s r.org = .ok true)
    (hb : r.body = .Decoded createRequest)
    (he : B.ApplicationExists s (NewAppRef createRequest.Name r.org) = .ok false)
    (hsplit : createRequest.Configuration.Services = before ++ name :: behind)
    (hp : ∀ n ∈ before, B.ServicesLookup s r.org n = none ∨
      B.ServicesLookup s r.org n = some "service not found")
    (hn : B.ServicesLookup s r.org name = some err)
    (hne : err ≠ "service not found") :
    (Create B DefaultInstances r s).result
      = some (.NewMultiError (APIError.InternalError err [] ::
          (unknownServices B s r.org before).map APIError.ServiceIsNotKnown)) ∧
    (Create B DefaultInstances r s).calls
      = [.GetCluster, .OrganizationsExists r.org,
         .ApplicationExists (NewAppRef createRequest.Name r.org)] ++
        (before ++ [name]).map (Call.ServicesLookup r.org) ∧
    (∀ c ∈ (Create B DefaultInstances r s).calls, c.isMutation = false) ∧
    (Create B DefaultInstances r s).state = s := by
  obtain ⟨h2, h1⟩ := checkServices_internal B s r.org before name behind [] err hp hn hne
  rw [← hsplit] at h1 h2
  have hcalls : (Create B DefaultInstances r s).calls
      = [.GetCluster, .OrganizationsExists r.org,
         .ApplicationExists (NewAppRef createRequest.Name r.org)] ++
        (before ++ [name]).map (Call.ServicesLookup r.org) := by
    simp [Create, hc, ho, hb, he, h2, h1]
  refine ⟨by simp [Create, hc, ho, hb, he, h2], hcalls, ?_, by simp [Create, hc, ho, hb, he, h2]⟩
  intro c hm
  rw [hcalls] at hm
  simp at hm
  rcases hm with rfl | rfl | rfl | ⟨n, _, rfl⟩ | rfl <;> rfl

/-- Witness of C29: of `cache`, `db`, `queue`, the unknown `cache` is noted, the lookup of `db`
fails, and `queue` is not looked up. -/
theorem Create_service_lookup_failure_witness :
    (Create (registryBackend faultServiceDb 1) 1 createWithUnknown sampleRegistry).result
      = some (.NewMultiError
          [.InternalError "connection refused" [], .ServiceIsNotKnown "cache"]) ∧
    (Create (registryBackend faultServiceDb 1) 1 createWithUnknown sampleRegistry).calls
      = [.GetCluster, .OrganizationsExists "ns", .ApplicationExists ⟨"wiki", "ns"⟩,
         .ServicesLookup "ns" "cache", .ServicesLookup "ns" "db"] :=
  have h := Create_service_lookup_failure (registryBackend faultServiceDb 1) 1
    createWithUnknown sampleRegistry ⟨"wiki", ⟨none, ["cache", "db", "queue"], []⟩⟩
    ["cache"] "db" ["queue"] "connection refused"
    (by rfl) (by rfl) (by rfl) (by rfl) (by rfl) (by decide) (by rfl) (by decide)
  ⟨h.1, h.2.1⟩

/-! ## Replace: a failing redeploy -/

/-- A restart loop over a first part of the names that runs through hands its state to the
loop over the remaining names: the calls are those of the first part without its final
response, then those of the rest. -/
theorem restartApps_append {σ : Type} (B : Backend σ) (org username : String)
    (before behind : List String) (s : σ)
    (h : (restartApps B org username before s).ending = .returned none) :
    ∃ body, (restartApps B org username before s).calls = body ++ [.ResponseOK] ∧
      (restartApps B org username (before ++ behind) s).calls
        = body ++ (restartApps B org username behind
            (restartApps B org username before s).state).calls ∧
      (restartApps B org username (before ++ behind) s).ending
        = (restartApps B org username behind
            (restartApps B org username before s).state).ending ∧
      (restartApps B org username (before ++ behind) s).state
        = (restartApps B org username behind
            (restartApps B org username before s).state).state := by
  induction before generalizing s with
  | nil => exact ⟨[], by simp [restartApps], by simp [restartApps], by simp [restartApps],
      by simp [restartApps]⟩
  | cons n rest ih =>
    cases hl : B.ApplicationLookup s org n with
    | error err => simp [restartApps, hl, ReplaceRun.ret] at h
    | ok found =>
    cases found with
    | none => simp [restartApps, hl] at h
    | some app =>
    cases hw : app.Workload with
    | none =>
      have h1 : (restartApps B org username rest s).ending = .returned none := by
        simpa [restartApps, hl, hw] using h
      obtain ⟨body, hb, hc, he, hs⟩ := ih s h1
      refine ⟨.ApplicationLookup org n :: body, ?_, ?_, ?_, ?_⟩
      · simp [restartApps, hl, hw, hb]
      · simp only [List.cons_append, restartApps, hl, hw]
        simpa using hc
      · simp only [List.cons_append, restartApps, hl, hw]
        simpa using he
      · simp only [List.cons_append, restartApps, hl, hw]
        simpa using hs
    | some workload =>
      rcases hd : B.DeployApp (B.Now s).2 app.Meta username "" none (some (B.Now s).1)
        with ⟨e, s2⟩
      cases e with
      | some apierr => simp [restartApps, hl, hw, hd, ReplaceRun.ret] at h
      | none =>
        have h1 : (restartApps B org username rest s2).ending = .returned none := by
          simpa [restartApps, hl, hw, hd] using h
        obtain ⟨body, hb, hc, he, hs⟩ := ih s2 h1
        refine ⟨.ApplicationLookup org n :: .TimeNow ::
          .DeployApp app.Meta username "" none (some (B.Now s).1) :: body, ?_, ?_, ?_, ?_⟩
        · simp [restartApps, hl, hw, hd, hb]
        · simp only [List.cons_append, restartApps, hl, hw, hd]
          simpa using hc
        · simp only [List.cons_append, restartApps, hl, hw, hd]
          simpa using he
        · simp only [List.cons_append, restartApps, hl, hw, hd]
          simpa using hs

/-- A setter of the registry touches the application records only. -/
theorem Registry.set_frame (w : Registry) (ref : AppRef) (f : App → App) :
    (w.set ref f).2.configurations = w.configurations ∧
    (w.set ref f).2.bindings = w.bindings := by
  unfold Registry.set
  split <;> exact ⟨rfl, rfl⟩

/-- A deploy on the registry, failing or not, leaves the configurations as they are. -/
theorem registryBackend_deploy_keeps (fault : Call → Option String) (DefaultInstances : Int)
    (w : Registry) (ref : AppRef) (username stageID : String)
    (origin : Option ApplicationOrigin) (start : Option Int) :
    ((registryBackend fault DefaultInstances).DeployApp w ref username stageID origin
      start).2.configurations = w.configurations := by
  simp only [registryBackend]
  split
  · rfl
  · have h := (Registry.set_frame w ref
      (fun a => { a with Workload := some ⟨stageID, start⟩ })).1
    rcases hset : w.set ref (fun a => { a with Workload := some ⟨stageID, start⟩ })
      with ⟨e, w1⟩
    rw [hset] at h
    cases e <;> simpa using h

/-- On the registry, whatever fails, the restart loop leaves the configurations as they
are. -/
theorem restartApps_keeps_configurations (fault : Call → Option String)
    (DefaultInstances : Int) (org username : String) (names : List String) (t : Registry) :
    (restartApps (registryBackend fault DefaultInstances) org username names t).state.configurations
      = t.configurations := by
  induction names generalizing t with
  | nil => simp [restartApps]
  | cons n rest ih =>
    cases hl : (registryBackend fault DefaultInstances).ApplicationLookup t org n with
    | error err => simp [restartApps, hl]
    | ok found =>
    cases found with
    | none => simp [restartApps, hl]
    | some app =>
    cases hw : app.Workload with
    | none =>
      simp only [restartApps, hl, hw]
      exact ih t
    | some workload =>
      have hkeep : ((registryBackend fault DefaultInstances).DeployApp
          ((registryBackend fault DefaultInstances).Now t).2 app.Meta username "" none
          (some ((registryBackend fault DefaultInstances).Now t).1)).2.configurations
          = t.configurations :=
        registryBackend_deploy_keeps fault DefaultInstances _ _ _ _ _ _
      rcases hd : (registryBackend fault DefaultInstances).DeployApp
          ((registryBackend fault DefaultInstances).Now t).2 app.Meta username "" none
          (some ((registryBackend fault DefaultInstances).Now t).1) with ⟨e, s2⟩
      rw [hd] at hkeep
      cases e with
      | some apierr =>
        simp only [restartApps, hl, hw, hd]
        simpa using hkeep
      | none =>
        simp only [restartApps, hl, hw, hd]
        simp only [ReplaceRun.run_after_state]
        rw [ih s2]
        exact hkeep

/-- The configuration found after its values were replaced carries the new values. -/
theorem Registry.configuration_replaceValues (w : Registry) (org name : String)
    (values : List (String × String)) (c : Configuration)
    (h : w.configuration org name = some c) :
    (w.replaceValues org name values).configuration org name
      = some { c with Values := values } := by
  obtain ⟨nss, svcs, apps, cfgs, secs, bnds, clk, stl⟩ := w
  simp only [Registry.replaceValues, Registry.configuration] at h ⊢
  induction cfgs with
  | nil => simp at h
  | cons a rest ih =>
    by_cases ha : a.Name = name ∧ a.Org = org
    · have : a = c := by simpa [List.find?_cons, ha] using h
      subst this
      simp [List.find?_cons, ha]
    · have hrest : List.find? (fun c => decide (c.Name = name ∧ c.Org = org)) rest = some c := by
        simpa [List.find?_cons, ha] using h
      have hd : decide (a.Name = name ∧ a.Org = org) = false := by simpa using ha
      simp only [List.map_cons, if_neg ha, List.find?_cons, hd]
      exact ih hrest

/-- C26: when, in a Replace that needs a restart, the lookups and redeploys of the bound
application names before some name went through and the redeploy of that name fails, Replace
returns that deploy error at once; the failing deploy is the last call, so no name behind it
is looked up or redeployed and nothing is rolled back, and the state is the one the failing
deploy left after the earlier redeploys.  On the registry, once ReplaceConfiguration
succeeded, the configuration holds the replaced values at the end of every run. -/
theorem Replace_deploy_failure {σ : Type} (B : Backend σ) (r : ReplaceRequest) (s s1 s3 : σ)
    (configuration : Configuration) (replaceRequest : ConfigurationReplaceRequest)
    (before : List String) (name : String) (behind : List String) (app : App)
    (workload : AppDeployment) (apierr : APIErrors)
    (hc : B.GetCluster s = none)
    (hl : B.ConfigurationsLookup s r.namespaceName r.configurationName = .ok configuration)
    (hq : r.body = .ok replaceRequest)
    (hr : B.ReplaceConfiguration s configuration replaceRequest = (.ok true, s1))
    (hn : B.BoundAppsNamesFor s1 r.namespaceName r.configurationName
      = .ok (before ++ name :: behind))
    (hp : (restartApps B r.namespaceName r.username before s1).ending = .returned none)
    (ha : B.ApplicationLookup (restartApps B r.namespaceName r.username before s1).state
      r.namespaceName name = .ok (some app))
    (hw : app.Workload = some workload)
    (hd : B.DeployApp (B.Now (restartApps B r.namespaceName r.username before s1).state).2
      app.Meta r.username "" none
      (some (B.Now (restartApps B r.namespaceName r.username before s1).state).1)
      = (some apierr, s3)) :
    (Replace B r s).ending = .returned (some apierr) ∧
    (∃ body, (restartApps B r.namespaceName r.username before s1).calls
        = body ++ [.ResponseOK] ∧
      (Replace B r s).calls
        = [.GetCluster, .ConfigurationsLookup r.namespaceName r.configurationName,
           .ReplaceConfiguration configuration replaceRequest,
           .BoundAppsNamesFor r.namespaceName r.configurationName] ++ body ++
          [.ApplicationLookup r.namespaceName name, .TimeNow,
           .DeployApp app.Meta r.username "" none
             (some (B.Now (restartApps B r.namespaceName r.username before s1).state).1)]) ∧
    (Replace B r s).state = s3 ∧
    (∀ (fault : Call → Option String) (D : Int) (q : ReplaceRequest) (w : Registry)
        (stored : Configuration) (request : ConfigurationReplaceRequest),
      fault .GetCluster = none →
      fault (.ConfigurationsLookup q.namespaceName q.configurationName) = none →
      w.configuration q.namespaceName q.configurationName = some stored →
      q.body = .ok request →
      fault (.ReplaceConfiguration stored request) = none →
      (Replace (registryBackend fault D) q w).state.configuration q.namespaceName
        q.configurationName = some { stored with Values := request }) := by
  obtain ⟨body, hb, hcalls, hend, hstate⟩ :=
    restartApps_append B r.namespaceName r.username before (name :: behind) s1 hp
  have htail : restartApps B r.namespaceName r.username (name :: behind)
      (restartApps B r.namespaceName r.username before s1).state
      = ⟨.returned (some apierr),
          [.ApplicationLookup r.namespaceName name, .TimeNow,
           .DeployApp app.Meta r.username "" none
             (some (B.Now (restartApps B r.namespaceName r.username before s1).state).1)],
          s3⟩ := by
    simp [restartApps, ha, hw, hd, ReplaceRun.after, ReplaceRun.ret]
  rw [htail] at hcalls hend hstate
  refine ⟨?_, ⟨body, hb, ?_⟩, ?_, ?_⟩
  · simp only [Replace, hc, hl, hq, hr, hn]
    simpa using hend
  · simp only [Replace, hc, hl, hq, hr, hn]
    simpa using hcalls
  · simp only [Replace, hc, hl, hq, hr, hn]
    simpa using hstate
  · intro fault D q w stored request h1 h2 h3 h4 h5
    have hkey : stored.Name = q.configurationName ∧ stored.Org = q.namespaceName := by
      have := List.find?_some h3
      simpa using this
    have hgc : (registryBackend fault D).GetCluster w = none := h1
    have hCL : (registryBackend fault D).ConfigurationsLookup w q.namespaceName
        q.configurationName = .ok stored := by
      simp [registryBackend, h2, h3]
    have hRC : (registryBackend fault D).ReplaceConfiguration w stored request
        = (.ok (decide (stored.Values ≠ request)),
            w.replaceValues q.namespaceName q.configurationName request) := by
      simp only [registryBackend, h5, hkey.1, hkey.2, h3]
    have hfin : (Replace (registryBackend fault D) q w).state.configurations
        = (w.replaceValues q.namespaceName q.configurationName request).configurations := by
      cases hdec : decide (stored.Values ≠ request) with
      | false =>
        rw [hdec] at hRC
        simp [Replace, hgc, hCL, h4, hRC]
      | true =>
        rw [hdec] at hRC
        cases hBA : (registryBackend fault D).BoundAppsNamesFor
            (w.replaceValues q.namespaceName q.configurationName request) q.namespaceName
            q.configurationName with
        | error err => simp [Replace, hgc, hCL, h4, hRC, hBA]
        | ok appNames =>
          simp only [Replace, hgc, hCL, h4, hRC, hBA]
          simpa using restartApps_keeps_configurations fault D q.namespaceName q.username
            appNames (w.replaceValues q.namespaceName q.configurationName request)
    have := Registry.configuration_replaceValues w q.namespaceName q.configurationName request
      stored h3
    simp only [Registry.configuration] at this ⊢
    rw [hfin]
    exact this

/-- Witness of C26: with `creds` bound to `blog`, `shop`, `wiki` and `idle`, the redeploy of
`wiki` fails after `blog` was redeployed; `idle` is not looked up and `creds` keeps its new
content. -/
theorem Replace_deploy_failure_witness :
    (Replace (registryBackend faultDeployWiki 1) replaceCreds crowdedRegistry).ending
      = .returned (some (.single (.InternalError "rollout failed" []))) ∧
    (Replace (registryBackend faultDeployWiki 1) replaceCreds crowdedRegistry).calls
      = [.GetCluster, .ConfigurationsLookup "ns" "creds",
         .ReplaceConfiguration ⟨"creds", "ns", [("user", "a")]⟩ [("user", "b")],
         .BoundAppsNamesFor "ns" "creds",
         .ApplicationLookup "ns" "blog", .TimeNow,
         .DeployApp ⟨"blog", "ns"⟩ "admin" "" none (some 100),
         .ApplicationLookup "ns" "shop",
         .ApplicationLookup "ns" "wiki", .TimeNow,
         .DeployApp ⟨"wiki", "ns"⟩ "admin" "" none (some 101)] ∧
    (Replace (registryBackend faultDeployWiki 1) replaceCreds crowdedRegistry).state.configuration
      "ns" "creds" = some ⟨"creds", "ns", [("user", "b")]⟩ ∧
    (Replace (registryBackend faultDeployWiki 1) replaceCreds crowdedRegistry).state.Lookup
      "ns" "blog" = some ⟨⟨"blog", "ns"⟩, "admin", 2, [], [], some ⟨"", some 100⟩⟩ :=
  have h := Replace_deploy_failure (registryBackend faultDeployWiki 1) replaceCreds
    crowdedRegistry _ _ ⟨"creds", "ns", [("user", "a")]⟩ [("user", "b")]
    ["blog", "shop"] "wiki" ["idle"]
    ⟨⟨"wiki", "ns"⟩, "admin", 1, [], [], some ⟨"stage7", none⟩⟩ ⟨"stage7", none⟩
    (.single (.InternalError "rollout failed" []))
    (by rfl) (by rfl) (by rfl) (by rfl) (by rfl) (by rfl) (by rfl) (by rfl) (by rfl)
  ⟨h.1, by rfl, h.2.2.2 faultDeployWiki 1 replaceCreds crowdedRegistry
      ⟨"creds", "ns", [("user", "a")]⟩ [("user", "b")] (by rfl) (by rfl) (by rfl) (by rfl)
      (by rfl),
    by rw [h.2.2.1]; rfl⟩

/-! ## DeleteBinding -/

/-- No run of `DeleteBinding` invokes a deploy, a registry setter of `Create` or a write on the
ledger; and a change of the bound services of a workload is only invoked for an application
found with a workload. -/
theorem DeleteBinding_cases {σ : Type} (B : Backend σ) (org appName serviceName username : String)
    (s : σ) :
    (∀ c ∈ (DeleteBinding B org appName serviceName username s).calls,
      c.isDeploy = false ∧ c.isLedgerWrite = false ∧ c.isRegistryWrite = false) ∧
    ((∃ c ∈ (DeleteBinding B org appName serviceName username s).calls,
        c.isWorkloadChange = true) →
      ∃ app workload, B.ApplicationLookup s org appName = .ok (some app) ∧
        app.Workload = some workload) := by
  cases hl : B.ApplicationLookup s org appName with
  | error err =>
    refine ⟨?_, ?_⟩
    · intro c hm
      simp [DeleteBinding, hl] at hm
      subst hm
      exact ⟨rfl, rfl, rfl⟩
    · rintro ⟨c, hm, hc⟩
      simp [DeleteBinding, hl] at hm
      subst hm
      cases hc
  | ok found =>
  cases found with
  | none =>
    refine ⟨?_, ?_⟩
    · intro c hm
      simp [DeleteBinding, hl] at hm
      subst hm
      exact ⟨rfl, rfl, rfl⟩
    · rintro ⟨c, hm, hc⟩
      simp [DeleteBinding, hl] at hm
      subst hm
      cases hc
  | some app =>
  cases hv : B.ServicesLookup s org serviceName with
  | some err =>
    refine ⟨?_, ?_⟩
    · intro c hm
      by_cases he : err = "service not found"
      · simp [DeleteBinding, hl, hv, he] at hm
        rcases hm with rfl | rfl <;> exact ⟨rfl, rfl, rfl⟩
      · simp [DeleteBinding, hl, hv, he] at hm
        rcases hm with rfl | rfl <;> exact ⟨rfl, rfl, rfl⟩
    · rintro ⟨c, hm, hc⟩
      by_cases he : err = "service not found"
      · simp [DeleteBinding, hl, hv, he] at hm
        rcases hm with rfl | rfl <;> cases hc
      · simp [DeleteBinding, hl, hv, he] at hm
        rcases hm with rfl | rfl <;> cases hc
  | none =>
  cases hn : B.BoundServiceNameSet s app.Meta with
  | error err =>
    refine ⟨?_, ?_⟩
    · intro c hm
      simp [DeleteBinding, hl, hv, hn] at hm
      rcases hm with rfl | rfl | rfl <;> exact ⟨rfl, rfl, rfl⟩
    · rintro ⟨c, hm, hc⟩
      simp [DeleteBinding, hl, hv, hn] at hm
      rcases hm with rfl | rfl | rfl <;> cases hc
  | ok oldBound =>
  rcases hu : B.BoundServicesUnset s app.Meta serviceName with ⟨e, s1⟩
  cases e with
  | some err =>
    refine ⟨?_, ?_⟩
    · intro c hm
      simp [DeleteBinding, hl, hv, hn, hu] at hm
      rcases hm with rfl | rfl | rfl | rfl <;> exact ⟨rfl, rfl, rfl⟩
    · rintro ⟨c, hm, hc⟩
      simp [DeleteBinding, hl, hv, hn, hu] at hm
      rcases hm with rfl | rfl | rfl | rfl <;> cases hc
  | none =>
  cases hw : app.Workload with
  | none =>
    refine ⟨?_, ?_⟩
    · intro c hm
      simp [DeleteBinding, hl, hv, hn, hu, hw] at hm
      rcases hm with rfl | rfl | rfl | rfl <;> exact ⟨rfl, rfl, rfl⟩
    · rintro ⟨c, hm, hc⟩
      simp [DeleteBinding, hl, hv, hn, hu, hw] at hm
      rcases hm with rfl | rfl | rfl | rfl <;> cases hc
  | some workload =>
    refine ⟨?_, fun _ => ⟨app, workload, rfl, hw⟩⟩
    intro c hm
    cases hb : B.BoundServices s1 app.Meta with
    | error err =>
      simp [DeleteBinding, hl, hv, hn, hu, hw, hb] at hm
      rcases hm with rfl | rfl | rfl | rfl | rfl <;> exact ⟨rfl, rfl, rfl⟩
    | ok newBound =>
      rcases hx : B.BoundServicesChange s1 app.Meta username oldBound newBound with ⟨e, s2⟩
      cases e with
      | some err =>
        simp [DeleteBinding, hl, hv, hn, hu, hw, hb, hx] at hm
        rcases hm with rfl | rfl | rfl | rfl | rfl | rfl <;> exact ⟨rfl, rfl, rfl⟩
      | none =>
        simp [DeleteBinding, hl, hv, hn, hu, hw, hb, hx] at hm
        rcases hm with rfl | rfl | rfl | rfl | rfl | rfl <;> exact ⟨rfl, rfl, rfl⟩

/-- The run of `DeleteBinding` on an application with a workload, once the lookups, the read
of the old bound names, the unset and the read of the new bound services succeeded. -/
theorem DeleteBinding_with_workload {σ : Type} (B : Backend σ)
    (org appName serviceName username : String) (s s1 : σ) (app : App)
    (workload : AppDeployment) (oldBound : List String) (newBound : List Service)
    (hl : B.ApplicationLookup s org appName = .ok (some app))
    (hw : app.Workload = some workload)
    (hv : B.ServicesLookup s org serviceName = none)
    (hn : B.BoundServiceNameSet s app.Meta = .ok oldBound)
    (hu : B.BoundServicesUnset s app.Meta serviceName = (none, s1))
    (hb : B.BoundServices s1 app.Meta = .ok newBound) :
    (DeleteBinding B org appName serviceName username s).calls
      = [.ApplicationLookup org appName, .ServicesLookup org serviceName,
         .BoundServiceNameSet app.Meta, .BoundServicesUnset app.Meta serviceName,
         .BoundServices app.Meta,
         .BoundServicesChange app.Meta username oldBound newBound] ∧
    (DeleteBinding B org appName serviceName username s).state
      = (B.BoundServicesChange s1 app.Meta username oldBound newBound).2 ∧
    ((DeleteBinding B org appName serviceName username s).result = none ↔
      (B.BoundServicesChange s1 app.Meta username oldBound newBound).1 = none) := by
  rcases hx : B.BoundServicesChange s1 app.Meta username oldBound newBound with ⟨e, s2⟩
  cases e <;> simp [DeleteBinding, hl, hv, hn, hu, hw, hb, hx]

/-- C30: with a workload and an existing service, once the reads and the unset succeeded,
DeleteBinding invokes the workload's BoundServicesChange exactly once, as its last call, with
the bound names read before BoundServicesUnset as old state and the bound services read after
it as new state.  An absent application or an unknown service gives the matching not-found
error before BoundServicesUnset is reached.  Without a workload the run ends with
BoundServicesUnset. -/
theorem DeleteBinding_change {σ : Type} (B : Backend σ)
    (org appName serviceName username : String) (s : σ) :
    (∀ app workload oldBound newBound s1,
      B.ApplicationLookup s org appName = .ok (some app) →
      app.Workload = some workload →
      B.ServicesLookup s org serviceName = none →
      B.BoundServiceNameSet s app.Meta = .ok oldBound →
      B.BoundServicesUnset s app.Meta serviceName = (none, s1) →
      B.BoundServices s1 app.Meta = .ok newBound →
      (DeleteBinding B org appName serviceName username s).calls
        = [.ApplicationLookup org appName, .ServicesLookup org serviceName,
           .BoundServiceNameSet app.Meta, .BoundServicesUnset app.Meta serviceName,
           .BoundServices app.Meta,
           .BoundServicesChange app.Meta username oldBound newBound] ∧
      (DeleteBinding B org appName serviceName username s).calls.filter Call.isWorkloadChange
        = [.BoundServicesChange app.Meta username oldBound newBound]) ∧
    (B.ApplicationLookup s org appName = .ok none →
      (DeleteBinding B org appName serviceName username s).result
        = some (.single (.AppIsNotKnown appName)) ∧
      (DeleteBinding B org appName serviceName username s).calls
        = [.ApplicationLookup org appName] ∧
      (DeleteBinding B org appName serviceName username s).state = s) ∧
    (∀ app, B.ApplicationLookup s org appName = .ok (some app) →
      B.ServicesLookup s org serviceName = some "service not found" →
      (DeleteBinding B org appName serviceName username s).result
        = some (.single (.ServiceIsNotKnown serviceName)) ∧
      (DeleteBinding B org appName serviceName username s).calls
        = [.ApplicationLookup org appName, .ServicesLookup org serviceName] ∧
      (DeleteBinding B org appName serviceName username s).state = s) ∧
    (∀ app oldBound,
      B.ApplicationLookup s org appName = .ok (some app) →
      app.Workload = none →
      B.ServicesLookup s org serviceName = none →
      B.BoundServiceNameSet s app.Meta = .ok oldBound →
      (DeleteBinding B org appName serviceName username s).calls
        = [.ApplicationLookup org appName, .ServicesLookup org serviceName,
           .BoundServiceNameSet app.Meta, .BoundServicesUnset app.Meta serviceName] ∧
      (DeleteBinding B org appName serviceName username s).calls.filter Call.changesState
        = [.BoundServicesUnset app.Meta serviceName] ∧
      (DeleteBinding B org appName serviceName username s).state
        = (B.BoundServicesUnset s app.Meta serviceName).2) := by
  refine ⟨?_, ?_, ?_, ?_⟩
  · intro app workload oldBound newBound s1 hl hw hv hn hu hb
    have h := (DeleteBinding_with_workload B org appName serviceName username s s1 app workload
      oldBound newBound hl hw hv hn hu hb).1
    refine ⟨h, ?_⟩
    rw [h]
    simp [Call.isWorkloadChange]
  · intro hl
    simp [DeleteBinding, hl]
  · intro app hl hv
    simp [DeleteBinding, hl, hv]
  · intro app oldBound hl hw hv hn
    rcases hu : B.BoundServicesUnset s app.Meta serviceName with ⟨e, s1⟩
    cases e <;>
      simp [DeleteBinding, hl, hv, hn, hu, hw, Call.changesState, Call.isMutation,
        Call.isRegistryWrite, Call.isDeploy, Call.isLedgerWrite, Call.isUnset,
        Call.isWorkloadChange]

/-- Witness of C30: unbinding `db` from the deployed application `blog`, bound to `cache` and
`db`, passes the names `cache` and `db` read before the unset as old state and the one
service `cache` read after it as new state; unbinding from the unknown application `ghost`
and unbinding the unknown service `queue` stop at the lookups; unbinding `db` from `shop`,
which has no workload, ends with the unset. -/
theorem DeleteBinding_change_witness :
    ((DeleteBinding (registryBackend noFault 1) "ns" "blog" "db" "admin" mountedRegistry).calls
      = [.ApplicationLookup "ns" "blog", .ServicesLookup "ns" "db",
         .BoundServiceNameSet ⟨"blog", "ns"⟩, .BoundServicesUnset ⟨"blog", "ns"⟩ "db",
         .BoundServices ⟨"blog", "ns"⟩,
         .BoundServicesChange ⟨"blog", "ns"⟩ "admin" ["cache", "db"] [⟨"cache", "ns"⟩]] ∧
    (DeleteBinding (registryBackend noFault 1) "ns" "blog" "db" "admin"
        mountedRegistry).calls.filter Call.isWorkloadChange
      = [.BoundServicesChange ⟨"blog", "ns"⟩ "admin" ["cache", "db"] [⟨"cache", "ns"⟩]]) ∧
    ((DeleteBinding (registryBackend noFault 1) "ns" "ghost" "db" "admin" mountedRegistry).result
      = some (.single (.AppIsNotKnown "ghost")) ∧
    (DeleteBinding (registryBackend noFault 1) "ns" "ghost" "db" "admin" mountedRegistry).calls
      = [.ApplicationLookup "ns" "ghost"] ∧
    (DeleteBinding (registryBackend noFault 1) "ns" "ghost" "db" "admin" mountedRegistry).state
      = mountedRegistry) ∧
    ((DeleteBinding (registryBackend noFault 1) "ns" "blog" "queue" "admin"
        mountedRegistry).result
      = some (.single (.ServiceIsNotKnown "queue")) ∧
    (DeleteBinding (registryBackend noFault 1) "ns" "blog" "queue" "admin"
        mountedRegistry).calls
      = [.ApplicationLookup "ns" "blog", .ServicesLookup "ns" "queue"] ∧
    (DeleteBinding (registryBackend noFault 1) "ns" "blog" "queue" "admin"
        mountedRegistry).state
      = mountedRegistry) ∧
    ((DeleteBinding (registryBackend noFault 1) "ns" "shop" "db" "admin" mountedRegistry).calls
      = [.ApplicationLookup "ns" "shop", .ServicesLookup "ns" "db",
         .BoundServiceNameSet ⟨"shop", "ns"⟩, .BoundServicesUnset ⟨"shop", "ns"⟩ "db"] ∧
    (DeleteBinding (registryBackend noFault 1) "ns" "shop" "db" "admin"
        mountedRegistry).calls.filter Call.changesState
      = [.BoundServicesUnset ⟨"shop", "ns"⟩ "db"] ∧
    (DeleteBinding (registryBackend noFault 1) "ns" "shop" "db" "admin" mountedRegistry).state
      = ((registryBackend noFault 1).BoundServicesUnset mountedRegistry ⟨"shop", "ns"⟩
          "db").2) :=
  ⟨(DeleteBinding_change (registryBackend noFault 1) "ns" "blog" "db" "admin"
      mountedRegistry).1
      ⟨⟨"blog", "ns"⟩, "admin", 2, ["cache", "db"], [], some ⟨"stage1", none⟩⟩
      ⟨"stage1", none⟩ ["cache", "db"] [⟨"cache", "ns"⟩] _
      (by rfl) (by rfl) (by rfl) (by rfl) (by rfl) (by rfl),
    (DeleteBinding_change (registryBackend noFault 1) "ns" "ghost" "db" "admin"
      mountedRegistry).2.1 (by rfl),
    (DeleteBinding_change (registryBackend noFault 1) "ns" "blog" "queue" "admin"
      mountedRegistry).2.2.1
      ⟨⟨"blog", "ns"⟩, "admin", 2, ["cache", "db"], [], some ⟨"stage1", none⟩⟩
      (by rfl) (by rfl),
    (DeleteBinding_change (registryBackend noFault 1) "ns" "shop" "db" "admin"
      mountedRegistry).2.2.2
      ⟨⟨"shop", "ns"⟩, "admin", 1, ["db"], [], none⟩ ["db"]
      (by rfl) (by rfl) (by rfl) (by rfl)⟩

/-- C25 as stated fails: on the deployed application `blog`, DeleteBinding itself invokes the
workload's BoundServicesChange. -/
theorem DeleteBinding_workload_counterexample :
    ¬ (∀ (w : Registry) (org appName serviceName username : String),
        ∀ c ∈ (DeleteBinding (registryBackend noFault 1) org appName serviceName username
          w).calls, c.isWorkloadChange = false ∧ c.isDeploy = false) := by
  intro h
  have h1 := (h ledgerRegistry "ns" "blog" "db" "admin"
    (.BoundServicesChange ⟨"blog", "ns"⟩ "admin" [] []) (by decide)).1
  exact absurd h1 (by decide)

/-- C25, amended: DeleteBinding never invokes the deployment reconciler; for an application
without workload it invokes no operation on a workload; for an application with a workload,
once the reads and the unset succeeded, it invokes the workload's BoundServicesChange itself,
once, after BoundServicesUnset. -/
theorem DeleteBinding_workload_operations {σ : Type} (B : Backend σ)
    (org appName serviceName username : String) (s : σ) (app : App)
    (hl : B.ApplicationLookup s org appName = .ok (some app)) :
    (DeleteBinding B org appName serviceName username s).calls.filter Call.isDeploy = [] ∧
    (app.Workload = none →
      (DeleteBinding B org appName serviceName username s).calls.filter Call.isWorkloadChange
        = []) ∧
    (∀ workload oldBound newBound s1,
      app.Workload = some workload →
      B.ServicesLookup s org serviceName = none →
      B.BoundServiceNameSet s app.Meta = .ok oldBound →
      B.BoundServicesUnset s app.Meta serviceName = (none, s1) →
      B.BoundServices s1 app.Meta = .ok newBound →
      (DeleteBinding B org appName serviceName username s).calls.filter Call.changesState
        = [.BoundServicesUnset app.Meta serviceName,
           .BoundServicesChange app.Meta username oldBound newBound]) := by
  obtain ⟨hall, hchange⟩ := DeleteBinding_cases B org appName serviceName username s
  refine ⟨?_, ?_, ?_⟩
  · rw [List.filter_eq_nil_iff]
    intro c hm
    simp [(hall c hm).1]
  · intro hw
    rw [List.filter_eq_nil_iff]
    intro c hm hc
    obtain ⟨found, workload, hl2, hw2⟩ := hchange ⟨c, hm, hc⟩
    rw [hl] at hl2
    cases hl2
    rw [hw] at hw2
    cases hw2
  · intro workload oldBound newBound s1 hw hv hn hu hb
    rw [(DeleteBinding_with_workload B org appName serviceName username s s1 app workload
      oldBound newBound hl hw hv hn hu hb).1]
    simp [Call.changesState, Call.isMutation, Call.isRegistryWrite, Call.isDeploy,
      Call.isLedgerWrite, Call.isUnset, Call.isWorkloadChange]

/-- Witness of C25, amended: unbinding `db` from `blog`, which has a workload. -/
theorem DeleteBinding_workload_operations_witness :
    (DeleteBinding (registryBackend noFault 1) "ns" "blog" "db" "admin"
        ledgerRegistry).calls.filter Call.isDeploy = [] ∧
    (DeleteBinding (registryBackend noFault 1) "ns" "blog" "db" "admin"
        ledgerRegistry).calls.filter Call.changesState
      = [.BoundServicesUnset ⟨"blog", "ns"⟩ "db",
         .BoundServicesChange ⟨"blog", "ns"⟩ "admin" [] []] :=
  have h := DeleteBinding_workload_operations (registryBackend noFault 1) "ns" "blog" "db"
    "admin" ledgerRegistry ⟨⟨"blog", "ns"⟩, "admin", 2, [], [], some ⟨"stage1", none⟩⟩ (by rfl)
  ⟨h.1, h.2.2 ⟨"stage1", none⟩ [] [] _ (by rfl) (by rfl) (by rfl) (by rfl) (by rfl)⟩

/-! ## DeleteBinding on the registry -/

/-- Unsetting a name twice is unsetting it once. -/
theorem unsetService_idem (names : List String) (name : String) :
    unsetService (unsetService names name) name = unsetService names name := by
  simp [unsetService, List.filter_filter]

/-- Unsetting a name that is not recorded changes nothing. -/
theorem unsetService_absent (names : List String) (name : String) (h : name ∉ names) :
    unsetService names name = names := by
  simp only [unsetService, List.filter_eq_self]
  intro n hn
  have hne : n ≠ name := fun e => h (e ▸ hn)
  simpa using hne

/-- Unsetting the name just merged in gives the names there were, without that name. -/
theorem unsetService_merge (names : List String) (name : String) :
    unsetService (mergeServices names [name]) name = unsetService names name := by
  simp only [unsetService, mergeServices, List.filter_append, List.filter_filter]
  have : List.filter (fun a => (decide (a ≠ name) && !names.contains a)) [name] = [] := by
    simp
  simp [this]

/-- A successful run of `DeleteBinding` on the registry found the application and ends in the
state in which the service name is removed from its record; nothing else has changed. -/
theorem DeleteBinding_registry_success (fault : Call → Option String) (DefaultInstances : Int)
    (org appName serviceName username : String) (t : Registry)
    (h : (DeleteBinding (registryBackend fault DefaultInstances) org appName serviceName
      username t).result = none) :
    ∃ app, t.Lookup org appName = some app ∧
      (DeleteBinding (registryBackend fault DefaultInstances) org appName serviceName
        username t).state
        = t.update (NewAppRef appName org)
            (fun a => { a with Services := unsetService a.Services serviceName }) := by
  cases hl : (registryBackend fault DefaultInstances).ApplicationLookup t org appName with
  | error err => simp [DeleteBinding, hl] at h
  | ok found =>
  cases found with
  | none => simp [DeleteBinding, hl] at h
  | some app =>
  have hlook : t.Lookup org appName = some app := by
    simp only [registryBackend] at hl
    split at hl
    · simp at hl
    · simpa using hl
  obtain ⟨hmeta, -, -⟩ := Registry.set_found t org appName app
    (fun a => { a with Services := unsetService a.Services serviceName }) (fun _ => rfl) hlook
  refine ⟨app, hlook, ?_⟩
  cases hv : (registryBackend fault DefaultInstances).ServicesLookup t org serviceName with
  | some err =>
    by_cases he : err = "service not found"
    · simp [DeleteBinding, hl, hv, he] at h
    · simp [DeleteBinding, hl, hv, he] at h
  | none =>
  cases hn : (registryBackend fault DefaultInstances).BoundServiceNameSet t app.Meta with
  | error err => simp [DeleteBinding, hl, hv, hn] at h
  | ok oldBound =>
  rcases hu : (registryBackend fault DefaultInstances).BoundServicesUnset t app.Meta
    serviceName with ⟨e, s1⟩
  cases e with
  | some err => simp [DeleteBinding, hl, hv, hn, hu] at h
  | none =>
  have e1 : s1 = t.update (NewAppRef appName org)
      (fun a => { a with Services := unsetService a.Services serviceName }) := by
    simp only [registryBackend] at hu
    split at hu
    · simp at hu
    · rw [hmeta] at hu
      exact Registry.set_ok _ _ _ _ hu
  cases hw : app.Workload with
  | none =>
    simp only [DeleteBinding, hl, hv, hn, hu, hw]
    simpa using e1
  | some workload =>
  cases hb : (registryBackend fault DefaultInstances).BoundServices s1 app.Meta with
  | error err => simp [DeleteBinding, hl, hv, hn, hu, hw, hb] at h
  | ok newBound =>
  rcases hx : (registryBackend fault DefaultInstances).BoundServicesChange s1 app.Meta username
    oldBound newBound with ⟨e, s2⟩
  cases e with
  | some err => simp [DeleteBinding, hl, hv, hn, hu, hw, hb, hx] at h
  | none =>
    have e2 : s2 = s1 := by
      simp only [registryBackend] at hx
      split at hx
      · simp at hx
      · split at hx
        · exact (Prod.mk.inj hx).2.symm
        · simp at hx
    simp only [DeleteBinding, hl, hv, hn, hu, hw, hb, hx]
    simp [e2, e1]

/-- On the registry without faults, `DeleteBinding` of an existing service from an existing
application without workload succeeds, whether the service was bound or not. -/
theorem DeleteBinding_registry_idle (fault : Call → Option String) (DefaultInstances : Int)
    (org appName serviceName username : String) (t : Registry) (app : App)
    (hfault : ∀ c, fault c = none)
    (hl : t.Lookup org appName = some app)
    (hw : app.Workload = none)
    (hsvc : t.services.contains (org, serviceName) = true) :
    (DeleteBinding (registryBackend fault DefaultInstances) org appName serviceName
      username t).result = none := by
  obtain ⟨hmeta, hset, -⟩ := Registry.set_found t org appName app
    (fun a => { a with Services := unsetService a.Services serviceName }) (fun _ => rfl) hl
  have hB : (registryBackend fault DefaultInstances).ApplicationLookup t org appName
      = .ok (some app) := by
    simp [registryBackend, hfault, hl]
  have hv : (registryBackend fault DefaultInstances).ServicesLookup t org serviceName = none := by
    simp only [registryBackend, hfault, hsvc]
    simp
  have hn : (registryBackend fault DefaultInstances).BoundServiceNameSet t app.Meta
      = .ok app.Services := by
    simp only [registryBackend, hfault, hmeta, NewAppRef, hl]
  have hu : (registryBackend fault DefaultInstances).BoundServicesUnset t app.Meta serviceName
      = (none, t.update (NewAppRef appName org)
          (fun a => { a with Services := unsetService a.Services serviceName })) := by
    simp only [registryBackend, hfault]
    rw [hmeta, hset]
  simp [DeleteBinding, hB, hv, hn, hu, hw]

/-- C24: unbinding is idempotent.  On the registry without faults, for an existing
application without workload and an existing service, DeleteBinding returns no error, also
when the service is not bound (the record is then unchanged); applied a second time it
returns no error again and leaves the application with the same bound services as after the
first time. -/
theorem DeleteBinding_idempotent (fault : Call → Option String) (DefaultInstances : Int)
    (org appName serviceName username : String) (w : Registry) (app : App)
    (hfault : ∀ c, fault c = none)
    (hl : w.Lookup org appName = some app)
    (hw : app.Workload = none)
    (hsvc : w.services.contains (org, serviceName) = true) :
    (DeleteBinding (registryBackend fault DefaultInstances) org appName serviceName
      username w).result = none ∧
    (serviceName ∉ app.Services →
      (DeleteBinding (registryBackend fault DefaultInstances) org appName serviceName
        username w).state.Lookup org appName = some app) ∧
    (DeleteBinding (registryBackend fault DefaultInstances) org appName serviceName username
      (DeleteBinding (registryBackend fault DefaultInstances) org appName serviceName
        username w).state).result = none ∧
    (∃ after,
      (DeleteBinding (registryBackend fault DefaultInstances) org appName serviceName
        username w).state.Lookup org appName = some after ∧
      after.Services = unsetService app.Services serviceName ∧
      (DeleteBinding (registryBackend fault DefaultInstances) org appName serviceName username
        (DeleteBinding (registryBackend fault DefaultInstances) org appName serviceName
          username w).state).state.Lookup org appName = some after) := by
  have h1 := DeleteBinding_registry_idle fault DefaultInstances org appName serviceName username
    w app hfault hl hw hsvc
  obtain ⟨app1, hl1, hs1⟩ := DeleteBinding_registry_success fault DefaultInstances org appName
    serviceName username w h1
  have hlook1 : (DeleteBinding (registryBackend fault DefaultInstances) org appName serviceName
      username w).state.Lookup org appName
      = some { app with Services := unsetService app.Services serviceName } := by
    rw [hs1, Registry.Lookup_update, hl]
    · rfl
    · intro a; rfl
  have hsvc1 : (DeleteBinding (registryBackend fault DefaultInstances) org appName serviceName
      username w).state.services.contains (org, serviceName) = true := by
    rw [hs1]
    exact hsvc
  have h2 := DeleteBinding_registry_idle fault DefaultInstances org appName serviceName username
    _ _ hfault hlook1 hw hsvc1
  obtain ⟨app2, hl2, hs2⟩ := DeleteBinding_registry_success fault DefaultInstances org appName
    serviceName username _ h2
  refine ⟨h1, ?_, h2, ⟨_, hlook1, rfl, ?_⟩⟩
  · intro hnot
    rw [hlook1, unsetService_absent _ _ hnot]
  · rw [hs2, Registry.Lookup_update, hlook1]
    · simp [unsetService_idem]
    · intro a; rfl

/-- Witness of C24: unbinding `db`, which is not bound, from `shop`, once and twice. -/
theorem DeleteBinding_idempotent_witness :
    (DeleteBinding (registryBackend noFault 1) "ns" "shop" "db" "admin" ledgerRegistry).result
      = none ∧
    (DeleteBinding (registryBackend noFault 1) "ns" "shop" "db" "admin"
      ledgerRegistry).state.Lookup "ns" "shop"
      = some ⟨⟨"shop", "ns"⟩, "admin", 1, ["cache"], [], none⟩ ∧
    (DeleteBinding (registryBackend noFault 1) "ns" "shop" "db" "admin"
      (DeleteBinding (registryBackend noFault 1) "ns" "shop" "db" "admin"
        ledgerRegistry).state).result = none :=
  have h := DeleteBinding_idempotent noFault 1 "ns" "shop" "db" "admin" ledgerRegistry
    ⟨⟨"shop", "ns"⟩, "admin", 1, ["cache"], [], none⟩ (fun _ => rfl) (by rfl) (by rfl) (by rfl)
  ⟨h.1, h.2.1 (by decide), h.2.2.1⟩

/-! ## Bind, then DeleteBinding -/

/-- A successful run of `Bind` on the registry found the application and ends in the state in
which the secrets of the service are labelled, bound to the application, and the service name
is merged into its record. -/
theorem Bind_registry_success (fault : Call → Option String) (DefaultInstances : Int)
    (r : BindRequest) (w : Registry)
    (h : (Bind (registryBackend fault DefaultInstances) r w).result = none) :
    ∃ bindRequest app, r.body = .ok bindRequest ∧
      w.Lookup r.namespaceName bindRequest.AppName = some app ∧
      (Bind (registryBackend fault DefaultInstances) r w).state
        = ((w.label r.namespaceName (w.serviceSecrets r.namespaceName r.serviceName)).bind
            app.Meta (w.serviceSecrets r.namespaceName r.serviceName)).update
            (NewAppRef bindRequest.AppName r.namespaceName)
            (fun a => { a with Services := mergeServices a.Services [r.serviceName] }) := by
  rcases (Bind_cases (registryBackend fault DefaultInstances) r w).2 with
    ⟨-, hne⟩ | ⟨req, app, secrets, t1, t2, hb, -, hl, -, hs, hx, -, hstate, hiff⟩
  · exact absurd h hne
  · have hlook : w.Lookup r.namespaceName req.AppName = some app := by
      simp only [registryBackend] at hl
      split at hl
      · simp at hl
      · simpa using hl
    have e1 : secrets.map Secret.Name = w.serviceSecrets r.namespaceName r.serviceName ∧
        t1 = w.label r.namespaceName (w.serviceSecrets r.namespaceName r.serviceName) := by
      simp only [registryBackend] at hs
      split at hs
      · simp at hs
      · have h1 := (Prod.mk.inj hs).1
        have h2 := (Prod.mk.inj hs).2
        injection h1 with h1
        exact ⟨by rw [← h1]; simp [Function.comp_def], h2.symm⟩
    have e2 : t2 = t1.bind app.Meta (secrets.map Secret.Name) := by
      simp only [registryBackend] at hx
      split at hx
      · simp at hx
      · split at hx
        · exact (Prod.mk.inj hx).2.symm
        · simp at hx
    have hlook2 : t2.Lookup r.namespaceName req.AppName = some app := by
      rw [e2, e1.2]
      exact (Registry.Lookup_of_apps _ w r.namespaceName req.AppName rfl).trans hlook
    obtain ⟨hmeta, hset, -⟩ := Registry.set_found t2 r.namespaceName req.AppName app
      (fun a => { a with Services := mergeServices a.Services [r.serviceName] })
      (fun _ => rfl) hlook2
    have hnone := hiff.mp h
    have hbss : (registryBackend fault DefaultInstances).BoundServicesSet t2 app.Meta
        [r.serviceName] false
        = (none, t2.update (NewAppRef req.AppName r.namespaceName)
            (fun a => { a with Services := mergeServices a.Services [r.serviceName] })) := by
      cases hfault : fault (.BoundServicesSet app.Meta [r.serviceName] false) with
      | some err => simp [registryBackend, hfault] at hnone
      | none =>
        simp only [registryBackend, hfault]
        rw [hmeta]
        simpa using hset
    refine ⟨req, app, hb, hlook, ?_⟩
    rw [hstate, hbss, e2, e1.1, e1.2]

/-- C23 as stated fails: binding `db` to `shop` and unbinding it again leaves `shop` bound to
the configuration `db-conn`, to which it was not bound before. -/
theorem Bind_DeleteBinding_round_trip_counterexample :
    ¬ (∀ (w : Registry) (r : BindRequest) (bindRequest : ServiceBindRequest) (username : String),
        r.body = .ok bindRequest →
        (Bind (registryBackend noFault 1) r w).result = none →
        (DeleteBinding (registryBackend noFault 1) r.namespaceName bindRequest.AppName
          r.serviceName username (Bind (registryBackend noFault 1) r w).state).result = none →
        ∀ n, n ∈ (DeleteBinding (registryBackend noFault 1) r.namespaceName bindRequest.AppName
              r.serviceName username
              (Bind (registryBackend noFault 1) r w).state).state.boundConfigurations
              (NewAppRef bindRequest.AppName r.namespaceName)
          ↔ n ∈ w.boundConfigurations (NewAppRef bindRequest.AppName r.namespaceName)) := by
  intro h
  have h1 := (h ledgerRegistry bindShop ⟨"shop"⟩ "admin" (by rfl) (by rfl) (by rfl) "db-conn").mp
    (by decide)
  exact absurd h1 (by decide)

/-- C23, amended: on the registry, when Bind succeeds and the DeleteBinding of that service
from that application then succeeds, the bound services of the application are those it had
before the bind without the service name, hence exactly those before when the service was not
among them; the bindings of the ledger are those right after the bind: every binding there
was before is still there, and so are the configuration bindings created by the bind. -/
theorem Bind_then_DeleteBinding (fault : Call → Option String) (DefaultInstances : Int)
    (r : BindRequest) (w : Registry) (bindRequest : ServiceBindRequest) (username : String)
    (hb : r.body = .ok bindRequest)
    (h1 : (Bind (registryBackend fault DefaultInstances) r w).result = none)
    (h2 : (DeleteBinding (registryBackend fault DefaultInstances) r.namespaceName
      bindRequest.AppName r.serviceName username
      (Bind (registryBackend fault DefaultInstances) r w).state).result = none) :
    ∃ app after, w.Lookup r.namespaceName bindRequest.AppName = some app ∧
      (DeleteBinding (registryBackend fault DefaultInstances) r.namespaceName
        bindRequest.AppName r.serviceName username
        (Bind (registryBackend fault DefaultInstances) r w).state).state.Lookup
        r.namespaceName bindRequest.AppName = some after ∧
      after.Services = unsetService app.Services r.serviceName ∧
      (r.serviceName ∉ app.Services → after.Services = app.Services) ∧
      (DeleteBinding (registryBackend fault DefaultInstances) r.namespaceName
        bindRequest.AppName r.serviceName username
        (Bind (registryBackend fault DefaultInstances) r w).state).state.bindings
        = (Bind (registryBackend fault DefaultInstances) r w).state.bindings ∧
      (∀ b ∈ w.bindings,
        b ∈ (DeleteBinding (registryBackend fault DefaultInstances) r.namespaceName
          bindRequest.AppName r.serviceName username
          (Bind (registryBackend fault DefaultInstances) r w).state).state.bindings) ∧
      (∀ n ∈ w.serviceSecrets r.namespaceName r.serviceName,
        (app.Meta, n) ∈ (DeleteBinding (registryBackend fault DefaultInstances)
          r.namespaceName bindRequest.AppName r.serviceName username
          (Bind (registryBackend fault DefaultInstances) r w).state).state.bindings) := by
  obtain ⟨req, app, hb2, hlook, hbind⟩ := Bind_registry_success fault DefaultInstances r w h1
  rw [hb] at hb2
  cases hb2
  obtain ⟨found, -, hdel⟩ := DeleteBinding_registry_success fault DefaultInstances
    r.namespaceName bindRequest.AppName r.serviceName username _ h2
  have hlookB : (Bind (registryBackend fault DefaultInstances) r w).state.Lookup
      r.namespaceName bindRequest.AppName
      = some { app with Services := mergeServices app.Services [r.serviceName] } := by
    have hX : ((w.label r.namespaceName (w.serviceSecrets r.namespaceName r.serviceName)).bind
        app.Meta (w.serviceSecrets r.namespaceName r.serviceName)).Lookup r.namespaceName
        bindRequest.AppName = some app :=
      (Registry.Lookup_of_apps _ w r.namespaceName bindRequest.AppName rfl).trans hlook
    rw [hbind, Registry.Lookup_update, hX]
    · rfl
    · intro a; rfl
  have hlookD : (DeleteBinding (registryBackend fault DefaultInstances) r.namespaceName
      bindRequest.AppName r.serviceName username
      (Bind (registryBackend fault DefaultInstances) r w).state).state.Lookup
      r.namespaceName bindRequest.AppName
      = some { app with Services := unsetService app.Services r.serviceName } := by
    rw [hdel, Registry.Lookup_update, hlookB]
    · simp [unsetService_merge]
    · intro a; rfl
  have hbindings : (DeleteBinding (registryBackend fault DefaultInstances) r.namespaceName
      bindRequest.AppName r.serviceName username
      (Bind (registryBackend fault DefaultInstances) r w).state).state.bindings
      = (Bind (registryBackend fault DefaultInstances) r w).state.bindings := by
    rw [hdel]
    rfl
  have hB : (Bind (registryBackend fault DefaultInstances) r w).state.bindings
      = ((w.label r.namespaceName (w.serviceSecrets r.namespaceName r.serviceName)).bind
          app.Meta (w.serviceSecrets r.namespaceName r.serviceName)).bindings := by
    rw [hbind]
    rfl
  refine ⟨app, _, hlook, hlookD, rfl, ?_, hbindings, ?_, ?_⟩
  · intro hnot
    exact unsetService_absent _ _ hnot
  · intro b hmem
    rw [hbindings, hB]
    exact (Registry.bind_mem _ app.Meta _).1 b hmem
  · intro n hmem
    rw [hbindings, hB]
    exact (Registry.bind_mem _ app.Meta _).2 n hmem

/-- Witness of C23, amended: `db` bound to `shop` and unbound again. -/
theorem Bind_then_DeleteBinding_witness :
    (Bind (registryBackend noFault 1) bindShop ledgerRegistry).result = none ∧
    (DeleteBinding (registryBackend noFault 1) "ns" "shop" "db" "admin"
      (Bind (registryBackend noFault 1) bindShop ledgerRegistry).state).result = none ∧
    ∃ app after, ledgerRegistry.Lookup "ns" "shop" = some app ∧
      (DeleteBinding (registryBackend noFault 1) "ns" "shop" "db" "admin"
        (Bind (registryBackend noFault 1) bindShop ledgerRegistry).state).state.Lookup
        "ns" "shop" = some after ∧
      after.Services = unsetService app.Services "db" ∧
      ("db" ∉ app.Services → after.Services = app.Services) ∧
      (DeleteBinding (registryBackend noFault 1) "ns" "shop" "db" "admin"
        (Bind (registryBackend noFault 1) bindShop ledgerRegistry).state).state.bindings
        = (Bind (registryBackend noFault 1) bindShop ledgerRegistry).state.bindings ∧
      (∀ b ∈ ledgerRegistry.bindings,
        b ∈ (DeleteBinding (registryBackend noFault 1) "ns" "shop" "db" "admin"
          (Bind (registryBackend noFault 1) bindShop ledgerRegistry).state).state.bindings) ∧
      (∀ n ∈ ledgerRegistry.serviceSecrets "ns" "db",
        (app.Meta, n) ∈ (DeleteBinding (registryBackend noFault 1) "ns" "shop" "db" "admin"
          (Bind (registryBackend noFault 1) bindShop ledgerRegistry).state).state.bindings) :=
  ⟨by rfl, by rfl,
    Bind_then_DeleteBinding noFault 1 bindShop ledgerRegistry ⟨"shop"⟩ "admin" (by rfl) (by rfl)
      (by rfl)⟩

end Epinio
